import Mathlib

/-! Meraki telemetry collection: a shallow embedding.

The Go sources under `x-pack/metricbeat/module/meraki` are embedded as pure Lean
functions.

* Go maps (`map[K]V`, `mapstr.M`) are `GoMap`: a key-unique association list, so
  that a map is determined by its lookups and its length.
* `reporter.Event(e)` appends `e` to the list of reported events.
* The vendor client is a record of response functions.
* Go errors and runtime panics are the two sides of `Failure`.
* A finite `float64` is the rational it stands for; an operation on `float64`
  values is the exact operation followed by the rounding to the nearest `float64`.
  `time.Time` and `time.Duration` are counts of nanoseconds; the zero `Time` is `0`.
* The `panos/temperature` metricset is embedded in the namespace `Panos`.
-/

namespace Meraki

/-! ## Go maps -/

/-- A Go map: at most one entry per key. -/
structure GoMap (κ : Type) (α : Type) [DecidableEq κ] where
  entries : List (κ × α)
  nodup : (entries.map Prod.fst).Nodup

namespace GoMap

variable {κ α : Type} [DecidableEq κ]

instance [DecidableEq α] : DecidableEq (GoMap κ α) := fun a b =>
  decidable_of_iff (a.entries = b.entries) (by cases a; cases b; simp)

/-- The map literal with no entries, and `make(map[K]V)`. -/
def empty : GoMap κ α := ⟨[], List.nodup_nil⟩

/-- Lookup in an association list: the first entry under `k`. -/
def lookup (k : κ) : List (κ × α) → Option α
  | [] => none
  | (k', v) :: rest => if k' = k then some v else lookup k rest

/-- Go `v, ok := m[k]`. -/
def get (m : GoMap κ α) (k : κ) : Option α := lookup k m.entries

/-- Go `len(m)`. -/
def len (m : GoMap κ α) : Nat := m.entries.length

/-- Go `m[k] = v`: the entry under `k`, if any, is replaced. -/
def put (m : GoMap κ α) (k : κ) (v : α) : GoMap κ α :=
  ⟨(m.entries.filter (fun e => !decide (e.1 = k))) ++ [(k, v)], by
    rw [List.map_append, List.nodup_append]
    refine ⟨(m.nodup.sublist ((List.filter_sublist m.entries).map Prod.fst)), by simp, ?_⟩
    intro a ha hb
    simp only [List.map_cons, List.map_nil, List.mem_singleton] at hb
    subst hb
    simp only [List.mem_map, List.mem_filter] at ha
    obtain ⟨e, ⟨_, he⟩, rfl⟩ := ha
    simp at he⟩

/-- Go `delete(m, k)`. -/
def delete (m : GoMap κ α) (k : κ) : GoMap κ α :=
  ⟨m.entries.filter (fun e => !decide (e.1 = k)),
    m.nodup.sublist ((List.filter_sublist m.entries).map Prod.fst)⟩

/-- Assign every entry of a list, in order: `for k, v := range l { m[k] = v }`. -/
def putAll (m : GoMap κ α) (l : List (κ × α)) : GoMap κ α :=
  l.foldl (fun acc e => acc.put e.1 e.2) m

/-- A composite map literal `map[K]V{k1: v1, ...}`. -/
def ofList (l : List (κ × α)) : GoMap κ α := putAll empty l

end GoMap

/-! ## Time -/

/-- Go `time.Duration`: a count of nanoseconds. -/
abbrev Duration := Int

/-- Go `time.Time`: nanoseconds counted from the zero `Time`. -/
abbrev Time := Int

/-- Go `time.Second`. -/
def Second : Duration := 1000000000

/-- Rounding of a rational to the nearest integer, a tie going to the even one. -/
def roundHalfEven (t : ℚ) : ℤ :=
  let n := ⌊t⌋
  if t - n < 1 / 2 then n
  else if 1 / 2 < t - n then n + 1
  else if n % 2 = 0 then n else n + 1

/-- The spacing of the `float64` values around `x`: `2 ^ (e - 52)` when
`2 ^ e ≤ |x| < 2 ^ (e + 1)`, with 53 significant bits, and the spacing
`2 ^ (-1074)` of the subnormal values below `2 ^ (-1022)`. -/
def Float64.spacing (x : ℚ) : ℚ := (2 : ℚ) ^ (max (Int.log 2 |x|) (-1022) - 52)

/-- The `float64` nearest to `x`, a tie going to the even significand: the
rounding of the IEEE 754 operations of Go. The values met here are far below the
largest `float64`, so there is no overflow to model. -/
def Float64.round (x : ℚ) : ℚ := roundHalfEven (x / Float64.spacing x) * Float64.spacing x

/-- Go `float64(n)` for an integer `n`. -/
def Float64.ofInt (n : Int) : ℚ := Float64.round n

/-- Go `x + y` on `float64` values. -/
def Float64.add (x y : ℚ) : ℚ := Float64.round (x + y)

/-- Go `x / y` on `float64` values, for a divisor other than zero. -/
def Float64.div (x y : ℚ) : ℚ := Float64.round (x / y)

/-- Go `Duration.Seconds`: with `sec := d / Second` and `nsec := d % Second` in
truncated integer division, `float64(sec) + float64(nsec)/1e9`. -/
def Duration.Seconds (d : Duration) : ℚ :=
  let sec := Int.tdiv d Second
  let nsec := Int.tmod d Second
  Float64.add (Float64.ofInt sec) (Float64.div (Float64.ofInt nsec) 1000000000)

/-- The query parameters of the loss-and-latency endpoint. -/
structure GetOrganizationDevicesUplinksLossAndLatencyQueryParams where
  Timespan : ℚ
deriving DecidableEq

/-- The query parameters built by `getDeviceUplinkMetrics` for a collection
period: `Timespan: period.Seconds() + 10`, a `float64` sum. -/
def lossAndLatencyQueryParams (period : Duration) :
    GetOrganizationDevicesUplinksLossAndLatencyQueryParams :=
  { Timespan := Float64.add (Duration.Seconds period) 10 }

/-! ## Values, events and the reporter -/

/-- The dynamically typed values stored in a `mapstr.M`. -/
inductive Value where
  | str (s : String)
  | time (t : Time)
  | float (f : ℚ)
  | floatPtr (f : Option ℚ)
  | floatPtrs (fs : List (Option ℚ))
  | strs (ss : List String)
  | boolPtr (b : Option Bool)
  | int (n : Int)
deriving DecidableEq

/-- Go `mapstr.M`, a `map[string]interface{}`. -/
abbrev M := GoMap String Value

/-- Go `mapstr.Union`: a fresh map holding `dict1`, then `dict2` written over it. -/
def Union (dict1 dict2 : M) : M :=
  (GoMap.empty.putAll dict1.entries).putAll dict2.entries

/-- Go `M.Update`: every entry of `d` is written into `m`. -/
def M.Update (m d : M) : M := m.putAll d.entries

/-- Go `mb.Event`, restricted to the fields this module sets. -/
structure Event where
  Timestamp : Time
  ModuleFields : M
deriving DecidableEq

/-- The events handed to `reporter.Event`, oldest first. -/
abbrev Reporter := List Event

/-- Go `reporter.Event(event)`. -/
def Reporter.Event (reporter : Reporter) (event : Event) : Reporter := reporter ++ [event]

/-- Modelled from the spec: the reporter of the host framework (package `mb`, not
among the sources) stamps an event whose `Timestamp` was left at the zero value:
"if the sample carries an explicit timestamp, use it as the event's time;
otherwise use the collection instant". -/
def eventTime (collectionInstant : Time) (event : Event) : Time :=
  if event.Timestamp = 0 then collectionInstant else event.Timestamp

/-! ## Failures -/

/-- A failed call of the vendor SDK that comes with a response: what
`res.StatusCode()` and `res.Body()` read from it, and the returned `err`. -/
structure ApiError where
  StatusCode : Int
  Body : String
  Err : String
deriving DecidableEq

/-- What a failed call of the vendor SDK returns. On a transport failure the
request got no response: `res` is nil and only `err` is set. On an error status
the response comes with `err`. -/
inductive CallError where
  | transport (err : String)
  | response (e : ApiError)
deriving DecidableEq

/-- The ways a function of this module stops early: a returned `error`, a
runtime panic, or the end of the process in `log.Fatal`. -/
inductive Failure where
  | api (call : String) (e : ApiError)
  | timestamp (ts : String)
  | nilMapWrite
  | nilDereference
  | fatal (msg : String)
deriving DecidableEq

/-- The error a caller builds from a failed SDK call with
`fmt.Errorf("<call> failed; [%d] %s. %w", res.StatusCode(), res.Body(), err)`: the
arguments are evaluated first, and `res.StatusCode()` on the nil response of a
transport failure is a nil pointer dereference. -/
def callFailure (call : String) (e : CallError) : Failure :=
  match e with
  | .transport _ => .nilDereference
  | .response e => .api call e

/-- Go `m[k] = v` on a map that may be nil: assignment to an entry of a nil map
panics. -/
def mapAssign {κ α : Type} [DecidableEq κ] (m : Option (GoMap κ α)) (k : κ) (v : α) :
    Except Failure (Option (GoMap κ α)) :=
  match m with
  | none => .error .nilMapWrite
  | some m => .ok (some (m.put k v))

/-- Go `for k, v := range m` on a map that may be nil. -/
def rangeMap {κ α : Type} [DecidableEq κ] (m : Option (GoMap κ α)) : List (κ × α) :=
  match m with
  | none => []
  | some m => m.entries

/-! ## Inventory: package `meraki` -/

/-- Go `type Serial string`. -/
abbrev Serial := String

/-- Go `Device`: static device attributes. `Details` is a Go map, `none` when nil. -/
structure Device where
  Address : String
  Details : Option (GoMap String String)
  Firmware : String
  Imei : Option ℚ
  LanIP : String
  Location : List (Option ℚ)
  Mac : String
  Model : String
  Name : String
  NetworkID : String
  Notes : String
  ProductType : String
  Serial : String
  Tags : List String
deriving DecidableEq

/-- One name/value pair of the SDK's device details. -/
structure DeviceDetail where
  Name : String
  Value : String
deriving DecidableEq

/-- One item of the SDK's `GetOrganizationDevices` response. Pointer fields are
options. -/
structure ResponseItemOrganizationsGetOrganizationDevices where
  Address : String
  Details : Option (List DeviceDetail)
  Firmware : String
  Imei : Option ℚ
  LanIP : String
  Lat : Option ℚ
  Lng : Option ℚ
  Mac : String
  Model : String
  Name : String
  NetworkID : String
  Notes : String
  ProductType : String
  Serial : String
  Tags : List String
deriving DecidableEq

/-- One measurement of the loss-and-latency time series. -/
structure TimeSeriesItem where
  LatencyMs : Option ℚ
  LossPercent : Option ℚ
  Ts : String
deriving DecidableEq

/-- One item of the SDK's loss-and-latency response. -/
structure ResponseItemUplinksLossAndLatency where
  IP : String
  NetworkID : String
  Serial : String
  TimeSeries : Option (List TimeSeriesItem)
  Uplink : String
deriving DecidableEq

/-- The high-availability block of an appliance uplink status. -/
structure HighAvailability where
  Enabled : Option Bool
  Role : String
deriving DecidableEq

/-- One interface of an appliance uplink status. -/
structure ApplianceUplinkItem where
  Gateway : String
  Interface : String
  IP : String
  IPAssignedBy : String
  PrimaryDNS : String
  PublicIP : String
  SecondaryDNS : String
  Status : String
deriving DecidableEq

/-- One item of the SDK's appliance uplink statuses response. -/
structure ResponseItemApplianceUplinkStatuses where
  HighAvailability : Option HighAvailability
  LastReportedAt : String
  Model : String
  NetworkID : String
  Serial : String
  Uplinks : Option (List ApplianceUplinkItem)
deriving DecidableEq

/-- The vendor client: what each endpoint answers for an organization. -/
structure Client where
  GetOrganizationDevices : String → Except CallError (List ResponseItemOrganizationsGetOrganizationDevices)
  GetOrganizationDevicesUplinksLossAndLatency :
    String → GetOrganizationDevicesUplinksLossAndLatencyQueryParams →
      Except CallError (List ResponseItemUplinksLossAndLatency)
  GetOrganizationApplianceUplinkStatuses :
    String → Except CallError (List ResponseItemApplianceUplinkStatuses)

/-- The composite literal `Device{...}` of `GetDevices`: it leaves `Address` empty
and `Details` nil. -/
def deviceLiteral (d : ResponseItemOrganizationsGetOrganizationDevices) : Device :=
  { Address := ""
    Details := none
    Firmware := d.Firmware
    Imei := d.Imei
    LanIP := d.LanIP
    Location := [d.Lng, d.Lat]
    Mac := d.Mac
    Model := d.Model
    Name := d.Name
    NetworkID := d.NetworkID
    Notes := d.Notes
    ProductType := d.ProductType
    Serial := d.Serial
    Tags := d.Tags }

/-- The body of the loop of `GetDevices`: the `Device` built from one response
item, the literal and then the loop over the item's details. -/
def buildDevice (d : ResponseItemOrganizationsGetOrganizationDevices) : Except Failure Device :=
  let device : Device := deviceLiteral d
  match d.Details with
  | none => .ok device
  | some details =>
    details.foldlM
      (fun (device : Device) detail => do
        let details ← mapAssign device.Details detail.Name detail.Value
        pure { device with Details := details })
      device

/-- The loop of `GetDevices` over the response items. -/
def collectDevices (val : List ResponseItemOrganizationsGetOrganizationDevices) :
    Except Failure (GoMap Serial Device) :=
  val.foldlM
    (fun (devices : GoMap Serial Device) d => do
      let device ← buildDevice d
      pure (devices.put device.Serial device))
    GoMap.empty

/-- Go `meraki.GetDevices`. -/
def GetDevices (client : Client) (organizationID : String) :
    Except Failure (GoMap Serial Device) :=
  match client.GetOrganizationDevices organizationID with
  | .error e => .error (callFailure "GetOrganizationDevices" e)
  | .ok val => collectDevices val

/-- One iteration of the inner loop of `ReportMetricsForOrganization`: the event
built for a metric map, and the map as the iteration leaves it. -/
def reportMetric (organizationID : String) (metric : M) : Event × M :=
  let event : Event :=
    { Timestamp := 0, ModuleFields := GoMap.ofList [("organization_id", .str organizationID)] }
  match metric.get "@timestamp" with
  | some (.time ts) =>
    let metric := metric.delete "@timestamp"
    ({ Timestamp := ts, ModuleFields := event.ModuleFields.Update metric }, metric)
  | _ => ({ event with ModuleFields := event.ModuleFields.Update metric }, metric)

/-- The inner loop of `ReportMetricsForOrganization` over one slice. -/
def reportMetricSlice (organizationID : String) :
    Reporter → List M → Reporter × List M
  | reporter, [] => (reporter, [])
  | reporter, metric :: rest =>
    let (event, metric) := reportMetric organizationID metric
    let (reporter, rest) := reportMetricSlice organizationID (reporter.Event event) rest
    (reporter, metric :: rest)

/-- Go `meraki.ReportMetricsForOrganization`: the reporter afterwards, and the
metric maps as the call leaves them. -/
def ReportMetricsForOrganization (organizationID : String) :
    Reporter → List (List M) → Reporter × List (List M)
  | reporter, [] => (reporter, [])
  | reporter, metricSlice :: rest =>
    let (reporter, metricSlice) := reportMetricSlice organizationID reporter metricSlice
    let (reporter, rest) := ReportMetricsForOrganization organizationID reporter rest
    (reporter, metricSlice :: rest)

/-! ## Scenarios -/

/-- The strict timestamp parser `time.Parse(time.RFC3339, ·)` on the strings the
scenarios use: the first instant of 2024 (UTC) is the one well-formed string. -/
def scenarioParse (s : String) : Option Time :=
  if s = "2024-01-01T00:00:00Z" then some 63839664000000000000 else none

/-- A vendor whose organization `org1` has the device `S1` of model `X1`, one
loss-and-latency sample and one appliance uplink for it; every other organization
is answered with an error. -/
def scenarioClient : Client :=
  { GetOrganizationDevices := fun org =>
      if org = "org1" then
        .ok [{ Address := "", Details := none, Firmware := "", Imei := none, LanIP := "",
               Lat := none, Lng := none, Mac := "", Model := "X1", Name := "", NetworkID := "",
               Notes := "", ProductType := "appliance", Serial := "S1", Tags := [] }]
      else .error (.response
        { StatusCode := 404, Body := "", Err := "error with operation GetOrganizationDevices" })
    GetOrganizationDevicesUplinksLossAndLatency := fun org _ =>
      if org = "org1" then
        .ok [{ IP := "", NetworkID := "", Serial := "S1",
               TimeSeries := some [{ LatencyMs := some 10, LossPercent := some (5 / 2),
                                     Ts := "2024-01-01T00:00:00Z" }],
               Uplink := "wan1" }]
      else .error (.response
        { StatusCode := 404, Body := "", Err := "error with operation GetOrganizationDevicesUplinksLossAndLatency" })
    GetOrganizationApplianceUplinkStatuses := fun org =>
      if org = "org1" then
        .ok [{ HighAvailability := some { Enabled := some false, Role := "primary" },
               LastReportedAt := "2024-01-01T00:00:00Z", Model := "X1", NetworkID := "",
               Serial := "S1",
               Uplinks := some [{ Gateway := "", Interface := "wan1", IP := "", IPAssignedBy := "",
                                  PrimaryDNS := "", PublicIP := "", SecondaryDNS := "",
                                  Status := "active" }] }]
      else .error (.response
        { StatusCode := 404, Body := "", Err := "error with operation GetOrganizationApplianceUplinkStatuses" }) }

/-- A vendor that answers every loss-and-latency request with `val`, and has no
devices and no appliance uplinks. -/
def lossAndLatencyClient (val : List ResponseItemUplinksLossAndLatency) : Client :=
  { GetOrganizationDevices := fun _ => .ok []
    GetOrganizationDevicesUplinksLossAndLatency := fun _ _ => .ok val
    GetOrganizationApplianceUplinkStatuses := fun _ => .ok [] }

/-- A loss-and-latency response with three uplinks: `S1` has two measurements
with a value and, between them, one with none and a malformed timestamp; `S2` has
only a null measurement; `S3` has an empty series. -/
def scenarioTimeSeries : List ResponseItemUplinksLossAndLatency :=
  [ { IP := "10.0.0.1", NetworkID := "N1", Serial := "S1",
      TimeSeries := some
        [ { LatencyMs := none, LossPercent := some (5 / 2), Ts := "2024-01-01T00:00:00Z" },
          { LatencyMs := none, LossPercent := none, Ts := "yesterday" },
          { LatencyMs := some 10, LossPercent := none, Ts := "2024-01-01T00:00:00Z" } ],
      Uplink := "wan1" },
    { IP := "10.0.0.2", NetworkID := "N1", Serial := "S2",
      TimeSeries := some
        [ { LatencyMs := none, LossPercent := none, Ts := "2024-01-01T00:00:00Z" } ],
      Uplink := "wan1" },
    { IP := "10.0.0.3", NetworkID := "N1", Serial := "S3", TimeSeries := some [],
      Uplink := "wan2" } ]

/-- A loss-and-latency response whose one uplink `S1` has a measurement with a
latency and the malformed timestamp `yesterday`. -/
def malformedTimeSeries : List ResponseItemUplinksLossAndLatency :=
  [ { IP := "10.0.0.1", NetworkID := "N1", Serial := "S1",
      TimeSeries := some
        [ { LatencyMs := none, LossPercent := some 1, Ts := "2024-01-01T00:00:00Z" },
          { LatencyMs := some 10, LossPercent := none, Ts := "yesterday" } ],
      Uplink := "wan1" } ]

/-- A vendor whose device list has two entries: one with an empty serial, and
the device `S1`. -/
def keylessClient : Client :=
  { GetOrganizationDevices := fun _ =>
      .ok [ { Address := "", Details := none, Firmware := "", Imei := none, LanIP := "",
              Lat := none, Lng := none, Mac := "", Model := "X0", Name := "", NetworkID := "",
              Notes := "", ProductType := "", Serial := "", Tags := [] },
            { Address := "", Details := none, Firmware := "", Imei := none, LanIP := "",
              Lat := none, Lng := none, Mac := "", Model := "X1", Name := "", NetworkID := "",
              Notes := "", ProductType := "", Serial := "S1", Tags := [] } ]
    GetOrganizationDevicesUplinksLossAndLatency := fun _ _ => .ok []
    GetOrganizationApplianceUplinkStatuses := fun _ => .ok [] }

/-- A vendor that answers every device-list request with `val`, and has no
samples and no appliance uplinks. -/
def inventoryClient (val : List ResponseItemOrganizationsGetOrganizationDevices) : Client :=
  { GetOrganizationDevices := fun _ => .ok val
    GetOrganizationDevicesUplinksLossAndLatency := fun _ _ => .ok []
    GetOrganizationApplianceUplinkStatuses := fun _ => .ok [] }

/-- An upstream device entry with the given serial, model, IMEI, longitude,
latitude and details, and nothing else. -/
def scenarioEntry (serial model : String) (imei lng lat : Option ℚ)
    (details : Option (List DeviceDetail)) : ResponseItemOrganizationsGetOrganizationDevices :=
  { Address := "", Details := details, Firmware := "", Imei := imei, LanIP := "",
    Lat := lat, Lng := lng, Mac := "", Model := model, Name := "", NetworkID := "",
    Notes := "", ProductType := "", Serial := serial, Tags := [] }

/-- A vendor that serves the inventory of every organization, the device `S1` of
model `X1`, and the samples and appliance uplinks of `org1` only: for any other
organization these two endpoints answer with status 503. -/
def outageClient : Client :=
  { GetOrganizationDevices := fun _ => .ok [scenarioEntry "S1" "X1" none none none none]
    GetOrganizationDevicesUplinksLossAndLatency := fun org query =>
      if org = "org1" then scenarioClient.GetOrganizationDevicesUplinksLossAndLatency org query
      else .error (.response
        { StatusCode := 503, Body := "",
          Err := "error with operation GetOrganizationDevicesUplinksLossAndLatency" })
    GetOrganizationApplianceUplinkStatuses := fun org =>
      if org = "org1" then scenarioClient.GetOrganizationApplianceUplinkStatuses org
      else .error (.response
        { StatusCode := 503, Body := "",
          Err := "error with operation GetOrganizationApplianceUplinkStatuses" }) }

/-! ## Package `device_uplinks_loss_and_latency` -/

namespace device_uplinks_loss_and_latency

/-- Go `UplinkMetric`: a timestamped uplink data point. -/
structure UplinkMetric where
  Timestamp : Time
  LossPercent : Option ℚ
  LatencyMs : Option ℚ
deriving DecidableEq

/-- Go `Uplink`: an uplink of a device, with its data points. -/
structure Uplink where
  DeviceSerial : Serial
  IP : String
  Interface : String
  Metrics : List UplinkMetric
deriving DecidableEq

/-- The loop of `getDevices` over the response items; its body is that of
`GetDevices`. -/
def collectDevices (val : List ResponseItemOrganizationsGetOrganizationDevices) :
    Except Failure (GoMap Serial Device) :=
  val.foldlM
    (fun (devices : GoMap Serial Device) d => do
      let device ← buildDevice d
      pure (devices.put device.Serial device))
    GoMap.empty

/-- Go `getDevices` of this package. -/
def getDevices (client : Client) (organizationID : String) :
    Except Failure (GoMap Serial Device) :=
  match client.GetOrganizationDevices organizationID with
  | .error e => .error (callFailure "GetOrganizationDevices" e)
  | .ok val => collectDevices val

/-- The inner loop of `getDeviceUplinkMetrics` over the measurements of one
uplink, appending to `uplink.Metrics`. `parse` is `time.Parse(time.RFC3339, ·)`. -/
def collectMeasurements (parse : String → Option Time) :
    List UplinkMetric → List TimeSeriesItem → Except Failure (List UplinkMetric)
  | metrics, [] => .ok metrics
  | metrics, measurement :: rest =>
    if measurement.LossPercent ≠ none ∨ measurement.LatencyMs ≠ none then
      match parse measurement.Ts with
      | none => .error (.timestamp measurement.Ts)
      | some timestamp =>
        let metric : UplinkMetric :=
          { Timestamp := timestamp, LossPercent := none, LatencyMs := none }
        let metric :=
          if measurement.LossPercent ≠ none then
            { metric with LossPercent := measurement.LossPercent }
          else metric
        let metric :=
          if measurement.LatencyMs ≠ none then
            { metric with LatencyMs := measurement.LatencyMs }
          else metric
        collectMeasurements parse (metrics ++ [metric]) rest
    else collectMeasurements parse metrics rest

/-- The outer loop of `getDeviceUplinkMetrics` over the response items,
appending to `uplinks`. -/
def collectUplinks (parse : String → Option Time) :
    List Uplink → List ResponseItemUplinksLossAndLatency → Except Failure (List Uplink)
  | uplinks, [] => .ok uplinks
  | uplinks, device :: rest =>
    match device.TimeSeries with
    | none => .error .nilDereference
    | some timeSeries =>
      match collectMeasurements parse [] timeSeries with
      | .error e => .error e
      | .ok metrics =>
        let uplink : Uplink :=
          { DeviceSerial := device.Serial, IP := device.IP, Interface := device.Uplink,
            Metrics := metrics }
        if uplink.Metrics.length ≠ 0 then collectUplinks parse (uplinks ++ [uplink]) rest
        else collectUplinks parse uplinks rest

/-- Go `getDeviceUplinkMetrics`. -/
def getDeviceUplinkMetrics (parse : String → Option Time) (client : Client)
    (organizationID : String) (period : Duration) : Except Failure (List Uplink) :=
  match client.GetOrganizationDevicesUplinksLossAndLatency organizationID
      (lossAndLatencyQueryParams period) with
  | .error e => .error (callFailure "GetOrganizationDevicesUplinksLossAndLatency" e)
  | .ok val => collectUplinks parse [] val

/-- Go `reportMetricsForOrganization` of this package. -/
def reportMetricsForOrganization (organizationID : String) :
    Reporter → List (List M) → Reporter × List (List M)
  | reporter, [] => (reporter, [])
  | reporter, metricSlice :: rest =>
    let (reporter, metricSlice) := reportMetricSlice organizationID reporter metricSlice
    let (reporter, rest) := reportMetricsForOrganization organizationID reporter rest
    (reporter, metricSlice :: rest)

/-- The map `metric` that `reportDeviceUplinkMetrics` builds for an uplink and
its device: the literal, then one `device.details.<k>` entry per detail. -/
def uplinkDeviceMetric (uplink : Uplink) (device : Device) : M :=
  let metric : M := GoMap.ofList
    [ ("uplink.ip", .str uplink.IP),
      ("upliink.interface", .str uplink.Interface),
      ("device.address", .str device.Address),
      ("device.firmware", .str device.Firmware),
      ("device.imei", .floatPtr device.Imei),
      ("device.lan_ip", .str device.LanIP),
      ("device.location", .floatPtrs device.Location),
      ("device.mac", .str device.Mac),
      ("device.model", .str device.Model),
      ("device.name", .str device.Name),
      ("device.network_id", .str device.NetworkID),
      ("device.notes", .str device.Notes),
      ("device.product_type", .str device.ProductType),
      ("device.serial", .str device.Serial),
      ("device.tags", .strs device.Tags) ]
  (rangeMap device.Details).foldl
    (fun metric kv => metric.put ("device.details." ++ kv.1) (.str kv.2)) metric

/-- The body of the loop of `reportDeviceUplinkMetrics`: the metric maps one
uplink appends to `metrics`. -/
def appendUplinkMetrics (devices : GoMap Serial Device) (metrics : List M) (uplink : Uplink) :
    List M :=
  match devices.get uplink.DeviceSerial with
  | some device =>
    let metric := uplinkDeviceMetric uplink device
    uplink.Metrics.foldl
      (fun metrics uplinkMetric =>
        metrics ++ [Union metric (GoMap.ofList
          [ ("@timestamp", .time uplinkMetric.Timestamp),
            ("uplink.loss_percent", .floatPtr uplinkMetric.LossPercent),
            ("uplink.latency_ms", .floatPtr uplinkMetric.LatencyMs) ])])
      metrics
  | none => metrics

/-- Go `reportDeviceUplinkMetrics`. -/
def reportDeviceUplinkMetrics (reporter : Reporter) (organizationID : String)
    (devices : GoMap Serial Device) (uplinks : List Uplink) : Reporter :=
  let metrics : List M := uplinks.foldl (appendUplinkMetrics devices) []
  (reportMetricsForOrganization organizationID reporter [metrics]).1

/-- Go `MetricSet.Fetch` of this package: the reporter afterwards and the
returned error, if any. -/
def Fetch (parse : String → Option Time) (client : Client) (period : Duration) :
    List String → Reporter → Reporter × Option Failure
  | [], reporter => (reporter, none)
  | org :: rest, reporter =>
    match getDevices client org with
    | .error err => (reporter, some err)
    | .ok devices =>
      match getDeviceUplinkMetrics parse client org period with
      | .error err => (reporter, some err)
      | .ok uplinks =>
        Fetch parse client period rest (reportDeviceUplinkMetrics reporter org devices uplinks)

/-- The inventory of the end-to-end scenario: organization `org1` has the one
device with serial `S1` and model `X1`. -/
def scenarioDevice : Device :=
  { Address := "", Details := none, Firmware := "", Imei := none, LanIP := "",
    Location := [none, none], Mac := "", Model := "X1", Name := "", NetworkID := "",
    Notes := "", ProductType := "", Serial := "S1", Tags := [] }

/-- The time-series of the end-to-end scenario: one sample for `S1` at instant
`T`, with loss 2.5 and latency 10.0. -/
def scenarioUplink (T : Time) : Uplink :=
  { DeviceSerial := "S1", IP := "", Interface := "",
    Metrics := [{ Timestamp := T, LossPercent := some (5 / 2), LatencyMs := some 10 }] }

/-- The instant of cycle `i` when cycles start at `t0` and recur every `period`. -/
def cycleInstant (t0 : Time) (period : Duration) (i : Nat) : Time := t0 + i * period

/-- Whether the sample timestamp `ts` lies in the window a cycle run at instant
`t` requests: the window ends at `t` and is as long as the `Timespan` that
`getDeviceUplinkMetrics` requests, which counts seconds. -/
def inWindow (period : Duration) (t ts : Time) : Bool :=
  decide (ts ≤ t) &&
    decide ((((t - ts : Int) : ℚ)) / 1000000000 ≤ (lossAndLatencyQueryParams period).Timespan)

/-- The cycles, among the first `n`, whose window holds the timestamp `ts`. -/
def coveringCycles (t0 : Time) (period : Duration) (n : Nat) (ts : Time) : List Nat :=
  (List.range n).filter (fun i => inWindow period (cycleInstant t0 period i) ts)

/-! ### The correlation on maps held in memory

A Go map value is a reference: two map values may stand for one object, and a
write through one is seen through the other. Below, the maps live in a memory and
`reportDeviceUplinkMetrics` and `reportMetricsForOrganization` are embedded once
more, statement by statement, with every map a reference into that memory. The
maps are the only objects these two functions write to: their only assignments
besides those to local variables are `metric[k] = v`, `delete(metric, k)` and the
`m[k] = v` of `Update` and `Union`. -/

/-- A Go map as an object in memory: a `mapstr.M`, or the `map[string]string` of
the details of a device. -/
inductive MapObject where
  | fields (m : M)
  | details (m : GoMap String String)
deriving DecidableEq

/-- The map objects in memory: what every address holds, and the address the next
new map gets. -/
structure Memory where
  cells : Nat → Option MapObject
  next : Nat

/-- A new map object: a composite literal, or the map that `Union` makes. -/
def Memory.alloc (memory : Memory) (object : MapObject) : Memory × Nat :=
  ({ cells := fun a => if a = memory.next then some object else memory.cells a,
     next := memory.next + 1 }, memory.next)

/-- The `mapstr.M` behind a reference. -/
def Memory.fieldsAt (memory : Memory) (a : Nat) : M :=
  match memory.cells a with
  | some (.fields m) => m
  | _ => GoMap.empty

/-- The details map behind a reference, `none` for the nil map. -/
def Memory.detailsAt (memory : Memory) (a : Option Nat) : Option (GoMap String String) :=
  match a with
  | none => none
  | some a =>
    match memory.cells a with
    | some (.details m) => some m
    | _ => none

/-- A write through a reference to a `mapstr.M`: the object behind the reference
becomes `m`. -/
def Memory.store (memory : Memory) (a : Nat) (m : M) : Memory :=
  { cells := fun b => if b = a then some (.fields m) else memory.cells b,
    next := memory.next }

/-- Go `Device` with its `Details` as the reference it is: the address of the map,
`none` for the nil map. -/
structure DeviceRef where
  Address : String
  Details : Option Nat
  Firmware : String
  Imei : Option ℚ
  LanIP : String
  Location : List (Option ℚ)
  Mac : String
  Model : String
  Name : String
  NetworkID : String
  Notes : String
  ProductType : String
  Serial : String
  Tags : List String
deriving DecidableEq

/-- The device behind a `DeviceRef`, with the details that the memory holds. -/
def DeviceRef.load (memory : Memory) (device : DeviceRef) : Device :=
  { Address := device.Address
    Details := memory.detailsAt device.Details
    Firmware := device.Firmware
    Imei := device.Imei
    LanIP := device.LanIP
    Location := device.Location
    Mac := device.Mac
    Model := device.Model
    Name := device.Name
    NetworkID := device.NetworkID
    Notes := device.Notes
    ProductType := device.ProductType
    Serial := device.Serial
    Tags := device.Tags }

/-- The inventory behind an inventory of `DeviceRef`s: the same serials, each with
its device as the memory holds it. -/
def loadDevices (memory : Memory) (devices : GoMap Serial DeviceRef) : GoMap Serial Device :=
  ⟨devices.entries.map (fun e => (e.1, e.2.load memory)), by
    rw [List.map_map]
    exact devices.nodup⟩

/-- Go `mb.Event` with its `ModuleFields` as the reference it is. -/
structure EventRef where
  Timestamp : Time
  ModuleFields : Nat
deriving DecidableEq

/-- The events handed to `reporter.Event`, as the memory holds their fields. -/
def readEvents (memory : Memory) (reporter : List EventRef) : Reporter :=
  reporter.map (fun event =>
    { Timestamp := event.Timestamp, ModuleFields := memory.fieldsAt event.ModuleFields })

/-- Go `mapstr.Union` on references: a new map with the entries of `dict1`, then
those of `dict2` written over them. Neither argument is written to. -/
def UnionInMemory (memory : Memory) (dict1 dict2 : Nat) : Memory × Nat :=
  memory.alloc (.fields (Union (memory.fieldsAt dict1) (memory.fieldsAt dict2)))

/-- The body of the loop over `device.Details`, on references: the write
`metric["device.details." + k] = v` into the map behind `metric`. -/
def storeDetail (metric : Nat) (memory : Memory) (kv : String × String) : Memory :=
  memory.store metric ((memory.fieldsAt metric).put ("device.details." ++ kv.1) (.str kv.2))

/-- The body of the loop over `uplink.Metrics`, on references: the new literal
map of the data point, the `Union` of `metric` with it, and the `append` of the
union to `metrics`. -/
def appendUnion (metric : Nat) (state : Memory × List Nat) (uplinkMetric : UplinkMetric) :
    Memory × List Nat :=
  let (memory, literal) := state.1.alloc (.fields (GoMap.ofList
    [ ("@timestamp", .time uplinkMetric.Timestamp),
      ("uplink.loss_percent", .floatPtr uplinkMetric.LossPercent),
      ("uplink.latency_ms", .floatPtr uplinkMetric.LatencyMs) ]))
  let (memory, union) := UnionInMemory memory metric literal
  (memory, state.2 ++ [union])

/-- The body of the loop of `reportDeviceUplinkMetrics`, on references: the new
`metric` map, the writes of the details into it, and one `Union` per data point
appended to `metrics`. -/
def appendUplinkMetricsInMemory (devices : GoMap Serial DeviceRef)
    (state : Memory × List Nat) (uplink : Uplink) : Memory × List Nat :=
  match devices.get uplink.DeviceSerial with
  | some device =>
    let (memory, metric) := state.1.alloc (.fields (GoMap.ofList
      [ ("uplink.ip", .str uplink.IP),
        ("upliink.interface", .str uplink.Interface),
        ("device.address", .str device.Address),
        ("device.firmware", .str device.Firmware),
        ("device.imei", .floatPtr device.Imei),
        ("device.lan_ip", .str device.LanIP),
        ("device.location", .floatPtrs device.Location),
        ("device.mac", .str device.Mac),
        ("device.model", .str device.Model),
        ("device.name", .str device.Name),
        ("device.network_id", .str device.NetworkID),
        ("device.notes", .str device.Notes),
        ("device.product_type", .str device.ProductType),
        ("device.serial", .str device.Serial),
        ("device.tags", .strs device.Tags) ]))
    let memory := (rangeMap (memory.detailsAt device.Details)).foldl (storeDetail metric) memory
    uplink.Metrics.foldl (appendUnion metric) (memory, state.2)
  | none => state

/-- One iteration of the inner loop of `reportMetricsForOrganization`, on
references: the new map of the event, the removal of `"@timestamp"` from the
metric map behind `metric`, the `Update` of the event's map, and the call of
`reporter.Event`. -/
def reportMetricInMemory (organizationID : String) (state : Memory × List EventRef)
    (metric : Nat) : Memory × List EventRef :=
  let (memory, fields) := state.1.alloc
    (.fields (GoMap.ofList [("organization_id", .str organizationID)]))
  match (memory.fieldsAt metric).get "@timestamp" with
  | some (.time ts) =>
    let memory := memory.store metric ((memory.fieldsAt metric).delete "@timestamp")
    let memory := memory.store fields ((memory.fieldsAt fields).Update (memory.fieldsAt metric))
    (memory, state.2 ++ [{ Timestamp := ts, ModuleFields := fields }])
  | _ =>
    let memory := memory.store fields ((memory.fieldsAt fields).Update (memory.fieldsAt metric))
    (memory, state.2 ++ [{ Timestamp := 0, ModuleFields := fields }])

/-- Go `reportMetricsForOrganization` of this package, on references. -/
def reportMetricsForOrganizationInMemory (organizationID : String)
    (state : Memory × List EventRef) (metrics : List (List Nat)) : Memory × List EventRef :=
  metrics.foldl
    (fun state metricSlice => metricSlice.foldl (reportMetricInMemory organizationID) state)
    state

/-- Go `reportDeviceUplinkMetrics`, on references: the memory and the reporter
afterwards. -/
def reportDeviceUplinkMetricsInMemory (memory : Memory) (reporter : List EventRef)
    (organizationID : String) (devices : GoMap Serial DeviceRef) (uplinks : List Uplink) :
    Memory × List EventRef :=
  let (memory, metrics) := uplinks.foldl (appendUplinkMetricsInMemory devices) (memory, [])
  reportMetricsForOrganizationInMemory organizationID (memory, reporter) [metrics]

/-- A memory that holds one map, at address 0: the details of a device, with the
one entry `rack` = `7`. -/
def scenarioMemory : Memory :=
  { cells := fun a => if a = 0 then some (.details (GoMap.ofList [("rack", "7")])) else none,
    next := 1 }

/-- The device of the end-to-end scenario, with its details at address 0. -/
def scenarioDeviceRef : DeviceRef :=
  { Address := "", Details := some 0, Firmware := "", Imei := none, LanIP := "",
    Location := [none, none], Mac := "", Model := "X1", Name := "", NetworkID := "",
    Notes := "", ProductType := "", Serial := "S1", Tags := [] }

end device_uplinks_loss_and_latency

/-! ## Package `device_uplinks_status_and_ha` -/

namespace device_uplinks_status_and_ha

/-- The body of the loop of `reportApplianceUplinkStatuses`: the metric maps one
response item appends to `metrics`. Dereferencing a nil `HighAvailability` or a
nil `Uplinks` panics. -/
def appendUplinkStatuses (devices : GoMap Serial Device) (metrics : List M)
    (uplink : ResponseItemApplianceUplinkStatuses) : Except Failure (List M) :=
  match devices.get uplink.Serial with
  | some device =>
    match uplink.HighAvailability with
    | none => .error .nilDereference
    | some highAvailability =>
      let metric : M := GoMap.ofList
        [ ("device.uplink.high_availablity.enabled", .boolPtr highAvailability.Enabled),
          ("device.uplink.high_availablity.role", .str highAvailability.Role),
          ("device.uplink.last_reported_at", .str uplink.LastReportedAt),
          ("device.address", .str device.Address),
          ("device.firmware", .str device.Firmware),
          ("device.imei", .floatPtr device.Imei),
          ("device.lan_ip", .str device.LanIP),
          ("device.location", .floatPtrs device.Location),
          ("device.mac", .str device.Mac),
          ("device.model", .str device.Model),
          ("device.name", .str device.Name),
          ("device.network_id", .str device.NetworkID),
          ("device.notes", .str device.Notes),
          ("device.product_type", .str device.ProductType),
          ("device.serial", .str device.Serial),
          ("device.tags", .strs device.Tags) ]
      match uplink.Uplinks with
      | none => .error .nilDereference
      | some items =>
        .ok (items.foldl
          (fun metrics item =>
            metrics ++ [Union metric (GoMap.ofList
              [ ("device.uplink.interface", .str item.Interface),
                ("device.uplink.status", .str item.Status),
                ("device.uplink.ip", .str item.IP),
                ("device.uplink.gateway", .str item.Gateway),
                ("device.uplink.public_ip", .str item.PublicIP),
                ("device.uplink.primary_dns", .str item.PrimaryDNS),
                ("device.uplink.secondary_dns", .str item.SecondaryDNS),
                ("device.uplink.ip_assigned_by", .str item.IPAssignedBy) ])])
          metrics)
  | none => .ok metrics

/-- Go `reportApplianceUplinkStatuses`. -/
def reportApplianceUplinkStatuses (reporter : Reporter) (organizationID : String)
    (devices : GoMap Serial Device)
    (responseApplianceUplinkStatuses : List ResponseItemApplianceUplinkStatuses) :
    Except Failure Reporter :=
  match responseApplianceUplinkStatuses.foldlM (appendUplinkStatuses devices) [] with
  | .error e => .error e
  | .ok metrics => .ok (ReportMetricsForOrganization organizationID reporter [metrics]).1

/-- Go `MetricSet.Fetch` of this package: the reporter afterwards and the
returned error or panic, if any. -/
def Fetch (client : Client) : List String → Reporter → Reporter × Option Failure
  | [], reporter => (reporter, none)
  | org :: rest, reporter =>
    match GetDevices client org with
    | .error err => (reporter, some err)
    | .ok devices =>
      match client.GetOrganizationApplianceUplinkStatuses org with
      | .error e =>
        (reporter, some (callFailure "Appliance.GetOrganizationApplianceUplinkStatuses" e))
      | .ok val =>
        match reportApplianceUplinkStatuses reporter org devices val with
        | .error err => (reporter, some err)
        | .ok reporter => Fetch client rest reporter

end device_uplinks_status_and_ha

/-! ## Package `device_uplinks_cellular_gateway_status` -/

namespace device_uplinks_cellular_gateway_status

/-- The tower signal block of a cellular gateway uplink. -/
structure SignalStat where
  Rsrp : String
  Rsrq : String
deriving DecidableEq

/-- One uplink of a cellular gateway. `SignalStat` is a pointer. -/
structure CellularGatewayUplinkItem where
  Apn : String
  ConnectionType : String
  DNS1 : String
  DNS2 : String
  Gateway : String
  Iccid : String
  Interface : String
  IP : String
  Model : String
  Provider : String
  PublicIP : String
  SignalStat : Option SignalStat
  SignalType : String
  Status : String
deriving DecidableEq

/-- One item of the SDK's cellular gateway uplink statuses response. -/
structure ResponseItemCellularGatewayUplinkStatuses where
  LastReportedAt : String
  Model : String
  NetworkID : String
  Serial : String
  Uplinks : Option (List CellularGatewayUplinkItem)
deriving DecidableEq

/-- The inner loop of `reportApplianceUplinkStatuses` over the uplinks of one
response item, appending to `metrics`. Dereferencing a nil `SignalStat` panics. -/
def appendUplinkItems (metric : M) :
    List M → List CellularGatewayUplinkItem → Except Failure (List M)
  | metrics, [] => .ok metrics
  | metrics, item :: rest =>
    match item.SignalStat with
    | none => .error .nilDereference
    | some signalStat =>
      appendUplinkItems metric
        (metrics ++ [Union metric (GoMap.ofList
          [ ("device.uplink.cellular.gateway.apn", .str item.Apn),
            ("device.uplink.cellular.gateway.connection_type", .str item.ConnectionType),
            ("device.uplink.cellular.gateway.dns1", .str item.DNS1),
            ("device.uplink.cellular.gateway.dns2", .str item.DNS2),
            ("device.uplink.cellular.gateway.gateway", .str item.Gateway),
            ("device.uplink.cellular.gateway.iccid", .str item.Iccid),
            ("device.uplink.cellular.gateway.interface", .str item.Interface),
            ("device.uplink.cellular.gateway.ip", .str item.IP),
            ("device.uplink.cellular.gateway.model", .str item.Model),
            ("device.uplink.cellular.gateway.provider", .str item.Provider),
            ("device.uplink.cellular.gateway.public_ip", .str item.PublicIP),
            ("device.uplink.cellular.gateway.signal_stat.rsrp", .str signalStat.Rsrp),
            ("device.uplink.cellular.gateway.signal_stat.rsrq", .str signalStat.Rsrq),
            ("device.uplink.cellular.gateway.signal_type", .str item.SignalType),
            ("device.uplink.cellular.gateway.status", .str item.Status) ])])
        rest

/-- The body of the outer loop of `reportApplianceUplinkStatuses`: the metric
maps one response item appends to `metrics`. Dereferencing a nil `Uplinks`
panics. -/
def appendUplinkStatuses (devices : GoMap Serial Device) (metrics : List M)
    (uplink : ResponseItemCellularGatewayUplinkStatuses) : Except Failure (List M) :=
  match devices.get uplink.Serial with
  | some device =>
    let metric : M := GoMap.ofList
      [ ("device.uplink.cellular.gateway.networkd_id", .str uplink.NetworkID),
        ("device.uplink.cellular.gateway.last_reported_at", .str uplink.LastReportedAt),
        ("device.address", .str device.Address),
        ("device.firmware", .str device.Firmware),
        ("device.imei", .floatPtr device.Imei),
        ("device.lan_ip", .str device.LanIP),
        ("device.location", .floatPtrs device.Location),
        ("device.mac", .str device.Mac),
        ("device.model", .str device.Model),
        ("device.name", .str device.Name),
        ("device.network_id", .str device.NetworkID),
        ("device.notes", .str device.Notes),
        ("device.product_type", .str device.ProductType),
        ("device.serial", .str device.Serial),
        ("device.tags", .strs device.Tags) ]
    match uplink.Uplinks with
    | none => .error .nilDereference
    | some items => appendUplinkItems metric metrics items
  | none => .ok metrics

/-- Go `reportApplianceUplinkStatuses` of the cellular gateway metricset. -/
def reportApplianceUplinkStatuses (reporter : Reporter) (organizationID : String)
    (devices : GoMap Serial Device)
    (responseCellularGatewayUplinkStatuses : List ResponseItemCellularGatewayUplinkStatuses) :
    Except Failure Reporter :=
  match responseCellularGatewayUplinkStatuses.foldlM (appendUplinkStatuses devices) [] with
  | .error e => .error e
  | .ok metrics => .ok (ReportMetricsForOrganization organizationID reporter [metrics]).1

end device_uplinks_cellular_gateway_status

/-! ## Go `strings` -/

/-- Go `strings.Index` from byte offset `i` on: the byte offset of the first
occurrence of `substr` in what is left of the string, or `-1`. -/
def strings.indexFrom (substr : List Char) : List Char → Nat → Int
  | [], i => if substr.isPrefixOf [] then i else -1
  | c :: rest, i =>
    if substr.isPrefixOf (c :: rest) then i else strings.indexFrom substr rest (i + c.utf8Size)

/-- Go `strings.Index`. -/
def strings.Index (s substr : String) : Int := strings.indexFrom substr.data s.data 0

/-! ## Package `device_performance_score` -/

/-- A HTTP response as its caller reads it: the status code, and what
`io.ReadAll(response.Body)` returns. -/
structure HttpResponse where
  StatusCode : Int
  Body : Except String String

/-- What a server does with one attempt of a request: it answers with a status
and a body, or the transport fails. -/
inductive ServerAnswer where
  | status (code : Int) (body : String)
  | transportFailure (err : String)
deriving DecidableEq

/-- Modelled from the spec: the attempts of the retrying invoker from attempt
number `made` on, with `remaining` attempts left. A 429 or a transport failure is
retried, another 4xx is a terminal error, any other status is returned; the result
comes with the number of attempts made in all. -/
def invokeAttempts (server : Nat → ServerAnswer) :
    (remaining : Nat) → (made : Nat) → Except String HttpResponse × Nat
  | 0, made => (.error "attempts exhausted", made)
  | remaining + 1, made =>
    match server made with
    | .transportFailure _ => invokeAttempts server remaining (made + 1)
    | .status code body =>
      if code = 429 then invokeAttempts server remaining (made + 1)
      else if 400 ≤ code ∧ code < 500 then (.error "non-retryable status", made + 1)
      else (.ok { StatusCode := code, Body := .ok body }, made + 1)

/-- Modelled from the spec: the retrying invoker `meraki.HttpGetRequestWithMerakiRetry`,
which is not among the sources. "On HTTP 429 (rate-limited) or any transport-level
transient failure, retries"; it "MUST cap total attempts"; "exhausting attempts or
receiving a non-retryable error (4xx other than 429 ...) yields a TerminalError".
The server is given by its answer to each attempt of a request for `url`; the
result comes with the number of attempts made. -/
def HttpGetRequestWithMerakiRetry (server : String → Nat → ServerAnswer) (url : String)
    (_token : String) (maxAttempts : Nat) : Except String HttpResponse × Nat :=
  invokeAttempts (server url) maxAttempts 0

namespace device_performance_score

/-- Go `DevicePerformanceScore`: the score read for a device and the HTTP status
of the read. -/
structure DevicePerformanceScore where
  PerformanceScore : ℚ
  HttpStatusCode : Int
deriving DecidableEq

/-- Go `getDevicePerformanceScoresBySerialId`. `invoke` is
`meraki.HttpGetRequestWithMerakiRetry`; `decode` is `json.Unmarshal` into a
`PerfScore` followed by the read of its `PerformanceScore`; `log.Fatal` ends the
process. -/
def getDevicePerformanceScoresBySerialId
    (invoke : String → String → Nat → Except String HttpResponse) (decode : String → ℚ)
    (base_url token serial : String) : Except Failure (ℚ × Int) :=
  let url := base_url ++ "/api/v1/devices/" ++ serial ++ "/appliance/performance"
  match invoke url token 5 with
  | .error err => .error (.fatal err)
  | .ok response =>
    match response.Body with
    | .error err => .error (.fatal err)
    | .ok responseData =>
      let tmp_float := decode responseData
      .ok (tmp_float, response.StatusCode)

/-- The body of the loop of `getDevicePerformanceScores`: the read for one device
of the map and the write of its sample under the device's serial. -/
def recordScore (invoke : String → String → Nat → Except String HttpResponse)
    (decode : String → ℚ) (url token : String)
    (scores : GoMap Serial DevicePerformanceScore) (entry : Serial × Device) :
    Except Failure (GoMap Serial DevicePerformanceScore) :=
  match getDevicePerformanceScoresBySerialId invoke decode url token entry.2.Serial with
  | .error e => .error e
  | .ok (perf_score, status_code) =>
    .ok (scores.put entry.2.Serial
      { PerformanceScore := perf_score, HttpStatusCode := status_code })

/-- Go `getDevicePerformanceScores`: one read per device of the map, in the
order of the iteration over the map. -/
def getDevicePerformanceScores
    (invoke : String → String → Nat → Except String HttpResponse) (decode : String → ℚ)
    (url token : String) (mx_devices : GoMap Serial Device) :
    Except Failure (GoMap Serial DevicePerformanceScore) :=
  mx_devices.entries.foldlM (recordScore invoke decode url token) GoMap.empty

/-- The body of the loop of `reportPerformanceScoreMetrics`: the metric map of
one device of the inventory. -/
def performanceScoreMetric (devicePerformanceScores : GoMap Serial DevicePerformanceScore)
    (serial : Serial) (device : Device) : M :=
  let metric : M := GoMap.ofList
    [ ("device.address", .str device.Address),
      ("device.firmware", .str device.Firmware),
      ("device.imei", .floatPtr device.Imei),
      ("device.lan_ip", .str device.LanIP),
      ("device.location", .floatPtrs device.Location),
      ("device.mac", .str device.Mac),
      ("device.model", .str device.Model),
      ("device.name", .str device.Name),
      ("device.network_id", .str device.NetworkID),
      ("device.notes", .str device.Notes),
      ("device.product_type", .str device.ProductType),
      ("device.serial", .str device.Serial),
      ("device.tags", .strs device.Tags) ]
  let metric := (rangeMap device.Details).foldl
    (fun metric kv => metric.put ("device.details." ++ kv.1) (.str kv.2)) metric
  match devicePerformanceScores.get serial with
  | some score =>
    if score.HttpStatusCode = 204 then
      metric.put "device.performance.http_status_code" (.int score.HttpStatusCode)
    else
      metric.put "device.performance.score" (.float score.PerformanceScore)
  | none => metric

/-- Go `reportPerformanceScoreMetrics`: one metric map per device of the
inventory, in the order of the iteration over the map. -/
def reportPerformanceScoreMetrics (reporter : Reporter) (organizationID : String)
    (devices : GoMap Serial Device)
    (devicePerformanceScores : GoMap Serial DevicePerformanceScore) : Reporter :=
  let devicePerformanceScoreMetrics : List M := devices.entries.foldl
    (fun metrics entry =>
      metrics ++ [performanceScoreMetric devicePerformanceScores entry.1 entry.2])
    []
  (ReportMetricsForOrganization organizationID reporter [devicePerformanceScoreMetrics]).1

/-- The body of the scenario that carries a score: a JSON object with the score
42. The declaration of `PerfScore`, and with it the JSON name of its field, is not
among the sources, so the object gives the score under the name the vendor uses
and under the name of the Go field. -/
def scenarioBody : String := "\x7b\"perfScore\": 42, \"performanceScore\": 42\x7d"

/-- The server of the scenario: it answers every attempt of the request for the
device `Q1` with `q1`, and every attempt of any other request with status 200 and
the body that carries the score 42. -/
def scenarioServer (q1 : ServerAnswer) (url : String) (_attempt : Nat) : ServerAnswer :=
  if url = "https://api.meraki.com/api/v1/devices/Q1/appliance/performance" then q1
  else .status 200 scenarioBody

/-- The invoker of the scenario: the retrying invoker in front of the server of
the scenario. -/
def scenarioInvoke (q1 : ServerAnswer) (url : String) (token : String)
    (maxAttempts : Nat) : Except String HttpResponse :=
  (HttpGetRequestWithMerakiRetry (scenarioServer q1) url token maxAttempts).1

/-- The score decoder on the bodies of the scenario: `json.Unmarshal` into a
`PerfScore` reads the score of the one body that is a JSON object with a score; on
a body that is no JSON object it fails and leaves the zero value. -/
def scenarioDecode (body : String) : ℚ := if body = scenarioBody then 42 else 0

/-- The inventory of the scenario: the appliances `Q1` and `Q2` of model `MX67`. -/
def scenarioAppliances : GoMap Serial Device :=
  GoMap.ofList
    [ ("Q1", deviceLiteral (scenarioEntry "Q1" "MX67" none none none none)),
      ("Q2", deviceLiteral (scenarioEntry "Q2" "MX67" none none none none)) ]

/-- The inventory of a scenario with one appliance and one switch: `Q1` of model
`MX67` and `Q3` of model `MS120`. -/
def scenarioMixed : GoMap Serial Device :=
  GoMap.ofList
    [ ("Q1", deviceLiteral (scenarioEntry "Q1" "MX67" none none none none)),
      ("Q3", deviceLiteral (scenarioEntry "Q3" "MS120" none none none none)) ]

/-- Go `pruneDevicesForMxOnly`: a fresh map with the entries of `devices` whose
model has `MX` at index 0. -/
def pruneDevicesForMxOnly (devices : GoMap Serial Device) : GoMap Serial Device :=
  devices.entries.foldl
    (fun (mx_devices : GoMap Serial Device) kv =>
      if strings.Index kv.2.Model "MX" = 0 then mx_devices.put kv.1 kv.2 else mx_devices)
    GoMap.empty

end device_performance_score

end Meraki

/-! ## Package `panos/temperature` -/

namespace Panos

open Meraki

namespace temperature

/-- Go `mb.Event`, restricted to the fields `getEvents` sets. A nil map is
`none`; the zero `Time` is `0`. -/
structure Event where
  MetricSetFields : Option M
  RootFields : Option M
  Timestamp : Time
deriving DecidableEq

/-- One thermal entry of the response. The declaration is not among the sources:
the slot number is an integer, the description a string, and the other fields are
held as the values the code stores. -/
structure Entry where
  Slot : Int
  Description : String
  Alarm : Value
  DegreesCelsius : Value
  MinimumTemp : Value
  MaximumTemp : Value
deriving DecidableEq

/-- One slot of the thermal response. -/
structure Slot where
  Entries : List Entry
deriving DecidableEq

/-- The thermal response: `response.Result.Thermal.Slots`. -/
structure Response where
  Slots : List Slot
deriving DecidableEq

/-- The literal `mapstr.M{...}` of `getEvents` for one entry. -/
def entryFields (entry : Entry) : M :=
  GoMap.ofList
    [ ("slot_number", .int entry.Slot),
      ("description", .str entry.Description),
      ("alarm", entry.Alarm),
      ("degress_celsius", entry.DegreesCelsius),
      ("minimum_temp", entry.MinimumTemp),
      ("maximum_temp", entry.MaximumTemp) ]

/-- The inner loop of `getEvents` over the entries of one slot: every entry
assigns a fresh event to the variable `event`. -/
def assignEntries (event : Event) (entries : List Entry) : Event :=
  entries.foldl
    (fun _ entry =>
      { MetricSetFields := some (entryFields entry), RootFields := none, Timestamp := 0 })
    event

/-- The body of the outer loop of `getEvents`: the slice `events` and the
variable `event` after one slot. -/
def slotStep (HostIp : String) (currentTime : Time) (state : List Event × Event)
    (slot : Slot) : List Event × Event :=
  let event := assignEntries state.2 slot.Entries
  let event := { event with Timestamp := currentTime }
  let event := { event with RootFields := some (GoMap.ofList [("observer.ip", .str HostIp)]) }
  (state.1 ++ [event], event)

/-- Go `getEvents`. `HostIp` is `m.config.HostIp`, `currentTime` is what
`time.Now()` returns; `event` starts as the zero `mb.Event`. -/
def getEvents (HostIp : String) (currentTime : Time) (response : Response) : List Event :=
  (response.Slots.foldl (slotStep HostIp currentTime)
    ([], { MetricSetFields := none, RootFields := none, Timestamp := 0 })).1

/-- A thermal entry of the scenarios, for a slot number and a temperature. -/
def scenarioThermal (slot : Int) (degrees : Int) : Entry :=
  { Slot := slot, Description := "Temperature", Alarm := .str "False",
    DegreesCelsius := .int degrees, MinimumTemp := .int 0, MaximumTemp := .int 60 }

end temperature

end Panos

/-! # Theorems -/

namespace Meraki

/-! ## Lookups in Go maps -/

namespace GoMap

variable {κ α : Type} [DecidableEq κ]

theorem lookup_append (k : κ) (l₁ l₂ : List (κ × α)) :
    lookup k (l₁ ++ l₂) = (lookup k l₁).orElse (fun _ => lookup k l₂) := by
  induction l₁ with
  | nil => simp [lookup]
  | cons e l ih =>
    obtain ⟨k', v⟩ := e
    by_cases h : k' = k <;> simp [lookup, h, ih]

theorem lookup_filter_ne (k k' : κ) (l : List (κ × α)) :
    lookup k' (l.filter (fun e => !decide (e.1 = k))) = if k' = k then none else lookup k' l := by
  induction l with
  | nil => simp [lookup]
  | cons e l ih =>
    obtain ⟨k₀, v⟩ := e
    by_cases h₀ : k₀ = k
    · subst h₀
      by_cases h : k' = k₀
      · subst h
        simpa [lookup] using ih
      · have h' : ¬ k₀ = k' := fun e => h e.symm
        simp [lookup, h, h', ih]
    · by_cases h : k' = k
      · subst h
        simp [List.filter_cons, lookup, h₀, ih]
      · by_cases h₁ : k₀ = k' <;> simp [List.filter_cons, lookup, h₀, h, h₁, ih]

theorem lookup_eq_none_of_not_mem (k : κ) (l : List (κ × α)) (h : k ∉ l.map Prod.fst) :
    lookup k l = none := by
  induction l with
  | nil => rfl
  | cons e l ih =>
    obtain ⟨k', v⟩ := e
    simp only [List.map_cons, List.mem_cons, not_or] at h
    have h' : ¬ k' = k := fun e => h.1 e.symm
    simp [lookup, h', ih h.2]

@[simp] theorem get_empty (k : κ) : (empty : GoMap κ α).get k = none := rfl

@[simp] theorem get_put_self (m : GoMap κ α) (k : κ) (v : α) : (m.put k v).get k = some v := by
  simp [get, put, lookup_append, lookup_filter_ne, lookup]

theorem get_put_ne (m : GoMap κ α) {k k' : κ} (v : α) (h : k' ≠ k) :
    (m.put k v).get k' = m.get k' := by
  have h' : ¬ k = k' := fun e => h e.symm
  simp [get, put, lookup_append, lookup_filter_ne, lookup, h, h']

theorem get_put (m : GoMap κ α) (k k' : κ) (v : α) :
    (m.put k v).get k' = if k' = k then some v else m.get k' := by
  by_cases h : k' = k
  · subst h; simp
  · simp [h, get_put_ne m v h]

@[simp] theorem get_delete_self (m : GoMap κ α) (k : κ) : (m.delete k).get k = none := by
  simp [get, delete, lookup_filter_ne]

theorem get_delete_ne (m : GoMap κ α) {k k' : κ} (h : k' ≠ k) :
    (m.delete k).get k' = m.get k' := by
  simp [get, delete, lookup_filter_ne, h]

/-- Writing a key-unique list of entries into a map: the list wins. -/
theorem get_putAll (l : List (κ × α)) (hl : (l.map Prod.fst).Nodup) (m : GoMap κ α) (k : κ) :
    (m.putAll l).get k = (lookup k l).orElse (fun _ => m.get k) := by
  induction l generalizing m with
  | nil => simp [putAll, lookup]
  | cons e l ih =>
    obtain ⟨k₀, v⟩ := e
    simp only [List.map_cons, List.nodup_cons] at hl
    have ih' := ih hl.2 (m.put k₀ v)
    simp only [putAll, List.foldl_cons] at ih' ⊢
    rw [ih']
    by_cases h : k₀ = k
    · subst h
      simp [lookup, lookup_eq_none_of_not_mem _ _ hl.1]
    · have h' : k ≠ k₀ := fun e => h e.symm
      simp [lookup, h, get_put_ne m v h']

theorem get_putAll_entries (m d : GoMap κ α) (k : κ) :
    (m.putAll d.entries).get k = (d.get k).orElse (fun _ => m.get k) :=
  get_putAll d.entries d.nodup m k

/-- Writes under keys other than `k` leave the lookup of `k` alone. -/
theorem get_foldl_put_of_ne {β : Type} (f : β → κ) (g : β → α) (k : κ) (l : List β)
    (h : ∀ b ∈ l, f b ≠ k) (m : GoMap κ α) :
    (l.foldl (fun acc b => acc.put (f b) (g b)) m).get k = m.get k := by
  induction l generalizing m with
  | nil => rfl
  | cons b l ih =>
    simp only [List.foldl_cons]
    rw [ih (fun b hb => h b (List.mem_cons_of_mem _ hb))]
    exact get_put_ne m _ (fun e => h b (List.mem_cons_self _ _) e.symm)

/-- Writing a list of entries into a map: the last entry under a key wins. -/
theorem get_putAll_reverse (l : List (κ × α)) (m : GoMap κ α) (k : κ) :
    (m.putAll l).get k = (lookup k l.reverse).orElse (fun _ => m.get k) := by
  induction l generalizing m with
  | nil => simp [putAll, lookup]
  | cons e l ih =>
    obtain ⟨k₀, v⟩ := e
    have ih' := ih (m.put k₀ v)
    simp only [putAll, List.foldl_cons] at ih' ⊢
    rw [ih', List.reverse_cons, lookup_append, get_put]
    cases lookup k l.reverse with
    | some x => simp
    | none =>
      by_cases h : k₀ = k
      · subst h; simp [lookup]
      · have h' : ¬ k = k₀ := fun e => h e.symm
        simp [lookup, h, h']

theorem lookup_isSome_of_mem (k : κ) (l : List (κ × α)) (h : k ∈ l.map Prod.fst) :
    (lookup k l).isSome = true := by
  induction l with
  | nil => cases h
  | cons e l ih =>
    obtain ⟨k', v⟩ := e
    by_cases hk : k' = k
    · simp [lookup, hk]
    · simp only [List.map_cons, List.mem_cons] at h
      rcases h with h | h
      · exact absurd h.symm hk
      · simp [lookup, hk, ih h]

theorem mem_of_lookup_eq_some (k : κ) (v : α) (l : List (κ × α)) (h : lookup k l = some v) :
    (k, v) ∈ l := by
  induction l with
  | nil => cases h
  | cons e l ih =>
    obtain ⟨k', v'⟩ := e
    by_cases hk : k' = k
    · subst hk
      simp only [lookup, if_true, Option.some.injEq] at h
      subst h
      exact List.mem_cons_self _ _
    · simp only [lookup, hk, if_false] at h
      exact List.mem_cons_of_mem _ (ih h)

/-- The keys of a map, as a finite set. -/
theorem keys_put (m : GoMap κ α) (k : κ) (v : α) :
    ((m.put k v).entries.map Prod.fst).toFinset = insert k (m.entries.map Prod.fst).toFinset := by
  ext x
  simp only [put, List.map_append, List.map_cons, List.map_nil, List.toFinset_append,
    Finset.mem_union, List.mem_toFinset, List.mem_map, List.mem_filter, List.mem_singleton,
    Finset.mem_insert]
  constructor
  · rintro (⟨e, ⟨he, _⟩, rfl⟩ | h)
    · exact Or.inr ⟨e, he, rfl⟩
    · exact Or.inl h
  · rintro (h | ⟨e, he, rfl⟩)
    · exact Or.inr h
    · by_cases hk : e.1 = k
      · exact Or.inr hk
      · exact Or.inl ⟨e, ⟨he, by simp [hk]⟩, rfl⟩

theorem keys_putAll (l : List (κ × α)) (m : GoMap κ α) :
    ((m.putAll l).entries.map Prod.fst).toFinset =
      (m.entries.map Prod.fst).toFinset ∪ (l.map Prod.fst).toFinset := by
  induction l generalizing m with
  | nil => simp [putAll]
  | cons e l ih =>
    have ih' := ih (m.put e.1 e.2)
    simp only [putAll, List.foldl_cons] at ih' ⊢
    rw [ih', keys_put]
    ext x
    simp only [Finset.mem_union, Finset.mem_insert, List.mem_toFinset, List.map_cons,
      List.mem_cons]
    tauto

theorem len_eq_card (m : GoMap κ α) : m.len = (m.entries.map Prod.fst).toFinset.card := by
  rw [List.toFinset_card_of_nodup m.nodup, List.length_map]
  rfl

theorem len_putAll_empty (l : List (κ × α)) :
    ((empty : GoMap κ α).putAll l).len = (l.map Prod.fst).toFinset.card := by
  rw [len_eq_card, keys_putAll]
  simp [empty]

end GoMap

theorem get_Union (dict1 dict2 : M) (k : String) :
    (Union dict1 dict2).get k = (dict2.get k).orElse (fun _ => dict1.get k) := by
  simp [Union, GoMap.get_putAll_entries]

theorem get_Update (m d : M) (k : String) :
    (M.Update m d).get k = (d.get k).orElse (fun _ => m.get k) := by
  simp [M.Update, GoMap.get_putAll_entries]

/-! ## Reporting -/

theorem reportMetricSlice_fst (organizationID : String) (metrics : List M) (reporter : Reporter) :
    (reportMetricSlice organizationID reporter metrics).1 =
      reporter ++ metrics.map (fun metric => (reportMetric organizationID metric).1) := by
  induction metrics generalizing reporter with
  | nil => simp [reportMetricSlice]
  | cons metric rest ih =>
    simp only [reportMetricSlice, Reporter.Event, ih, List.map_cons, List.append_assoc,
      List.singleton_append]

theorem reportMetricSlice_snd (organizationID : String) (metrics : List M) (reporter : Reporter) :
    (reportMetricSlice organizationID reporter metrics).2 =
      metrics.map (fun metric => (reportMetric organizationID metric).2) := by
  induction metrics generalizing reporter with
  | nil => simp [reportMetricSlice]
  | cons metric rest ih =>
    simp only [reportMetricSlice, ih, List.map_cons]

theorem ReportMetricsForOrganization_single (organizationID : String) (reporter : Reporter)
    (metrics : List M) :
    (ReportMetricsForOrganization organizationID reporter [metrics]).1 =
      reporter ++ metrics.map (fun metric => (reportMetric organizationID metric).1) := by
  simp only [ReportMetricsForOrganization, reportMetricSlice_fst]

theorem ReportMetricsForOrganization_fst (organizationID : String) (metrics : List (List M))
    (reporter : Reporter) :
    (ReportMetricsForOrganization organizationID reporter metrics).1 =
      reporter ++ metrics.flatten.map (fun metric => (reportMetric organizationID metric).1) := by
  induction metrics generalizing reporter with
  | nil => simp [ReportMetricsForOrganization]
  | cons metricSlice rest ih =>
    simp only [ReportMetricsForOrganization, ih, reportMetricSlice_fst, List.flatten_cons,
      List.map_append, List.append_assoc]

/-- Where the event of one metric map stands among the events of a call of
`ReportMetricsForOrganization`. -/
theorem ReportMetricsForOrganization_split (organizationID : String) (reporter : Reporter)
    (slicesBefore slicesAfter : List (List M)) (before after : List M) (metric : M) :
    (ReportMetricsForOrganization organizationID reporter
        (slicesBefore ++ (before ++ metric :: after) :: slicesAfter)).1 =
      (ReportMetricsForOrganization organizationID reporter (slicesBefore ++ [before])).1 ++
        (reportMetric organizationID metric).1 ::
        (ReportMetricsForOrganization organizationID [] (after :: slicesAfter)).1 := by
  simp [ReportMetricsForOrganization_fst, List.flatten_append, List.flatten_cons]

/-- The literal `mapstr.M{"organization_id": organizationID}`. -/
theorem get_organization_literal (organizationID : String) (k : String) :
    (GoMap.ofList [("organization_id", Value.str organizationID)]).get k =
      if k = "organization_id" then some (.str organizationID) else none := by
  simp [GoMap.ofList, GoMap.putAll, GoMap.get_put]

/-- The event of a metric map whose `"@timestamp"` holds a `time.Time`. -/
theorem reportMetric_of_time (organizationID : String) (metric : M) (ts : Time)
    (h : metric.get "@timestamp" = some (.time ts)) :
    reportMetric organizationID metric =
      ({ Timestamp := ts,
         ModuleFields := M.Update (GoMap.ofList [("organization_id", .str organizationID)])
            (metric.delete "@timestamp") },
       metric.delete "@timestamp") := by
  simp only [reportMetric, h]

/-- The event of a metric map whose `"@timestamp"` is missing or holds no
`time.Time`. -/
theorem reportMetric_of_no_time (organizationID : String) (metric : M)
    (h : ∀ ts, metric.get "@timestamp" ≠ some (.time ts)) :
    reportMetric organizationID metric =
      ({ Timestamp := 0,
         ModuleFields := M.Update (GoMap.ofList [("organization_id", .str organizationID)])
            metric },
       metric) := by
  unfold reportMetric
  split
  · next ts heq => exact absurd heq (h ts)
  · rfl

/-- A string that does not start with `device.details.` is not the key of a
detail. -/
theorem details_key_ne (x k : String)
    (hk : ("device.details.".data).isPrefixOf k.data = false) : "device.details." ++ x ≠ k := by
  intro h
  have hd : k.data = "device.details.".data ++ x.data := by
    rw [← h, String.data_append]
  have hp : ("device.details.".data).isPrefixOf k.data = true := by
    rw [List.isPrefixOf_iff_prefix, hd]
    exact List.prefix_append _ _
  rw [hk] at hp
  exact Bool.noConfusion hp

/-- C8: for every metric map that carries an explicit sample timestamp (a
`time.Time`) under `"@timestamp"`, wherever it stands among the metric maps handed
to `ReportMetricsForOrganization`, the event emitted for it has that timestamp as
its event time, `"@timestamp"` is not among the event's fields, and every other
field of the metric map is. -/
theorem ReportMetricsForOrganization_explicit_timestamp (organizationID : String)
    (reporter : Reporter) (slicesBefore slicesAfter : List (List M)) (before after : List M)
    (metric : M) (ts : Time) (h : metric.get "@timestamp" = some (.time ts)) :
    ∃ event : Event,
      (ReportMetricsForOrganization organizationID reporter
          (slicesBefore ++ (before ++ metric :: after) :: slicesAfter)).1 =
        (ReportMetricsForOrganization organizationID reporter (slicesBefore ++ [before])).1 ++
          event :: (ReportMetricsForOrganization organizationID [] (after :: slicesAfter)).1 ∧
      event.Timestamp = ts ∧
      event.ModuleFields.get "@timestamp" = none ∧
      ∀ (k : String) (v : Value), k ≠ "@timestamp" → metric.get k = some v →
        event.ModuleFields.get k = some v := by
  refine ⟨(reportMetric organizationID metric).1,
    ReportMetricsForOrganization_split _ _ _ _ _ _ _, ?_, ?_, ?_⟩
  · rw [reportMetric_of_time _ _ _ h]
  · rw [reportMetric_of_time _ _ _ h]
    simp only
    rw [get_Update, GoMap.get_delete_self, get_organization_literal]
    simp
  · intro k v hk hv
    rw [reportMetric_of_time _ _ _ h]
    simp only
    rw [get_Update, GoMap.get_delete_ne _ hk, hv]
    rfl

/-- C8 on a metric map with a timestamp, a loss percent and a latency. -/
theorem ReportMetricsForOrganization_explicit_timestamp_witness :
    ∃ event : Event,
      (ReportMetricsForOrganization "org1" []
          [[GoMap.ofList [("@timestamp", .time 63839664000000000000),
                          ("uplink.loss_percent", .floatPtr (some (5 / 2))),
                          ("uplink.latency_ms", .floatPtr (some 10))]]]).1 = [event] ∧
      event.Timestamp = 63839664000000000000 ∧
      event.ModuleFields.get "@timestamp" = none ∧
      event.ModuleFields.get "uplink.loss_percent" = some (.floatPtr (some (5 / 2))) := by
  obtain ⟨event, heq, hts, hnone, hfields⟩ :=
    ReportMetricsForOrganization_explicit_timestamp "org1" [] [] [] [] []
      (GoMap.ofList [("@timestamp", .time 63839664000000000000),
                     ("uplink.loss_percent", .floatPtr (some (5 / 2))),
                     ("uplink.latency_ms", .floatPtr (some 10))])
      63839664000000000000 (by decide)
  refine ⟨event, ?_, hts, hnone,
    hfields _ _ (by decide) (by simp [GoMap.ofList, GoMap.putAll, GoMap.get_put])⟩
  simpa [ReportMetricsForOrganization, reportMetricSlice] using heq

/-- C9: for every metric map that carries no explicit sample timestamp (no
`time.Time` under `"@timestamp"`), wherever it stands among the metric maps handed to
`ReportMetricsForOrganization`, the event emitted for it leaves its timestamp unset
and so has the collection instant as its event time; every field of the metric map
is among the event's fields. -/
theorem ReportMetricsForOrganization_no_timestamp (organizationID : String)
    (reporter : Reporter) (slicesBefore slicesAfter : List (List M)) (before after : List M)
    (metric : M) (collectionInstant : Time)
    (h : ∀ ts, metric.get "@timestamp" ≠ some (.time ts)) :
    ∃ event : Event,
      (ReportMetricsForOrganization organizationID reporter
          (slicesBefore ++ (before ++ metric :: after) :: slicesAfter)).1 =
        (ReportMetricsForOrganization organizationID reporter (slicesBefore ++ [before])).1 ++
          event :: (ReportMetricsForOrganization organizationID [] (after :: slicesAfter)).1 ∧
      event.Timestamp = 0 ∧
      eventTime collectionInstant event = collectionInstant ∧
      ∀ (k : String) (v : Value), metric.get k = some v → event.ModuleFields.get k = some v := by
  refine ⟨(reportMetric organizationID metric).1,
    ReportMetricsForOrganization_split _ _ _ _ _ _ _, ?_, ?_, ?_⟩
  · rw [reportMetric_of_no_time _ _ h]
  · rw [reportMetric_of_no_time _ _ h]
    simp [eventTime]
  · intro k v hv
    rw [reportMetric_of_no_time _ _ h]
    simp only
    rw [get_Update, hv]
    rfl

/-- C9 on a metric map with a model and a score, collected at instant `7`. -/
theorem ReportMetricsForOrganization_no_timestamp_witness :
    ∃ event : Event,
      (ReportMetricsForOrganization "org1" []
          [[GoMap.ofList [("device.model", .str "MX67"),
                          ("device.performance.score", .float 12)]]]).1 = [event] ∧
      event.Timestamp = 0 ∧
      eventTime 7 event = 7 ∧
      event.ModuleFields.get "device.model" = some (.str "MX67") := by
  obtain ⟨event, heq, hts, hnow, hfields⟩ :=
    ReportMetricsForOrganization_no_timestamp "org1" [] [] [] [] []
      (GoMap.ofList [("device.model", .str "MX67"), ("device.performance.score", .float 12)])
      7 (by intro ts; simp [GoMap.ofList, GoMap.putAll, GoMap.get_put])
  refine ⟨event, ?_, hts, hnow,
    hfields _ _ (by simp [GoMap.ofList, GoMap.putAll, GoMap.get_put])⟩
  simpa [ReportMetricsForOrganization, reportMetricSlice] using heq

/-! ## Inventory -/

theorem buildDevice_of_no_details (d : ResponseItemOrganizationsGetOrganizationDevices)
    (h : d.Details = none ∨ d.Details = some []) : buildDevice d = .ok (deviceLiteral d) := by
  rcases h with h | h
  · simp only [buildDevice, h]
  · simp only [buildDevice, h]
    rfl

theorem foldlM_devices_of_no_details (val : List ResponseItemOrganizationsGetOrganizationDevices)
    (h : ∀ d ∈ val, d.Details = none ∨ d.Details = some []) (devices : GoMap Serial Device) :
    val.foldlM
        (fun (devices : GoMap Serial Device) d => do
          let device ← buildDevice d
          pure (devices.put device.Serial device))
        devices =
      .ok (devices.putAll (val.map (fun d => (d.Serial, deviceLiteral d)))) := by
  induction val generalizing devices with
  | nil => rfl
  | cons d rest ih =>
    have hd := buildDevice_of_no_details d (h d (List.mem_cons_self _ _))
    have ih' := ih (fun d' hd' => h d' (List.mem_cons_of_mem _ hd'))
      (devices.put d.Serial (deviceLiteral d))
    simp only [List.foldlM_cons, hd, List.map_cons, GoMap.putAll, List.foldl_cons] at ih' ⊢
    exact ih'

theorem collectDevices_of_no_details (val : List ResponseItemOrganizationsGetOrganizationDevices)
    (h : ∀ d ∈ val, d.Details = none ∨ d.Details = some []) :
    collectDevices val =
      .ok (GoMap.empty.putAll (val.map (fun d => (d.Serial, deviceLiteral d)))) :=
  foldlM_devices_of_no_details val h GoMap.empty

/-- The two copies of the inventory loop agree. -/
theorem getDevices_eq_GetDevices (client : Client) (organizationID : String) :
    device_uplinks_loss_and_latency.getDevices client organizationID =
      GetDevices client organizationID := rfl

/-- Counting distinct serials when the non-empty ones are distinct. -/
theorem card_serials (S : List String) (h : (S.filter (fun s => s ≠ "")).Nodup) :
    S.toFinset.card + S.count "" = S.length + (if S.count "" = 0 then 0 else 1) := by
  induction S with
  | nil => simp
  | cons a S ih =>
    by_cases ha : a = ""
    · subst ha
      have hfilter : (S.filter (fun s => s ≠ "")).Nodup := by simpa using h
      have ih' := ih hfilter
      by_cases hmem : "" ∈ S
      · have hpos : 0 < S.count "" := List.count_pos_iff.mpr hmem
        have hne : S.count "" ≠ 0 := by omega
        simp only [hne, if_false] at ih'
        simp only [List.toFinset_cons, List.count_cons_self, List.length_cons,
          Finset.insert_eq_of_mem (List.mem_toFinset.mpr hmem)]
        simp
        omega
      · have hzero : S.count "" = 0 := List.count_eq_zero.mpr hmem
        simp only [hzero, if_true] at ih'
        simp only [List.toFinset_cons, List.count_cons_self, List.length_cons, hzero,
          Finset.card_insert_of_not_mem (fun hh => hmem (List.mem_toFinset.mp hh))]
        simp
        omega
    · have hfilter : (a :: S.filter (fun s => s ≠ "")).Nodup := by simpa [ha] using h
      have hnot : a ∉ S := by
        intro hmem
        have : a ∈ S.filter (fun s => s ≠ "") := by simp [hmem, ha]
        exact (List.nodup_cons.mp hfilter).1 this
      have ih' := ih (List.nodup_cons.mp hfilter).2
      have hcount : (a :: S).count "" = S.count "" := by
        rw [List.count_cons]
        simp [ha]
      rw [hcount, List.toFinset_cons,
        Finset.card_insert_of_not_mem (fun hh => hnot (List.mem_toFinset.mp hh)),
        List.length_cons]
      omega

/-- C10, as stated, fails: of two upstream entries, one with an empty serial, both
are in the inventory map; the empty serial is a map key and the map has 2 entries,
not `len(raw) - n = 1`. Both copies of the inventory loop. -/
theorem GetDevices_keeps_keyless :
    ∃ devices : GoMap Serial Device,
      GetDevices keylessClient "org1" = .ok devices ∧
      device_uplinks_loss_and_latency.getDevices keylessClient "org1" = .ok devices ∧
      (devices.get "").isSome = true ∧
      devices.len = 2 ∧
      devices.len ≠ 2 - 1 :=
  ⟨_, rfl, rfl, by decide, by decide, by decide⟩

/-- C10, amended: for every upstream device list without details payloads,
containing `n` entries with an empty or missing serial, the inventory map built by
`GetDevices` (and by `getDevices`) keeps those entries under the empty serial. Every
entry's serial, the empty one included, is a map key holding a device of that
serial, and the map has `len(raw) - n + 1` entries (`len(raw)` when `n = 0`) when
the remaining serials are distinct. -/
theorem GetDevices_keyless_kept (client : Client) (organizationID : String)
    (val : List ResponseItemOrganizationsGetOrganizationDevices)
    (hval : client.GetOrganizationDevices organizationID = .ok val)
    (hdetails : ∀ d ∈ val, d.Details = none ∨ d.Details = some [])
    (hdistinct : ((val.map (fun d => d.Serial)).filter (fun s => s ≠ "")).Nodup) :
    ∃ devices : GoMap Serial Device,
      GetDevices client organizationID = .ok devices ∧
      device_uplinks_loss_and_latency.getDevices client organizationID = .ok devices ∧
      (∀ d ∈ val, ∃ device, devices.get d.Serial = some device ∧ device.Serial = d.Serial) ∧
      devices.len =
        val.length - (val.map (fun d => d.Serial)).count "" +
          (if (val.map (fun d => d.Serial)).count "" = 0 then 0 else 1) := by
  have hget : GetDevices client organizationID =
      .ok (GoMap.empty.putAll (val.map (fun d => (d.Serial, deviceLiteral d)))) := by
    simp only [GetDevices, hval, collectDevices_of_no_details val hdetails]
  refine ⟨_, hget, (getDevices_eq_GetDevices client organizationID).trans hget, ?_, ?_⟩
  · intro d hd
    rw [GoMap.get_putAll_reverse]
    have hmem : d.Serial ∈ ((val.map (fun d => (d.Serial, deviceLiteral d))).reverse).map
        Prod.fst := by
      simp only [List.map_reverse, List.mem_reverse, List.map_map, List.mem_map]
      exact ⟨d, hd, rfl⟩
    have hsome := GoMap.lookup_isSome_of_mem _ _ hmem
    obtain ⟨device, hdev⟩ := Option.isSome_iff_exists.mp hsome
    refine ⟨device, by simp [hdev], ?_⟩
    have hin := GoMap.mem_of_lookup_eq_some _ _ _ hdev
    simp only [List.mem_reverse, List.mem_map, Prod.mk.injEq] at hin
    obtain ⟨d', _, hs, hl⟩ := hin
    rw [← hl, ← hs]
    rfl
  · rw [GoMap.len_putAll_empty, List.map_map]
    have hcomp : (Prod.fst ∘ fun d : ResponseItemOrganizationsGetOrganizationDevices =>
        (d.Serial, deviceLiteral d)) = fun d => d.Serial := rfl
    rw [hcomp]
    have hcard := card_serials (val.map (fun d => d.Serial)) hdistinct
    have hle : (val.map (fun d => d.Serial)).count "" ≤ (val.map (fun d => d.Serial)).length :=
      List.count_le_length _ _
    rw [List.length_map] at hcard hle
    split
    · next h0 => simp only [h0, if_true] at hcard; omega
    · next h0 => simp only [h0, if_false] at hcard; omega

/-- C10, amended, on the two-entry list with one empty serial: the map has
`2 - 1 + 1 = 2` entries and the empty serial is a key. -/
theorem GetDevices_keyless_kept_witness :
    ∃ devices : GoMap Serial Device,
      GetDevices keylessClient "org1" = .ok devices ∧
      devices.len = 2 ∧
      ∃ device, devices.get "" = some device ∧ device.Serial = "" := by
  obtain ⟨devices, hget, _, hkeys, hlen⟩ :=
    GetDevices_keyless_kept keylessClient "org1"
      [ { Address := "", Details := none, Firmware := "", Imei := none, LanIP := "",
          Lat := none, Lng := none, Mac := "", Model := "X0", Name := "", NetworkID := "",
          Notes := "", ProductType := "", Serial := "", Tags := [] },
        { Address := "", Details := none, Firmware := "", Imei := none, LanIP := "",
          Lat := none, Lng := none, Mac := "", Model := "X1", Name := "", NetworkID := "",
          Notes := "", ProductType := "", Serial := "S1", Tags := [] } ]
      rfl (by decide) (by decide)
  refine ⟨devices, hget, ?_, ?_⟩
  · rw [hlen]; decide
  · exact hkeys _ (List.mem_cons_self _ _)

/-! ## Window sizing -/

/-- An integer rounds to itself. -/
theorem roundHalfEven_intCast (n : ℤ) : roundHalfEven (n : ℚ) = n := by
  simp [roundHalfEven]

/-- Rounding to the nearest integer moves a number by at most one half. -/
theorem abs_roundHalfEven_sub_le (t : ℚ) : |(roundHalfEven t : ℚ) - t| ≤ 1 / 2 := by
  have h1 : (⌊t⌋ : ℚ) ≤ t := Int.floor_le t
  have h2 : t < ⌊t⌋ + 1 := Int.lt_floor_add_one t
  unfold roundHalfEven
  simp only
  rw [abs_le]
  split_ifs with ha hb hc
  · constructor <;> linarith
  · push_cast; constructor <;> linarith
  · constructor <;> linarith
  · push_cast; constructor <;> linarith

theorem Float64.spacing_pos (x : ℚ) : 0 < Float64.spacing x := by
  unfold Float64.spacing
  positivity

/-- Rounding to the nearest `float64` moves a number by at most half the spacing. -/
theorem Float64.abs_round_sub_le (x : ℚ) :
    |Float64.round x - x| ≤ Float64.spacing x / 2 := by
  have hq := Float64.spacing_pos x
  have h := abs_roundHalfEven_sub_le (x / Float64.spacing x)
  have hx : Float64.round x - x =
      ((roundHalfEven (x / Float64.spacing x) : ℚ) - x / Float64.spacing x) *
        Float64.spacing x := by
    unfold Float64.round
    field_simp
  rw [hx, abs_mul, abs_of_pos hq]
  calc |((roundHalfEven (x / Float64.spacing x) : ℚ) - x / Float64.spacing x)| *
        Float64.spacing x ≤ 1 / 2 * Float64.spacing x :=
        mul_le_mul_of_nonneg_right h hq.le
    _ = Float64.spacing x / 2 := by ring

theorem Float64.log_le (x : ℚ) (m : ℤ) (hm : 0 ≤ m ∨ x ≠ 0) (h : |x| < (2 : ℚ) ^ (m + 1)) :
    Int.log 2 |x| ≤ m := by
  by_cases hx : x = 0
  · subst hx
    rcases hm with hm | hm
    · simpa using hm
    · exact absurd rfl hm
  · have hpos : 0 < |x| := abs_pos.mpr hx
    have := (Int.lt_zpow_iff_log_lt (b := 2) (by norm_num) hpos).mp (by exact_mod_cast h)
    omega

theorem Float64.spacing_le (x : ℚ) (m : ℤ) (hm : 0 ≤ m ∨ x ≠ 0) (hmin : -1022 ≤ m)
    (h : |x| < (2 : ℚ) ^ (m + 1)) :
    Float64.spacing x ≤ (2 : ℚ) ^ (m - 52) := by
  unfold Float64.spacing
  apply zpow_le_zpow_right₀ (by norm_num)
  have := Float64.log_le x m hm h
  omega

/-- An integer below `2 ^ 53` in absolute value is a `float64`. -/
theorem Float64.round_intCast (n : ℤ) (h : |(n : ℚ)| < (2 : ℚ) ^ (53 : ℤ)) :
    Float64.round (n : ℚ) = n := by
  have hlog := Float64.log_le (n : ℚ) 52 (Or.inl (by norm_num)) (by simpa using h)
  obtain ⟨j, hj⟩ : ∃ j : ℕ, max (Int.log 2 |(n : ℚ)|) (-1022) - 52 = -(j : ℤ) :=
    ⟨(52 - max (Int.log 2 |(n : ℚ)|) (-1022)).toNat, by omega⟩
  have hq : Float64.spacing (n : ℚ) = ((2 : ℚ) ^ j)⁻¹ := by
    unfold Float64.spacing
    rw [hj, zpow_neg, zpow_natCast]
  unfold Float64.round
  rw [hq]
  have hdiv : (n : ℚ) / ((2 : ℚ) ^ j)⁻¹ = ((n * 2 ^ j : ℤ) : ℚ) := by
    push_cast
    field_simp
  rw [hdiv, roundHalfEven_intCast]
  push_cast
  field_simp

/-- A `float64` is an integer times a power of two. -/
theorem Float64.round_dyadic (x : ℚ) : ∃ (m k : ℤ), Float64.round x = (m : ℚ) * (2 : ℚ) ^ k :=
  ⟨_, _, rfl⟩


/-- The rounding error below `2 ^ (m + 1)`. -/
theorem Float64.abs_round_sub_le_of_lt (x : ℚ) (m : ℤ) (hmin : -1022 ≤ m)
    (h : |x| < (2 : ℚ) ^ (m + 1)) :
    |Float64.round x - x| ≤ (2 : ℚ) ^ (m - 53) := by
  by_cases hx : x = 0
  · subst hx
    have h0 : Float64.round 0 = 0 := by simpa using Float64.round_intCast 0 (by norm_num)
    rw [h0]
    simp only [sub_zero, abs_zero]
    positivity
  · have h1 := Float64.abs_round_sub_le x
    have h2 := Float64.spacing_le x m (Or.inr hx) hmin h
    have h3 : (2 : ℚ) ^ (m - 52) / 2 = (2 : ℚ) ^ (m - 53) := by
      have : m - 52 = (m - 53) + 1 := by ring
      rw [this, zpow_add_one₀ (by norm_num)]
      ring
    linarith

/-- The parts of a period in the range of `time.Duration`. -/
theorem Duration.parts (period : Duration) (h0 : 0 ≤ period)
    (h1 : period < 9223372036854775808) :
    0 ≤ Int.tdiv period Second ∧ Int.tdiv period Second ≤ 9223372036 ∧
      0 ≤ Int.tmod period Second ∧ Int.tmod period Second < 1000000000 ∧
      (period : ℚ) / 1000000000 =
        (Int.tdiv period Second : ℚ) + (Int.tmod period Second : ℚ) / 1000000000 := by
  have hs : (0 : Int) < Second := by decide
  have hsplit := Int.tdiv_add_tmod period Second
  have hm0 := Int.tmod_nonneg Second h0
  have hm1 := Int.tmod_lt_of_pos period hs
  have hd0 : 0 ≤ Int.tdiv period Second := Int.tdiv_nonneg h0 hs.le
  simp only [Second] at hsplit hm0 hm1 hd0 ⊢
  have h1' : (period : Int) < 9223372036854775808 := h1
  have hsplit' : (1000000000 : Int) * Int.tdiv period 1000000000 +
      Int.tmod period 1000000000 = (period : Int) := hsplit
  have hd1 : Int.tdiv period 1000000000 ≤ 9223372036 := by
    by_contra hc
    have hc' : 9223372037 ≤ Int.tdiv period 1000000000 := by omega
    linarith
  refine ⟨hd0, hd1, hm0, hm1, ?_⟩
  have hq : (period : ℚ) =
      1000000000 * (Int.tdiv period 1000000000 : ℚ) + (Int.tmod period 1000000000 : ℚ) := by
    exact_mod_cast hsplit.symm
  rw [hq]
  field_simp
  ring

/-- The requested timespan, for a period in the range of `time.Duration`: within
two microseconds of the period in seconds plus 10. -/
theorem timespan_bounds (period : Duration) (h0 : 0 ≤ period)
    (h1 : period < 9223372036854775808) :
    |(lossAndLatencyQueryParams period).Timespan - ((period : ℚ) / 1000000000 + 10)|
        ≤ 1 / 500000 ∧
      (period : ℚ) / 1000000000 + 9 ≤ (lossAndLatencyQueryParams period).Timespan := by
  obtain ⟨hd0, hd1, hm0, hm1, hsplit⟩ := Duration.parts period h0 h1
  have hsec : Float64.round ((Int.tdiv period Second : ℤ) : ℚ) = (Int.tdiv period Second : ℤ) := by
    apply Float64.round_intCast
    rw [abs_of_nonneg (by exact_mod_cast hd0)]
    have : ((Int.tdiv period Second : ℤ) : ℚ) ≤ 9223372036 := by exact_mod_cast hd1
    norm_num
    linarith
  have hnsec : Float64.round ((Int.tmod period Second : ℤ) : ℚ) = (Int.tmod period Second : ℤ) := by
    apply Float64.round_intCast
    rw [abs_of_nonneg (by exact_mod_cast hm0)]
    have : ((Int.tmod period Second : ℤ) : ℚ) < 1000000000 := by exact_mod_cast hm1
    norm_num
    linarith
  have hsq0 : (0 : ℚ) ≤ (Int.tdiv period Second : ℤ) := by exact_mod_cast hd0
  have hsq1 : ((Int.tdiv period Second : ℤ) : ℚ) ≤ 9223372036 := by exact_mod_cast hd1
  have hnq0 : (0 : ℚ) ≤ (Int.tmod period Second : ℤ) := by exact_mod_cast hm0
  have hnq1 : ((Int.tmod period Second : ℤ) : ℚ) < 1000000000 := by exact_mod_cast hm1
  -- the fraction of a second
  have hx0 : (0 : ℚ) ≤ (Int.tmod period Second : ℤ) / 1000000000 := by positivity
  have hx1 : ((Int.tmod period Second : ℤ) : ℚ) / 1000000000 < 1 := by
    rw [div_lt_one (by norm_num)]; exact hnq1
  have hb := Float64.abs_round_sub_le_of_lt
    (((Int.tmod period Second : ℤ) : ℚ) / 1000000000) (-1) (by norm_num)
    (by rw [abs_of_nonneg hx0]; norm_num; exact hx1)
  rw [abs_le] at hb
  norm_num at hb
  -- the seconds
  have hy := Float64.abs_round_sub_le_of_lt
    (((Int.tdiv period Second : ℤ) : ℚ) +
      Float64.round (((Int.tmod period Second : ℤ) : ℚ) / 1000000000)) 33 (by norm_num)
    (by rw [abs_lt]; norm_num; constructor <;> linarith [hb.1, hb.2])
  rw [abs_le] at hy
  norm_num at hy
  have hz := Float64.abs_round_sub_le_of_lt
    (Float64.round (((Int.tdiv period Second : ℤ) : ℚ) +
      Float64.round (((Int.tmod period Second : ℤ) : ℚ) / 1000000000)) + 10) 33 (by norm_num)
    (by rw [abs_lt]; norm_num; constructor <;> linarith [hb.1, hb.2, hy.1, hy.2])
  rw [abs_le] at hz
  norm_num at hz
  have hT : (lossAndLatencyQueryParams period).Timespan =
      Float64.round (Float64.round (((Int.tdiv period Second : ℤ) : ℚ) +
        Float64.round (((Int.tmod period Second : ℤ) : ℚ) / 1000000000)) + 10) := by
    simp only [lossAndLatencyQueryParams, Duration.Seconds, Float64.add, Float64.ofInt,
      Float64.div, hsec, hnsec]
  rw [hT, hsplit, abs_le]
  refine ⟨⟨?_, ?_⟩, ?_⟩ <;> linarith [hb.1, hb.2, hy.1, hy.2, hz.1, hz.2]

/-- The requested timespan of a period of whole seconds is exact. -/
theorem timespan_whole_seconds (s : Int) (h0 : 0 ≤ s) (h1 : s ≤ 9223372036) :
    (lossAndLatencyQueryParams (s * 1000000000)).Timespan = (s : ℚ) + 10 := by
  have hd : Int.tdiv (s * 1000000000) Second = s := by
    simp only [Second]
    exact Int.mul_tdiv_cancel s (by decide)
  have hm : Int.tmod (s * 1000000000) Second = 0 := by
    simp only [Second]
    exact Int.mul_tmod_left s 1000000000
  have hsq1 : (s : ℚ) ≤ 9223372036 := by exact_mod_cast h1
  have hsq0 : (0 : ℚ) ≤ s := by exact_mod_cast h0
  have hs : Float64.round (s : ℚ) = s := by
    apply Float64.round_intCast
    rw [abs_of_nonneg hsq0]
    norm_num
    linarith
  have h0' : Float64.round 0 = 0 := by simpa using Float64.round_intCast 0 (by norm_num)
  have hs10 : Float64.round ((s : ℚ) + 10) = s + 10 := by
    have := Float64.round_intCast (s + 10) (by
      push_cast
      rw [abs_of_nonneg (by linarith)]
      norm_num
      linarith)
    simpa using this
  simp only [lossAndLatencyQueryParams, Duration.Seconds, Float64.add, Float64.ofInt,
    Float64.div, hd, hm, Int.cast_zero, zero_div, h0', add_zero, hs, hs10]

/-- A fraction whose denominator has the factor five, and whose numerator has
not, is no integer times a power of two. -/
theorem not_dyadic_of_five (a : ℤ) (ha : a % 5 ≠ 0) (b : ℤ) (hb : 0 < b) (hb5 : b % 5 = 0)
    (m k : ℤ) : (m : ℚ) * (2 : ℚ) ^ k ≠ (a : ℚ) / b := by
  have hpow : ∀ j : ℕ, (2 ^ j : ℤ) % 5 ≠ 0 := by
    intro j
    induction j with
    | zero => decide
    | succ j ih => rw [pow_succ]; omega
  intro h
  have hbq : (b : ℚ) ≠ 0 := by exact_mod_cast hb.ne'
  rcases le_total 0 k with hk | hk
  · obtain ⟨j, rfl⟩ := Int.eq_ofNat_of_zero_le hk
    rw [zpow_natCast, eq_div_iff hbq] at h
    have hz : m * 2 ^ j * b = a := by exact_mod_cast h
    have : (m * 2 ^ j * b) % 5 = 0 := by
      rw [Int.mul_emod, hb5]; simp
    rw [hz] at this
    exact ha this
  · obtain ⟨j, hj⟩ : ∃ j : ℕ, k = -(j : ℤ) := ⟨(-k).toNat, by omega⟩
    subst hj
    rw [zpow_neg, zpow_natCast, eq_div_iff hbq] at h
    have h2 : (2 : ℚ) ^ j ≠ 0 := by positivity
    have hq : (m : ℚ) * b = a * 2 ^ j := by
      field_simp at h
      linarith
    have hz : m * b = a * 2 ^ j := by exact_mod_cast hq
    have h5 : (m * b) % 5 = 0 := by rw [Int.mul_emod, hb5]; simp
    rw [hz] at h5
    have hp := hpow j
    have : (a * 2 ^ j) % 5 ≠ 0 := by
      rw [Int.mul_emod]
      have ha' : a % 5 = 1 ∨ a % 5 = 2 ∨ a % 5 = 3 ∨ a % 5 = 4 := by omega
      have hp' : (2 ^ j : ℤ) % 5 = 1 ∨ (2 ^ j : ℤ) % 5 = 2 ∨ (2 ^ j : ℤ) % 5 = 3 ∨
          (2 ^ j : ℤ) % 5 = 4 := by omega
      rcases ha' with h | h | h | h <;> rcases hp' with h' | h' | h' | h' <;>
        rw [h, h'] <;> decide
    exact this h5

namespace device_uplinks_loss_and_latency

theorem reportMetricsForOrganization_single (organizationID : String) (reporter : Reporter)
    (metrics : List M) :
    (reportMetricsForOrganization organizationID reporter [metrics]).1 =
      reporter ++ metrics.map (fun metric => (reportMetric organizationID metric).1) := by
  simp only [reportMetricsForOrganization, reportMetricSlice_fst]

theorem appendUplinkMetrics_append (devices : GoMap Serial Device) (metrics : List M)
    (uplink : Uplink) :
    appendUplinkMetrics devices metrics uplink =
      metrics ++ appendUplinkMetrics devices [] uplink := by
  unfold appendUplinkMetrics
  cases devices.get uplink.DeviceSerial with
  | none => simp
  | some device =>
    simp only
    generalize uplink.Metrics = l
    induction l using List.reverseRecOn with
    | nil => simp
    | append_singleton l x ih => simp [List.foldl_append, ih]

theorem foldl_appendUplinkMetrics (devices : GoMap Serial Device) (uplinks : List Uplink)
    (metrics : List M) :
    uplinks.foldl (appendUplinkMetrics devices) metrics =
      metrics ++ uplinks.flatMap (appendUplinkMetrics devices []) := by
  induction uplinks generalizing metrics with
  | nil => simp
  | cons u rest ih =>
    rw [List.foldl_cons, ih, appendUplinkMetrics_append, List.flatMap_cons, List.append_assoc]

/-- The metric maps appended for an uplink whose device is in the inventory: one
per data point, in order. -/
theorem appendUplinkMetrics_of_get (devices : GoMap Serial Device) (uplink : Uplink)
    (device : Device) (h : devices.get uplink.DeviceSerial = some device) :
    appendUplinkMetrics devices [] uplink =
      uplink.Metrics.map (fun uplinkMetric =>
        Union (uplinkDeviceMetric uplink device) (GoMap.ofList
          [ ("@timestamp", .time uplinkMetric.Timestamp),
            ("uplink.loss_percent", .floatPtr uplinkMetric.LossPercent),
            ("uplink.latency_ms", .floatPtr uplinkMetric.LatencyMs) ])) := by
  unfold appendUplinkMetrics
  rw [h]
  simp only
  generalize uplink.Metrics = l
  induction l using List.reverseRecOn with
  | nil => simp
  | append_singleton l x ih => simp [List.foldl_append, ih]

/-- The events of `reportDeviceUplinkMetrics`: the reporter's, then one per metric
map, uplink after uplink. -/
theorem reportDeviceUplinkMetrics_eq (reporter : Reporter) (organizationID : String)
    (devices : GoMap Serial Device) (uplinks : List Uplink) :
    reportDeviceUplinkMetrics reporter organizationID devices uplinks =
      reporter ++ uplinks.flatMap (fun uplink =>
        (appendUplinkMetrics devices [] uplink).map
          (fun metric => (reportMetric organizationID metric).1)) := by
  simp only [reportDeviceUplinkMetrics, reportMetricsForOrganization_single,
    foldl_appendUplinkMetrics, List.nil_append]
  congr 1
  induction uplinks with
  | nil => rfl
  | cons u rest ih => simp [List.flatMap_cons, ih]

/-- The sample literal of `reportDeviceUplinkMetrics`. -/
theorem get_sample_literal (uplinkMetric : UplinkMetric) (k : String) :
    (GoMap.ofList
        [ ("@timestamp", Value.time uplinkMetric.Timestamp),
          ("uplink.loss_percent", .floatPtr uplinkMetric.LossPercent),
          ("uplink.latency_ms", .floatPtr uplinkMetric.LatencyMs) ]).get k =
      if k = "uplink.latency_ms" then some (.floatPtr uplinkMetric.LatencyMs)
      else if k = "uplink.loss_percent" then some (.floatPtr uplinkMetric.LossPercent)
      else if k = "@timestamp" then some (.time uplinkMetric.Timestamp)
      else none := by
  simp [GoMap.ofList, GoMap.putAll, GoMap.get_put]

/-- The device literal of `reportDeviceUplinkMetrics` survives the detail loop:
a key that is no detail key keeps the value the literal gave it. -/
theorem get_uplinkDeviceMetric (uplink : Uplink) (device : Device) (k : String)
    (hk : ("device.details.".data).isPrefixOf k.data = false) :
    (uplinkDeviceMetric uplink device).get k =
      GoMap.lookup k
        [ ("uplink.ip", .str uplink.IP),
          ("upliink.interface", .str uplink.Interface),
          ("device.address", .str device.Address),
          ("device.firmware", .str device.Firmware),
          ("device.imei", .floatPtr device.Imei),
          ("device.lan_ip", .str device.LanIP),
          ("device.location", .floatPtrs device.Location),
          ("device.mac", .str device.Mac),
          ("device.model", .str device.Model),
          ("device.name", .str device.Name),
          ("device.network_id", .str device.NetworkID),
          ("device.notes", .str device.Notes),
          ("device.product_type", .str device.ProductType),
          ("device.serial", .str device.Serial),
          ("device.tags", .strs device.Tags) ] := by
  unfold uplinkDeviceMetric
  simp only
  rw [GoMap.get_foldl_put_of_ne (fun kv : String × String => "device.details." ++ kv.1)
    (fun kv => Value.str kv.2) k _ (fun b _ => details_key_ne b.1 k hk)]
  unfold GoMap.ofList
  rw [GoMap.get_putAll _ (by simp)]
  simp

theorem details_key_inj (a b : String) (h : "device.details." ++ a = "device.details." ++ b) :
    a = b := by
  have hd := congrArg String.data h
  simp only [String.data_append] at hd
  exact String.ext (List.append_cancel_left hd)

theorem lookup_details_map (k : String) (l : List (String × String)) :
    GoMap.lookup ("device.details." ++ k)
        (l.map (fun kv => ("device.details." ++ kv.1, Value.str kv.2))) =
      (GoMap.lookup k l).map Value.str := by
  induction l with
  | nil => rfl
  | cons e l ih =>
    obtain ⟨k', v⟩ := e
    by_cases h : k' = k
    · subst h; simp [GoMap.lookup]
    · have h' : ¬ "device.details." ++ k' = "device.details." ++ k :=
        fun e => h (details_key_inj _ _ e)
      simp [GoMap.lookup, h, h', ih]

/-- Every detail of the device is a `device.details.<name>` field of the metric
map. -/
theorem get_uplinkDeviceMetric_detail (uplink : Uplink) (device : Device)
    (details : GoMap String String) (hd : device.Details = some details) (k v : String)
    (h : details.get k = some v) :
    (uplinkDeviceMetric uplink device).get ("device.details." ++ k) = some (.str v) := by
  have hfold : ∀ (l : List (String × String)) (m : M),
      l.foldl (fun metric kv => metric.put ("device.details." ++ kv.1) (Value.str kv.2)) m =
        m.putAll (l.map (fun kv => ("device.details." ++ kv.1, Value.str kv.2))) := by
    intro l
    induction l with
    | nil => intro m; rfl
    | cons e l ih => intro m; simp only [List.foldl_cons, List.map_cons, GoMap.putAll, ih]
  have hnodup : ((details.entries.map
      (fun kv => ("device.details." ++ kv.1, Value.str kv.2))).map Prod.fst).Nodup := by
    rw [List.map_map]
    have : (Prod.fst ∘ fun kv : String × String => ("device.details." ++ kv.1, Value.str kv.2))
        = (fun x => "device.details." ++ x) ∘ Prod.fst := rfl
    rw [this, ← List.map_map]
    exact List.Nodup.map (fun a b e => details_key_inj a b e) details.nodup
  unfold uplinkDeviceMetric
  simp only [hd, rangeMap]
  rw [hfold, GoMap.get_putAll _ hnodup, lookup_details_map]
  have h' : GoMap.lookup k details.entries = some v := h
  simp [h']

/-- C3: for every inventory and every uplink whose device serial matches an
inventory device, `reportDeviceUplinkMetrics` emits exactly one event per retained
sample of that uplink, in order, between the events of the uplinks before and after
it. Each of these events has `organization_id` equal to the organization, the
sample's timestamp as event time, the device dimensions (`device.model`,
`device.serial`, every other `device.*` attribute and every `device.details.<name>`)
and the sample's `uplink.loss_percent` and `uplink.latency_ms`. -/
theorem reportDeviceUplinkMetrics_matched (reporter : Reporter) (organizationID : String)
    (devices : GoMap Serial Device) (before after : List Uplink) (uplink : Uplink)
    (device : Device) (h : devices.get uplink.DeviceSerial = some device) :
    ∃ toEvent : UplinkMetric → Event,
      reportDeviceUplinkMetrics reporter organizationID devices (before ++ uplink :: after) =
        reportDeviceUplinkMetrics reporter organizationID devices before ++
          uplink.Metrics.map toEvent ++
          reportDeviceUplinkMetrics [] organizationID devices after ∧
      (uplink.Metrics.map toEvent).length = uplink.Metrics.length ∧
      ∀ sample : UplinkMetric,
        (toEvent sample).Timestamp = sample.Timestamp ∧
        (toEvent sample).ModuleFields.get "organization_id" = some (.str organizationID) ∧
        (toEvent sample).ModuleFields.get "@timestamp" = none ∧
        (toEvent sample).ModuleFields.get "uplink.loss_percent" =
          some (.floatPtr sample.LossPercent) ∧
        (toEvent sample).ModuleFields.get "uplink.latency_ms" =
          some (.floatPtr sample.LatencyMs) ∧
        (toEvent sample).ModuleFields.get "uplink.ip" = some (.str uplink.IP) ∧
        (toEvent sample).ModuleFields.get "upliink.interface" = some (.str uplink.Interface) ∧
        (toEvent sample).ModuleFields.get "device.address" = some (.str device.Address) ∧
        (toEvent sample).ModuleFields.get "device.firmware" = some (.str device.Firmware) ∧
        (toEvent sample).ModuleFields.get "device.imei" = some (.floatPtr device.Imei) ∧
        (toEvent sample).ModuleFields.get "device.lan_ip" = some (.str device.LanIP) ∧
        (toEvent sample).ModuleFields.get "device.location" =
          some (.floatPtrs device.Location) ∧
        (toEvent sample).ModuleFields.get "device.mac" = some (.str device.Mac) ∧
        (toEvent sample).ModuleFields.get "device.model" = some (.str device.Model) ∧
        (toEvent sample).ModuleFields.get "device.name" = some (.str device.Name) ∧
        (toEvent sample).ModuleFields.get "device.network_id" = some (.str device.NetworkID) ∧
        (toEvent sample).ModuleFields.get "device.notes" = some (.str device.Notes) ∧
        (toEvent sample).ModuleFields.get "device.product_type" =
          some (.str device.ProductType) ∧
        (toEvent sample).ModuleFields.get "device.serial" = some (.str device.Serial) ∧
        (toEvent sample).ModuleFields.get "device.tags" = some (.strs device.Tags) ∧
        ∀ (details : GoMap String String) (k v : String), device.Details = some details →
          details.get k = some v →
          (toEvent sample).ModuleFields.get ("device.details." ++ k) = some (.str v) := by
  refine ⟨fun sample => (reportMetric organizationID
      (Union (uplinkDeviceMetric uplink device) (GoMap.ofList
        [ ("@timestamp", .time sample.Timestamp),
          ("uplink.loss_percent", .floatPtr sample.LossPercent),
          ("uplink.latency_ms", .floatPtr sample.LatencyMs) ]))).1, ?_, by simp, ?_⟩
  · simp only [reportDeviceUplinkMetrics_eq, List.flatMap_append, List.flatMap_cons,
      appendUplinkMetrics_of_get devices uplink device h, List.map_map, List.nil_append,
      List.append_assoc]
    rfl
  · intro sample
    have hts : (Union (uplinkDeviceMetric uplink device) (GoMap.ofList
        [ ("@timestamp", .time sample.Timestamp),
          ("uplink.loss_percent", .floatPtr sample.LossPercent),
          ("uplink.latency_ms", .floatPtr sample.LatencyMs) ])).get "@timestamp" =
        some (.time sample.Timestamp) := by
      rw [get_Union, get_sample_literal]; simp
    beta_reduce
    rw [reportMetric_of_time _ _ _ hts]
    have hfield : ∀ k : String, k ≠ "@timestamp" → k ≠ "uplink.loss_percent" →
        k ≠ "uplink.latency_ms" →
        (M.Update (GoMap.ofList [("organization_id", Value.str organizationID)])
          ((Union (uplinkDeviceMetric uplink device) (GoMap.ofList
            [ ("@timestamp", .time sample.Timestamp),
              ("uplink.loss_percent", .floatPtr sample.LossPercent),
              ("uplink.latency_ms", .floatPtr sample.LatencyMs) ])).delete "@timestamp")).get k =
          ((uplinkDeviceMetric uplink device).get k).orElse
            (fun _ => if k = "organization_id" then some (.str organizationID) else none) := by
      intro k h1 h2 h3
      rw [get_Update, GoMap.get_delete_ne _ h1, get_Union, get_sample_literal,
        get_organization_literal]
      simp [h1, h2, h3]
    refine ⟨rfl, ?_, ?_, ?_, ?_, ?_, ?_, ?_, ?_, ?_, ?_, ?_, ?_, ?_, ?_, ?_, ?_, ?_, ?_, ?_, ?_⟩
    · rw [hfield _ (by decide) (by decide) (by decide), get_uplinkDeviceMetric _ _ _ (by decide)]
      simp [GoMap.lookup]
    · rw [get_Update, GoMap.get_delete_self, get_organization_literal]; simp
    · rw [get_Update, GoMap.get_delete_ne _ (by decide), get_Union, get_sample_literal]; simp
    · rw [get_Update, GoMap.get_delete_ne _ (by decide), get_Union, get_sample_literal]; simp
    all_goals first
      | (rw [hfield _ (by decide) (by decide) (by decide),
            get_uplinkDeviceMetric _ _ _ (by decide)]
         simp [GoMap.lookup])
      | skip
    intro details k v hd hk
    have hne : ∀ s : String, ("device.details.".data).isPrefixOf s.data = false →
        "device.details." ++ k ≠ s := fun s hs => details_key_ne k s hs
    rw [hfield _ (hne _ (by decide)) (hne _ (by decide)) (hne _ (by decide)),
      get_uplinkDeviceMetric_detail uplink device details hd k v hk]
    simp

/-- C3 on the end-to-end scenario: organization `org1` with the device `S1` of
model `X1` and one sample `(T, 2.5, 10.0)` yields a single event. -/
theorem reportDeviceUplinkMetrics_matched_witness :
    (GoMap.ofList [("S1", scenarioDevice)]).get (scenarioUplink 1700000000).DeviceSerial =
        some scenarioDevice ∧
      ∃ event : Event,
        reportDeviceUplinkMetrics [] "org1" (GoMap.ofList [("S1", scenarioDevice)])
          [scenarioUplink 1700000000] = [event] ∧
        event.Timestamp = 1700000000 ∧
        event.ModuleFields.get "organization_id" = some (.str "org1") ∧
        event.ModuleFields.get "device.model" = some (.str "X1") ∧
        event.ModuleFields.get "device.serial" = some (.str "S1") ∧
        event.ModuleFields.get "uplink.loss_percent" = some (.floatPtr (some (5 / 2))) ∧
        event.ModuleFields.get "uplink.latency_ms" = some (.floatPtr (some 10)) := by
  have hget : (GoMap.ofList [("S1", scenarioDevice)]).get
      (scenarioUplink 1700000000).DeviceSerial = some scenarioDevice := by
    simp [GoMap.ofList, GoMap.putAll, scenarioUplink]
  obtain ⟨toEvent, heq, _, hfields⟩ :=
    reportDeviceUplinkMetrics_matched [] "org1" (GoMap.ofList [("S1", scenarioDevice)]) [] []
      (scenarioUplink 1700000000) scenarioDevice hget
  have hf := hfields (⟨1700000000, some (5 / 2), some 10⟩ : UplinkMetric)
  refine ⟨hget, toEvent (⟨1700000000, some (5 / 2), some 10⟩ : UplinkMetric), ?_, hf.1, hf.2.1, ?_, ?_, hf.2.2.2.1, hf.2.2.2.2.1⟩
  · simpa [reportDeviceUplinkMetrics_eq, scenarioUplink] using heq
  · simpa [scenarioDevice] using hf.2.2.2.2.2.2.2.2.2.2.2.2.2.1
  · simpa [scenarioDevice] using hf.2.2.2.2.2.2.2.2.2.2.2.2.2.2.2.2.2.2.1

theorem flatMap_filter_of_nil {α β : Type} (p : α → Bool) (f : α → List β)
    (h : ∀ x, p x = false → f x = []) (l : List α) :
    l.flatMap f = (l.filter p).flatMap f := by
  induction l with
  | nil => rfl
  | cons x l ih =>
    cases hp : p x with
    | true => simp [List.filter_cons, hp, List.flatMap_cons, ih]
    | false => simp [List.filter_cons, hp, List.flatMap_cons, ih, h x hp]

theorem appendUplinkMetrics_of_get_none (devices : GoMap Serial Device) (metrics : List M)
    (uplink : Uplink) (h : devices.get uplink.DeviceSerial = none) :
    appendUplinkMetrics devices metrics uplink = metrics := by
  simp only [appendUplinkMetrics, h]

theorem foldlM_appendUplinkStatuses_filter (devices : GoMap Serial Device)
    (response : List ResponseItemApplianceUplinkStatuses) (metrics : List M) :
    response.foldlM (device_uplinks_status_and_ha.appendUplinkStatuses devices) metrics =
      (response.filter (fun uplink => (devices.get uplink.Serial).isSome)).foldlM
        (device_uplinks_status_and_ha.appendUplinkStatuses devices) metrics := by
  induction response generalizing metrics with
  | nil => rfl
  | cons u rest ih =>
    cases hu : devices.get u.Serial with
    | none =>
      have hstep : device_uplinks_status_and_ha.appendUplinkStatuses devices metrics u =
          .ok metrics := by
        simp only [device_uplinks_status_and_ha.appendUplinkStatuses, hu]
      simp only [List.foldlM_cons, List.filter_cons, hu, Option.isSome_none, hstep]
      exact ih metrics
    | some device =>
      simp only [List.foldlM_cons, List.filter_cons, hu, Option.isSome_some, if_true]
      cases device_uplinks_status_and_ha.appendUplinkStatuses devices metrics u with
      | error e => rfl
      | ok metrics' => exact ih metrics'

/-- C5, as stated, fails: when the inventory fetch of the first organization
fails, `Fetch` returns that error at once and the organization `org1` that comes
after it emits nothing, although alone it emits one event. Both metricsets. -/
theorem Fetch_stops_at_first_failure :
    Fetch scenarioParse scenarioClient 60000000000 ["org0", "org1"] [] =
        ([], some (.api "GetOrganizationDevices"
          { StatusCode := 404, Body := "", Err := "error with operation GetOrganizationDevices" })) ∧
      (Fetch scenarioParse scenarioClient 60000000000 ["org1"] []).1.length = 1 ∧
      (Fetch scenarioParse scenarioClient 60000000000 ["org1"] []).2 = none ∧
      device_uplinks_status_and_ha.Fetch scenarioClient ["org0", "org1"] [] =
        ([], some (.api "GetOrganizationDevices"
          { StatusCode := 404, Body := "", Err := "error with operation GetOrganizationDevices" })) ∧
      (device_uplinks_status_and_ha.Fetch scenarioClient ["org1"] []).1.length = 1 ∧
      (device_uplinks_status_and_ha.Fetch scenarioClient ["org1"] []).2 = none := by
  refine ⟨by decide, by decide, by decide, by decide, by decide, by decide⟩

theorem Fetch_append (parse : String → Option Time) (client : Client) (period : Duration)
    (before rest : List String) (reporter : Reporter) :
    Fetch parse client period (before ++ rest) reporter =
      if (Fetch parse client period before reporter).2 = none then
        Fetch parse client period rest (Fetch parse client period before reporter).1
      else Fetch parse client period before reporter := by
  induction before generalizing reporter with
  | nil => simp [Fetch]
  | cons org before ih =>
    simp only [List.cons_append, Fetch]
    cases getDevices client org with
    | error e => simp
    | ok devices =>
      cases getDeviceUplinkMetrics parse client org period with
      | error e => simp
      | ok uplinks => exact ih _

theorem status_Fetch_append (client : Client) (before rest : List String) (reporter : Reporter) :
    device_uplinks_status_and_ha.Fetch client (before ++ rest) reporter =
      if (device_uplinks_status_and_ha.Fetch client before reporter).2 = none then
        device_uplinks_status_and_ha.Fetch client rest
          (device_uplinks_status_and_ha.Fetch client before reporter).1
      else device_uplinks_status_and_ha.Fetch client before reporter := by
  induction before generalizing reporter with
  | nil => simp [device_uplinks_status_and_ha.Fetch]
  | cons org before ih =>
    simp only [List.cons_append, device_uplinks_status_and_ha.Fetch]
    cases GetDevices client org with
    | error e => simp
    | ok devices =>
      simp only []
      cases client.GetOrganizationApplianceUplinkStatuses org with
      | error e => simp
      | ok val =>
        simp only []
        cases device_uplinks_status_and_ha.reportApplianceUplinkStatuses reporter org
            devices val with
        | error e => simp
        | ok reporter' => exact ih _

/-- C5, amended: for every list of organizations, `Fetch` processes them in list
order and stops at the first organization whose inventory fetch or metric fetch
fails. It ends with the failure of that fetch, which for a failed call that has a
response is the error built from the call's name and the response; the
organizations before the failing one have emitted their events, and neither the
failing organization nor any organization after it emits an event. Each
metricset on its own. -/
theorem Fetch_first_failure (parse : String → Option Time) (client : Client)
    (period : Duration) (before : List String) (failing : String) (after : List String)
    (reporter : Reporter) :
    ((Fetch parse client period before reporter).2 = none →
      (∀ err, getDevices client failing = .error err →
        Fetch parse client period (before ++ failing :: after) reporter =
          ((Fetch parse client period before reporter).1, some err)) ∧
      (∀ devices err, getDevices client failing = .ok devices →
        getDeviceUplinkMetrics parse client failing period = .error err →
        Fetch parse client period (before ++ failing :: after) reporter =
          ((Fetch parse client period before reporter).1, some err))) ∧
      ((device_uplinks_status_and_ha.Fetch client before reporter).2 = none →
        (∀ err, GetDevices client failing = .error err →
          device_uplinks_status_and_ha.Fetch client (before ++ failing :: after) reporter =
            ((device_uplinks_status_and_ha.Fetch client before reporter).1, some err)) ∧
        (∀ devices e, GetDevices client failing = .ok devices →
          client.GetOrganizationApplianceUplinkStatuses failing = .error e →
          device_uplinks_status_and_ha.Fetch client (before ++ failing :: after) reporter =
            ((device_uplinks_status_and_ha.Fetch client before reporter).1,
              some (callFailure "Appliance.GetOrganizationApplianceUplinkStatuses" e)))) ∧
      (∀ e, client.GetOrganizationDevices failing = .error (.response e) →
        getDevices client failing = .error (.api "GetOrganizationDevices" e) ∧
          GetDevices client failing = .error (.api "GetOrganizationDevices" e)) ∧
      (∀ e, client.GetOrganizationDevicesUplinksLossAndLatency failing
          (lossAndLatencyQueryParams period) = .error (.response e) →
        getDeviceUplinkMetrics parse client failing period =
          .error (.api "GetOrganizationDevicesUplinksLossAndLatency" e)) ∧
      (∀ e, callFailure "Appliance.GetOrganizationApplianceUplinkStatuses" (.response e) =
        .api "Appliance.GetOrganizationApplianceUplinkStatuses" e) := by
  refine ⟨fun hbefore => ⟨?_, ?_⟩, fun hbefore => ⟨?_, ?_⟩, ?_, ?_, fun _ => rfl⟩
  · intro err h
    rw [Fetch_append, if_pos hbefore]
    simp only [Fetch, h]
  · intro devices err hd hm
    rw [Fetch_append, if_pos hbefore]
    simp only [Fetch, hd, hm]
  · intro err h
    rw [status_Fetch_append, if_pos hbefore]
    simp only [device_uplinks_status_and_ha.Fetch, h]
  · intro devices e hd he
    rw [status_Fetch_append, if_pos hbefore]
    simp only [device_uplinks_status_and_ha.Fetch, hd, he]
  · intro e h
    simp only [getDevices, GetDevices, h, callFailure, and_self]
  · intro e h
    simp only [getDeviceUplinkMetrics, h, callFailure]

/-- C5, amended, on the scenario vendors. With `org1`, then the failing `org0`,
then `org1` again, only the first `org1` emits, whether it is the inventory fetch
of `org0` that fails with a 404 or, its inventory being served, its metric fetch
with a 503. -/
theorem Fetch_first_failure_witness :
    (Fetch scenarioParse scenarioClient 60000000000 ["org1"] []).2 = none ∧
      (Fetch scenarioParse scenarioClient 60000000000 ["org1"] []).1.length = 1 ∧
      Fetch scenarioParse scenarioClient 60000000000 (["org1"] ++ "org0" :: ["org1"]) [] =
        ((Fetch scenarioParse scenarioClient 60000000000 ["org1"] []).1,
          some (.api "GetOrganizationDevices"
            { StatusCode := 404, Body := "",
              Err := "error with operation GetOrganizationDevices" })) ∧
      Fetch scenarioParse outageClient 60000000000 (["org1"] ++ "org0" :: ["org1"]) [] =
        ((Fetch scenarioParse outageClient 60000000000 ["org1"] []).1,
          some (.api "GetOrganizationDevicesUplinksLossAndLatency"
            { StatusCode := 503, Body := "",
              Err := "error with operation GetOrganizationDevicesUplinksLossAndLatency" })) ∧
      (device_uplinks_status_and_ha.Fetch scenarioClient ["org1"] []).1.length = 1 ∧
      device_uplinks_status_and_ha.Fetch scenarioClient (["org1"] ++ "org0" :: ["org1"]) [] =
        ((device_uplinks_status_and_ha.Fetch scenarioClient ["org1"] []).1,
          some (.api "GetOrganizationDevices"
            { StatusCode := 404, Body := "",
              Err := "error with operation GetOrganizationDevices" })) ∧
      device_uplinks_status_and_ha.Fetch outageClient (["org1"] ++ "org0" :: ["org1"]) [] =
        ((device_uplinks_status_and_ha.Fetch outageClient ["org1"] []).1,
          some (.api "Appliance.GetOrganizationApplianceUplinkStatuses"
            { StatusCode := 503, Body := "",
              Err := "error with operation GetOrganizationApplianceUplinkStatuses" })) :=
  have h := Fetch_first_failure scenarioParse scenarioClient 60000000000 ["org1"] "org0"
    ["org1"] []
  have h' := Fetch_first_failure scenarioParse outageClient 60000000000 ["org1"] "org0"
    ["org1"] []
  ⟨by decide, by decide,
    (h.1 (by decide)).1 _ (h.2.2.1 _ rfl).1,
    (h'.1 (by decide)).2 (GoMap.ofList [("S1", deviceLiteral
        (scenarioEntry "S1" "X1" none none none none))]) _ rfl (h'.2.2.2.1 _ rfl),
    by decide,
    (h.2.1 (by decide)).1 _ (h.2.2.1 _ rfl).2,
    (h'.2.1 (by decide)).2 (GoMap.ofList [("S1", deviceLiteral
        (scenarioEntry "S1" "X1" none none none none))]) _ rfl rfl⟩

theorem collectMeasurements_ok (parse : String → Option Time) (ts : List TimeSeriesItem)
    (h : ∀ m ∈ ts, (m.LossPercent ≠ none ∨ m.LatencyMs ≠ none) → parse m.Ts ≠ none)
    (metrics : List UplinkMetric) :
    collectMeasurements parse metrics ts =
      .ok (metrics ++ (ts.filter (fun m => m.LossPercent.isSome || m.LatencyMs.isSome)).map
        (fun m => { Timestamp := (parse m.Ts).getD 0, LossPercent := m.LossPercent,
                    LatencyMs := m.LatencyMs })) := by
  induction ts generalizing metrics with
  | nil => simp [collectMeasurements]
  | cons m rest ih =>
    have ih' := fun metrics => ih (fun m' hm' => h m' (List.mem_cons_of_mem _ hm')) metrics
    have hm := h m (List.mem_cons_self _ _)
    obtain ⟨latency, loss, stamp⟩ := m
    cases loss with
    | none =>
      cases latency with
      | none => simp [collectMeasurements, ih']
      | some la =>
        cases hp : parse stamp with
        | none => simp [hp] at hm
        | some t => simp [collectMeasurements, hp, ih']
    | some lo =>
      cases hp : parse stamp with
      | none => simp [hp] at hm
      | some t =>
        cases latency <;> simp [collectMeasurements, hp, ih']

theorem collectMeasurements_error (parse : String → Option Time) (ts : List TimeSeriesItem)
    (h : ∃ m ∈ ts, (m.LossPercent ≠ none ∨ m.LatencyMs ≠ none) ∧ parse m.Ts = none)
    (metrics : List UplinkMetric) :
    ∃ m ∈ ts, (m.LossPercent ≠ none ∨ m.LatencyMs ≠ none) ∧ parse m.Ts = none ∧
      collectMeasurements parse metrics ts = .error (.timestamp m.Ts) := by
  induction ts generalizing metrics with
  | nil => obtain ⟨m, hm, _⟩ := h; cases hm
  | cons m₀ rest ih =>
    by_cases hr : m₀.LossPercent ≠ none ∨ m₀.LatencyMs ≠ none
    · cases hp : parse m₀.Ts with
      | none =>
        refine ⟨m₀, List.mem_cons_self _ _, hr, hp, ?_⟩
        simp only [collectMeasurements, hr, if_true, hp]
      | some t =>
        have hrest : ∃ m ∈ rest, (m.LossPercent ≠ none ∨ m.LatencyMs ≠ none) ∧
            parse m.Ts = none := by
          obtain ⟨m, hm, hret, hbad⟩ := h
          rcases List.mem_cons.mp hm with rfl | hm'
          · rw [hp] at hbad; cases hbad
          · exact ⟨m, hm', hret, hbad⟩
        obtain ⟨m, hm, hret, hbad, heq⟩ := ih hrest
          (metrics ++ [(if m₀.LatencyMs ≠ none then
            { (if m₀.LossPercent ≠ none then
                { ({ Timestamp := t, LossPercent := none, LatencyMs := none } : UplinkMetric)
                  with LossPercent := m₀.LossPercent }
              else { Timestamp := t, LossPercent := none, LatencyMs := none })
              with LatencyMs := m₀.LatencyMs }
          else (if m₀.LossPercent ≠ none then
                { ({ Timestamp := t, LossPercent := none, LatencyMs := none } : UplinkMetric)
                  with LossPercent := m₀.LossPercent }
              else { Timestamp := t, LossPercent := none, LatencyMs := none }))])
        refine ⟨m, List.mem_cons_of_mem _ hm, hret, hbad, ?_⟩
        simp only [collectMeasurements, hr, if_true, hp]
        exact heq
    · have hrest : ∃ m ∈ rest, (m.LossPercent ≠ none ∨ m.LatencyMs ≠ none) ∧
          parse m.Ts = none := by
        obtain ⟨m, hm, hret, hbad⟩ := h
        rcases List.mem_cons.mp hm with rfl | hm'
        · exact absurd hret hr
        · exact ⟨m, hm', hret, hbad⟩
      obtain ⟨m, hm, hret, hbad, heq⟩ := ih hrest metrics
      refine ⟨m, List.mem_cons_of_mem _ hm, hret, hbad, ?_⟩
      simp only [collectMeasurements, hr, if_false]
      exact heq

theorem collectUplinks_ok (parse : String → Option Time)
    (val : List ResponseItemUplinksLossAndLatency)
    (hseries : ∀ device ∈ val, device.TimeSeries ≠ none)
    (hparse : ∀ device ∈ val, ∀ ts, device.TimeSeries = some ts → ∀ m ∈ ts,
      (m.LossPercent ≠ none ∨ m.LatencyMs ≠ none) → parse m.Ts ≠ none)
    (uplinks : List Uplink) :
    collectUplinks parse uplinks val =
      .ok (uplinks ++ val.filterMap (fun device =>
        if (device.TimeSeries.getD []).filter
            (fun m => m.LossPercent.isSome || m.LatencyMs.isSome) = [] then none
        else some
          { DeviceSerial := device.Serial, IP := device.IP, Interface := device.Uplink,
            Metrics := ((device.TimeSeries.getD []).filter
                (fun m => m.LossPercent.isSome || m.LatencyMs.isSome)).map
              (fun m => { Timestamp := (parse m.Ts).getD 0, LossPercent := m.LossPercent,
                          LatencyMs := m.LatencyMs }) })) := by
  induction val generalizing uplinks with
  | nil => simp [collectUplinks]
  | cons device rest ih =>
    have ih' := fun uplinks => ih (fun d hd => hseries d (List.mem_cons_of_mem _ hd))
      (fun d hd => hparse d (List.mem_cons_of_mem _ hd)) uplinks
    cases hts : device.TimeSeries with
    | none => exact absurd hts (hseries device (List.mem_cons_self _ _))
    | some ts =>
      have hm := collectMeasurements_ok parse ts
        (hparse device (List.mem_cons_self _ _) ts hts) []
      simp only [List.nil_append] at hm
      rw [List.filterMap_cons]
      simp only [collectUplinks, hts, hm, Option.getD_some, ih']
      by_cases hnil : ts.filter (fun m => m.LossPercent.isSome || m.LatencyMs.isSome) = []
      · simp only [hnil, List.map_nil, List.length_nil, ne_eq, not_true_eq_false, if_false,
          if_true]
      · have hlen : ((ts.filter (fun m => m.LossPercent.isSome || m.LatencyMs.isSome)).map
            (fun m => ({ Timestamp := (parse m.Ts).getD 0, LossPercent := m.LossPercent,
                         LatencyMs := m.LatencyMs } : UplinkMetric))).length ≠ 0 := by
          rw [List.length_map]
          exact fun h0 => hnil (List.length_eq_zero.mp h0)
        simp only [hnil, hlen, ne_eq, not_false_eq_true, if_false, if_true, List.append_assoc,
          List.singleton_append]

theorem collectUplinks_error (parse : String → Option Time)
    (val : List ResponseItemUplinksLossAndLatency)
    (hseries : ∀ device ∈ val, device.TimeSeries ≠ none)
    (hbad : ∃ device ∈ val, ∃ ts, device.TimeSeries = some ts ∧ ∃ m ∈ ts,
      (m.LossPercent ≠ none ∨ m.LatencyMs ≠ none) ∧ parse m.Ts = none)
    (uplinks : List Uplink) :
    ∃ device ∈ val, ∃ ts, device.TimeSeries = some ts ∧ ∃ m ∈ ts,
      (m.LossPercent ≠ none ∨ m.LatencyMs ≠ none) ∧ parse m.Ts = none ∧
      collectUplinks parse uplinks val = .error (.timestamp m.Ts) := by
  induction val generalizing uplinks with
  | nil => obtain ⟨d, hd, _⟩ := hbad; cases hd
  | cons device rest ih =>
    cases hts : device.TimeSeries with
    | none => exact absurd hts (hseries device (List.mem_cons_self _ _))
    | some ts =>
      by_cases hhere : ∃ m ∈ ts, (m.LossPercent ≠ none ∨ m.LatencyMs ≠ none) ∧ parse m.Ts = none
      · obtain ⟨m, hm, hret, hp, heq⟩ := collectMeasurements_error parse ts hhere []
        refine ⟨device, List.mem_cons_self _ _, ts, hts, m, hm, hret, hp, ?_⟩
        simp only [collectUplinks, hts, heq]
      · have hgood : ∀ m ∈ ts, (m.LossPercent ≠ none ∨ m.LatencyMs ≠ none) →
            parse m.Ts ≠ none := fun m hm hret hp => hhere ⟨m, hm, hret, hp⟩
        have hrest : ∃ device ∈ rest, ∃ ts, device.TimeSeries = some ts ∧ ∃ m ∈ ts,
            (m.LossPercent ≠ none ∨ m.LatencyMs ≠ none) ∧ parse m.Ts = none := by
          obtain ⟨d, hd, ts', hts', m, hm, hret, hp⟩ := hbad
          rcases List.mem_cons.mp hd with rfl | hd'
          · rw [hts] at hts'
            cases hts'
            exact absurd ⟨m, hm, hret, hp⟩ hhere
          · exact ⟨d, hd', ts', hts', m, hm, hret, hp⟩
        have ih' := fun uplinks =>
          ih (fun d hd => hseries d (List.mem_cons_of_mem _ hd)) hrest uplinks
        have hok := collectMeasurements_ok parse ts hgood []
        simp only [collectUplinks, hts, hok]
        split
        · obtain ⟨d, hd, ts', hts', m, hm, hret, hp, heq⟩ := ih' _
          exact ⟨d, List.mem_cons_of_mem _ hd, ts', hts', m, hm, hret, hp, heq⟩
        · obtain ⟨d, hd, ts', hts', m, hm, hret, hp, heq⟩ := ih' uplinks
          exact ⟨d, List.mem_cons_of_mem _ hd, ts', hts', m, hm, hret, hp, heq⟩

theorem collectUplinks_ok_inv (parse : String → Option Time)
    (val : List ResponseItemUplinksLossAndLatency) (uplinks result : List Uplink)
    (h : collectUplinks parse uplinks val = .ok result) :
    (∀ device ∈ val, device.TimeSeries ≠ none) ∧
      ∀ device ∈ val, ∀ ts, device.TimeSeries = some ts → ∀ m ∈ ts,
        (m.LossPercent ≠ none ∨ m.LatencyMs ≠ none) → parse m.Ts ≠ none := by
  induction val generalizing uplinks with
  | nil => exact ⟨fun _ hd => (by cases hd), fun _ hd => (by cases hd)⟩
  | cons device rest ih =>
    cases hts : device.TimeSeries with
    | none => simp [collectUplinks, hts] at h
    | some ts =>
      have hgood : ∀ m ∈ ts, (m.LossPercent ≠ none ∨ m.LatencyMs ≠ none) →
          parse m.Ts ≠ none := by
        intro m hm hret hp
        obtain ⟨m', _, _, _, heq⟩ := collectMeasurements_error parse ts ⟨m, hm, hret, hp⟩ []
        simp [collectUplinks, hts, heq] at h
      have hok := collectMeasurements_ok parse ts hgood []
      simp only [collectUplinks, hts, hok] at h
      have hrest : ∃ uplinks', collectUplinks parse uplinks' rest = .ok result := by
        split at h
        · exact ⟨_, h⟩
        · exact ⟨_, h⟩
      obtain ⟨uplinks', hrest⟩ := hrest
      obtain ⟨h1, h2⟩ := ih uplinks' hrest
      constructor
      · intro d hd
        rcases List.mem_cons.mp hd with rfl | hd'
        · rw [hts]; exact fun hn => by cases hn
        · exact h1 d hd'
      · intro d hd ts' hts' m hm hret
        rcases List.mem_cons.mp hd with rfl | hd'
        · rw [hts] at hts'
          cases hts'
          exact hgood m hm hret
        · exact h2 d hd' ts' hts' m hm hret

/-- C6: for every time-series response, whenever `getDeviceUplinkMetrics` returns
samples it retains a measurement if and only if its loss percent or its latency is
non-null: measurements with both fields null are dropped, the retained ones keep
their order and values, and an uplink left with no retained measurement is absent
from the result. It does return them whenever every item carries its time series
and every measurement with a non-null field carries a well-formed timestamp. -/
theorem getDeviceUplinkMetrics_retains (parse : String → Option Time) (client : Client)
    (organizationID : String) (period : Duration)
    (val : List ResponseItemUplinksLossAndLatency)
    (hval : client.GetOrganizationDevicesUplinksLossAndLatency organizationID
      (lossAndLatencyQueryParams period) = .ok val) :
    (∀ uplinks, getDeviceUplinkMetrics parse client organizationID period = .ok uplinks →
      uplinks = val.filterMap (fun device =>
        if (device.TimeSeries.getD []).filter
            (fun m => m.LossPercent.isSome || m.LatencyMs.isSome) = [] then none
        else some
          { DeviceSerial := device.Serial, IP := device.IP, Interface := device.Uplink,
            Metrics := ((device.TimeSeries.getD []).filter
                (fun m => m.LossPercent.isSome || m.LatencyMs.isSome)).map
              (fun m => { Timestamp := (parse m.Ts).getD 0, LossPercent := m.LossPercent,
                          LatencyMs := m.LatencyMs }) })) ∧
    ((∀ device ∈ val, device.TimeSeries ≠ none) →
      (∀ device ∈ val, ∀ ts, device.TimeSeries = some ts → ∀ m ∈ ts,
        (m.LossPercent ≠ none ∨ m.LatencyMs ≠ none) → parse m.Ts ≠ none) →
      getDeviceUplinkMetrics parse client organizationID period =
        .ok (val.filterMap (fun device =>
          if (device.TimeSeries.getD []).filter
              (fun m => m.LossPercent.isSome || m.LatencyMs.isSome) = [] then none
          else some
            { DeviceSerial := device.Serial, IP := device.IP, Interface := device.Uplink,
              Metrics := ((device.TimeSeries.getD []).filter
                  (fun m => m.LossPercent.isSome || m.LatencyMs.isSome)).map
                (fun m => { Timestamp := (parse m.Ts).getD 0, LossPercent := m.LossPercent,
                            LatencyMs := m.LatencyMs }) }))) := by
  have hrun : getDeviceUplinkMetrics parse client organizationID period =
      collectUplinks parse [] val := by
    unfold getDeviceUplinkMetrics
    rw [hval]
  constructor
  · intro uplinks hok
    rw [hrun] at hok
    obtain ⟨hseries, hparse⟩ := collectUplinks_ok_inv parse val [] uplinks hok
    rw [collectUplinks_ok parse val hseries hparse [], List.nil_append] at hok
    exact (Except.ok.inj hok).symm
  · intro hseries hparse
    rw [hrun, collectUplinks_ok parse val hseries hparse [], List.nil_append]

/-- C6 on a response with three uplinks: `S1` keeps its two measurements with a
value and loses the one with none, `S2` has only null measurements and is absent,
`S3` has an empty series and is absent. -/
theorem getDeviceUplinkMetrics_retains_witness :
    getDeviceUplinkMetrics scenarioParse (lossAndLatencyClient scenarioTimeSeries)
        "org1" 60000000000 =
      .ok [ { DeviceSerial := "S1", IP := "10.0.0.1", Interface := "wan1",
              Metrics :=
                [ { Timestamp := 63839664000000000000, LossPercent := some (5 / 2),
                    LatencyMs := none },
                  { Timestamp := 63839664000000000000, LossPercent := none,
                    LatencyMs := some 10 } ] } ] :=
  ((getDeviceUplinkMetrics_retains scenarioParse (lossAndLatencyClient scenarioTimeSeries)
    "org1" 60000000000 scenarioTimeSeries rfl).2 (by decide) (by decide)).trans rfl

/-- C7, as stated, fails: a sample with a malformed timestamp whose loss percent
and latency are both null is dropped before its timestamp is parsed, and the fetch
succeeds. -/
theorem getDeviceUplinkMetrics_skips_null_sample :
    scenarioParse "yesterday" = none ∧
      getDeviceUplinkMetrics scenarioParse
          (lossAndLatencyClient
            [ { IP := "10.0.0.1", NetworkID := "N1", Serial := "S1",
                TimeSeries := some
                  [ { LatencyMs := none, LossPercent := none, Ts := "yesterday" },
                    { LatencyMs := some 10, LossPercent := none,
                      Ts := "2024-01-01T00:00:00Z" } ],
                Uplink := "wan1" } ])
          "org1" 60000000000 =
        .ok [ { DeviceSerial := "S1", IP := "10.0.0.1", Interface := "wan1",
                Metrics := [ { Timestamp := 63839664000000000000, LossPercent := none,
                               LatencyMs := some 10 } ] } ] :=
  ⟨by decide, rfl⟩

/-- C7, amended: for every time-series response in which some sample with a
non-null loss percent or latency carries a timestamp that the RFC 3339 parser
rejects, `getDeviceUplinkMetrics` returns no samples for that fetch call. When
every item of the response carries its time series, what it returns is an error,
naming the rejected timestamp of such a sample. -/
theorem getDeviceUplinkMetrics_malformed (parse : String → Option Time) (client : Client)
    (organizationID : String) (period : Duration)
    (val : List ResponseItemUplinksLossAndLatency)
    (hval : client.GetOrganizationDevicesUplinksLossAndLatency organizationID
      (lossAndLatencyQueryParams period) = .ok val)
    (hbad : ∃ device ∈ val, ∃ ts, device.TimeSeries = some ts ∧ ∃ m ∈ ts,
      (m.LossPercent ≠ none ∨ m.LatencyMs ≠ none) ∧ parse m.Ts = none) :
    (∀ uplinks, getDeviceUplinkMetrics parse client organizationID period ≠ .ok uplinks) ∧
      ((∀ device ∈ val, device.TimeSeries ≠ none) →
        ∃ device ∈ val, ∃ ts, device.TimeSeries = some ts ∧ ∃ m ∈ ts,
          (m.LossPercent ≠ none ∨ m.LatencyMs ≠ none) ∧ parse m.Ts = none ∧
          getDeviceUplinkMetrics parse client organizationID period =
            .error (.timestamp m.Ts)) := by
  have hrun : getDeviceUplinkMetrics parse client organizationID period =
      collectUplinks parse [] val := by
    unfold getDeviceUplinkMetrics
    rw [hval]
  constructor
  · intro uplinks hok
    rw [hrun] at hok
    obtain ⟨device, hd, ts, hts, m, hm, hret, hp⟩ := hbad
    exact (collectUplinks_ok_inv parse val [] uplinks hok).2 device hd ts hts m hm hret hp
  · intro hseries
    rw [hrun]
    exact collectUplinks_error parse val hseries hbad []

/-- C7, amended, on a response whose second measurement has a latency and the
timestamp `yesterday`: the fetch returns no samples, it fails on that timestamp. -/
theorem getDeviceUplinkMetrics_malformed_witness :
    (∀ uplinks, getDeviceUplinkMetrics scenarioParse (lossAndLatencyClient malformedTimeSeries)
        "org1" 60000000000 ≠ .ok uplinks) ∧
      getDeviceUplinkMetrics scenarioParse (lossAndLatencyClient malformedTimeSeries)
        "org1" 60000000000 = .error (.timestamp "yesterday") := by
  have h := getDeviceUplinkMetrics_malformed scenarioParse
      (lossAndLatencyClient malformedTimeSeries) "org1" 60000000000 malformedTimeSeries rfl
      ⟨_, List.mem_cons_self _ _, _, rfl,
        { LatencyMs := some 10, LossPercent := none, Ts := "yesterday" },
        by decide, by decide, by decide⟩
  refine ⟨h.1, ?_⟩
  obtain ⟨device, hd, ts, hts, m, hm, hret, hp, heq⟩ := h.2 (by decide)
  rw [heq]
  simp only [malformedTimeSeries, List.mem_singleton] at hd
  subst hd
  simp only [Option.some.injEq] at hts
  subst hts
  simp only [List.mem_cons, List.mem_singleton, List.not_mem_nil, or_false] at hm
  rcases hm with rfl | rfl
  · exact absurd hp (by decide)
  · rfl

/-- C1, as stated, fails: for the period of 274 ms the timespan that
`getDeviceUplinkMetrics` requests is a `float64`, and no `float64` is the period in
seconds plus exactly 10, which is 10.274. -/
theorem getDeviceUplinkMetrics_timespan_rounded :
    (0 : Duration) ≤ 274000000 ∧
      (∀ (parse : String → Option Time) (client : Client) (organizationID : String),
        getDeviceUplinkMetrics parse client organizationID 274000000 =
          (match client.GetOrganizationDevicesUplinksLossAndLatency organizationID
              (lossAndLatencyQueryParams 274000000) with
            | .error e => .error (callFailure "GetOrganizationDevicesUplinksLossAndLatency" e)
            | .ok val => collectUplinks parse [] val)) ∧
      (lossAndLatencyQueryParams 274000000).Timespan ≠
        (274000000 : ℚ) / 1000000000 + 10 := by
  refine ⟨by decide, fun _ _ _ => rfl, ?_⟩
  obtain ⟨m, k, hmk⟩ := Float64.round_dyadic (Duration.Seconds 274000000 + 10)
  have hT : (lossAndLatencyQueryParams 274000000).Timespan = (m : ℚ) * (2 : ℚ) ^ k := hmk
  rw [hT]
  have h5 := not_dyadic_of_five 5137 (by decide) 500 (by decide) (by decide) m k
  intro h
  apply h5
  rw [h]
  norm_num

/-- C1, amended: for every collection period `P` with `0 <= P < 2^63` nanoseconds,
the range of `time.Duration`, `getDeviceUplinkMetrics` calls the loss-and-latency
endpoint with the `float64` timespan `period.Seconds() + 10`. This timespan is
within two microseconds of the period in seconds plus 10, it is the period in
seconds plus exactly 10 when the period is a whole number of seconds, and it is
never shorter than the collection period. -/
theorem getDeviceUplinkMetrics_timespan (parse : String → Option Time) (client : Client)
    (organizationID : String) (period : Duration) (h0 : 0 ≤ period)
    (h1 : period < 9223372036854775808) :
    getDeviceUplinkMetrics parse client organizationID period =
        (match client.GetOrganizationDevicesUplinksLossAndLatency organizationID
            { Timespan := Float64.add (Duration.Seconds period) 10 } with
          | .error e => .error (callFailure "GetOrganizationDevicesUplinksLossAndLatency" e)
          | .ok val => collectUplinks parse [] val) ∧
      |(lossAndLatencyQueryParams period).Timespan - ((period : ℚ) / 1000000000 + 10)|
        ≤ 2 / 1000000 ∧
      (∀ s : Int, period = s * 1000000000 →
        (lossAndLatencyQueryParams period).Timespan = (s : ℚ) + 10) ∧
      (period : ℚ) / 1000000000 ≤ (lossAndLatencyQueryParams period).Timespan := by
  have hb := timespan_bounds period h0 h1
  refine ⟨rfl, ?_, ?_, ?_⟩
  · have := hb.1
    norm_num at this ⊢
    exact this
  · intro s hs
    subst hs
    have hs0 : 0 ≤ s := by
      by_contra hneg
      have hneg' : s ≤ -1 := by omega
      have h0' : (0 : Int) ≤ s * 1000000000 := h0
      linarith
    have hs1 : s ≤ 9223372036 := by
      by_contra hbig
      have hbig' : 9223372037 ≤ s := by omega
      have h1' : s * 1000000000 < (9223372036854775808 : Int) := h1
      linarith
    exact timespan_whole_seconds s hs0 hs1
  · linarith [hb.2]

/-- C1, amended, at the period of 60 s: the requested timespan is 70 s. -/
theorem getDeviceUplinkMetrics_timespan_witness :
    (0 : Duration) ≤ 60000000000 ∧ (60000000000 : Duration) < 9223372036854775808 ∧
      (lossAndLatencyQueryParams 60000000000).Timespan = 70 ∧
      ((60000000000 : Duration) : ℚ) / 1000000000 ≤
        (lossAndLatencyQueryParams 60000000000).Timespan := by
  have h := getDeviceUplinkMetrics_timespan scenarioParse scenarioClient "org1" 60000000000
    (by decide) (by decide)
  refine ⟨by decide, by decide, ?_, h.2.2.2⟩
  have h70 := h.2.2.1 60 (by decide)
  rw [h70]
  norm_num

/-- The timespan requested for the period of 60 s. -/
theorem timespan_sixty :
    (lossAndLatencyQueryParams 60000000000).Timespan = 70 := by
  have h := timespan_whole_seconds 60 (by decide) (by decide)
  have h60 : (60 * 1000000000 : Int) = 60000000000 := by decide
  rw [h60] at h
  rw [h]
  norm_num

/-- C2, as stated, fails: with a period of 60 s and cycles at 1000 s and 1060 s, the
timestamp 995 s lies between the first window's start and the last cycle instant
and is covered by the windows of both cycles, not by exactly one. -/
theorem coveringCycles_not_unique :
    (0 : Duration) < 60000000000 ∧
      inWindow 60000000000 (cycleInstant 1000000000000 60000000000 0) 995000000000 = true ∧
      (995000000000 : Time) ≤ cycleInstant 1000000000000 60000000000 1 ∧
      coveringCycles 1000000000000 60000000000 2 995000000000 = [0, 1] ∧
      (coveringCycles 1000000000000 60000000000 2 995000000000).length ≠ 1 := by
  have h0 : inWindow 60000000000 (cycleInstant 1000000000000 60000000000 0) 995000000000
      = true := by
    simp only [inWindow, timespan_sixty, cycleInstant]
    norm_num
  have h1 : inWindow 60000000000 (cycleInstant 1000000000000 60000000000 1) 995000000000
      = true := by
    simp only [inWindow, timespan_sixty, cycleInstant]
    norm_num
  have hc : coveringCycles 1000000000000 60000000000 2 995000000000 = [0, 1] := by
    simp [coveringCycles, List.range_succ, List.filter_cons, h0, h1]
  refine ⟨by decide, h0, ?_, hc, ?_⟩
  · simp only [cycleInstant]; norm_num
  · rw [hc]; decide

/-- Some cycle among the first `n` covers every timestamp from the first
window's start to the last cycle instant. -/
theorem exists_covering_cycle (t0 : Time) (period : Duration) (ts : Time)
    (h0 : 0 ≤ period) (h1 : period < 9223372036854775808)
    (hstart : ((t0 - ts : Int) : ℚ) / 1000000000 ≤ (lossAndLatencyQueryParams period).Timespan) :
    ∀ n : Nat, ts ≤ cycleInstant t0 period n →
      ∃ i, i < n + 1 ∧ inWindow period (cycleInstant t0 period i) ts = true := by
  have hb := (timespan_bounds period h0 h1).2
  intro n
  induction n with
  | zero =>
    intro h
    refine ⟨0, by omega, ?_⟩
    simp only [cycleInstant] at h ⊢
    simp only [inWindow, Bool.and_eq_true, decide_eq_true_eq]
    refine ⟨h, ?_⟩
    simpa using hstart
  | succ n ih =>
    intro h
    by_cases hle : ts ≤ cycleInstant t0 period n
    · obtain ⟨i, hi, hw⟩ := ih hle
      exact ⟨i, by omega, hw⟩
    · refine ⟨n + 1, by omega, ?_⟩
      simp only [inWindow, Bool.and_eq_true, decide_eq_true_eq]
      refine ⟨h, ?_⟩
      simp only [cycleInstant] at hle h ⊢
      have hlt : t0 + ((n + 1 : Nat) : Int) * period - ts < period := by
        push_cast at hle ⊢
        linarith
      have hq : ((t0 + ((n + 1 : Nat) : Int) * period - ts : Int) : ℚ) < (period : ℚ) := by
        exact_mod_cast hlt
      have : ((t0 + ((n + 1 : Nat) : Int) * period - ts : Int) : ℚ) / 1000000000
          ≤ (period : ℚ) / 1000000000 := by
        apply div_le_div_of_nonneg_right hq.le
        norm_num
      linarith

/-- C2, amended: for every period `P > 0` in the range of `time.Duration` and
`n >= 1` consecutive cycles at `t0, t0+P, ...`, each requesting the window that
ends at its own instant and is as long as the timespan computed by
`getDeviceUplinkMetrics`, there is no gap: every sample timestamp between the
first window's start and the last cycle instant is covered by the window of at
least one cycle. A timestamp in the 9 seconds before a cycle instant other than
the last is covered by the windows of that cycle and of the next. -/
theorem coveringCycles_ne_nil (t0 : Time) (period : Duration) (n : Nat) (ts : Time)
    (hP : 0 < period) (hrange : period < 9223372036854775808) (hn : 0 < n)
    (hstart : ((t0 - ts : Int) : ℚ) / 1000000000 ≤ (lossAndLatencyQueryParams period).Timespan)
    (hend : ts ≤ cycleInstant t0 period (n - 1)) :
    1 ≤ (coveringCycles t0 period n ts).length ∧
      (∃ i, i < n ∧ inWindow period (cycleInstant t0 period i) ts = true) ∧
      ∀ i, i + 1 < n → cycleInstant t0 period i - 9000000000 ≤ ts →
        ts ≤ cycleInstant t0 period i →
        inWindow period (cycleInstant t0 period i) ts = true ∧
          inWindow period (cycleInstant t0 period (i + 1)) ts = true ∧
          2 ≤ (coveringCycles t0 period n ts).length := by
  obtain ⟨i, hi, hw⟩ := exists_covering_cycle t0 period ts hP.le hrange hstart (n - 1) hend
  have hin : i < n := by omega
  have hmem : i ∈ coveringCycles t0 period n ts := by
    simp [coveringCycles, List.mem_filter, hin, hw]
  refine ⟨List.length_pos_of_mem hmem, ⟨i, hin, hw⟩, ?_⟩
  intro j hj hlo hhi
  have hb := (timespan_bounds period hP.le hrange).2
  have hPq : (0 : ℚ) < (period : ℚ) := by exact_mod_cast hP
  have hwj : inWindow period (cycleInstant t0 period j) ts = true := by
    simp only [inWindow, Bool.and_eq_true, decide_eq_true_eq]
    refine ⟨hhi, ?_⟩
    have hd : cycleInstant t0 period j - ts ≤ 9000000000 := by linarith
    have hq : ((cycleInstant t0 period j - ts : Int) : ℚ) ≤ 9000000000 := by exact_mod_cast hd
    have h9 : ((cycleInstant t0 period j - ts : Int) : ℚ) / 1000000000 ≤ 9 := by
      rw [div_le_iff₀ (by norm_num)]
      linarith
    have hpos : (0 : ℚ) ≤ (period : ℚ) / 1000000000 := by positivity
    linarith
  have hnext : cycleInstant t0 period (j + 1) = cycleInstant t0 period j + period := by
    simp only [cycleInstant]
    push_cast
    ring
  have hwj1 : inWindow period (cycleInstant t0 period (j + 1)) ts = true := by
    simp only [inWindow, Bool.and_eq_true, decide_eq_true_eq]
    refine ⟨by rw [hnext]; linarith, ?_⟩
    have hd : cycleInstant t0 period (j + 1) - ts ≤ period + 9000000000 := by
      rw [hnext]; linarith
    have hq : ((cycleInstant t0 period (j + 1) - ts : Int) : ℚ) ≤ (period : ℚ) + 9000000000 := by
      exact_mod_cast hd
    have h9 : ((cycleInstant t0 period (j + 1) - ts : Int) : ℚ) / 1000000000 ≤
        (period : ℚ) / 1000000000 + 9 := by
      rw [div_le_iff₀ (by norm_num)]
      linarith
    linarith
  refine ⟨hwj, hwj1, ?_⟩
  have hsub : [j, j + 1] ⊆ coveringCycles t0 period n ts := by
    intro x hx
    simp only [List.mem_cons, List.mem_singleton, List.not_mem_nil, or_false] at hx
    rcases hx with rfl | rfl
    · simp [coveringCycles, List.mem_filter, hwj]; omega
    · simp [coveringCycles, List.mem_filter, hwj1, hj]
  have hnd : [j, j + 1].Nodup := by simp
  exact (hnd.subperm hsub).length_le

/-- C2, amended, at a period of 60 s with two cycles, at 1000 s and 1060 s, and
the timestamp 995 s, which lies in the 9 seconds before the first cycle instant. -/
theorem coveringCycles_ne_nil_witness :
    1 ≤ (coveringCycles 1000000000000 60000000000 2 995000000000).length ∧
      (∃ i, i < 2 ∧
        inWindow 60000000000 (cycleInstant 1000000000000 60000000000 i) 995000000000 = true) ∧
      2 ≤ (coveringCycles 1000000000000 60000000000 2 995000000000).length := by
  have h := coveringCycles_ne_nil 1000000000000 60000000000 2 995000000000 (by decide)
    (by decide) (by decide)
    (by simp only [timespan_sixty]; norm_num) (by simp only [cycleInstant]; norm_num)
  exact ⟨h.1, h.2.1, (h.2.2 0 (by decide) (by simp only [cycleInstant]; norm_num)
    (by simp only [cycleInstant]; norm_num)).2.2⟩

end device_uplinks_loss_and_latency

end Meraki

namespace Meraki

/-! ## Inventory: duplicates, details, optional fields -/

theorem buildDevice_of_details (d : ResponseItemOrganizationsGetOrganizationDevices)
    (x : DeviceDetail) (xs : List DeviceDetail) (h : d.Details = some (x :: xs)) :
    buildDevice d = .error .nilMapWrite := by
  simp only [buildDevice, h, List.foldlM_cons, deviceLiteral, mapAssign]
  rfl

theorem buildDevice_ok_inv (d : ResponseItemOrganizationsGetOrganizationDevices)
    (device : Device) (h : buildDevice d = .ok device) :
    (d.Details = none ∨ d.Details = some []) ∧ device = deviceLiteral d := by
  cases hd : d.Details with
  | none =>
    rw [buildDevice_of_no_details d (Or.inl hd)] at h
    exact ⟨Or.inl rfl, (Except.ok.inj h).symm⟩
  | some details =>
    cases details with
    | nil =>
      rw [buildDevice_of_no_details d (Or.inr hd)] at h
      exact ⟨Or.inr rfl, (Except.ok.inj h).symm⟩
    | cons x xs =>
      rw [buildDevice_of_details d x xs hd] at h
      cases h

theorem foldlM_devices_ok_inv (val : List ResponseItemOrganizationsGetOrganizationDevices)
    (devices result : GoMap Serial Device)
    (h : val.foldlM
        (fun (devices : GoMap Serial Device) d => do
          let device ← buildDevice d
          pure (devices.put device.Serial device))
        devices = .ok result) :
    ∀ d ∈ val, d.Details = none ∨ d.Details = some [] := by
  induction val generalizing devices with
  | nil => intro d hd; cases hd
  | cons d rest ih =>
    rw [List.foldlM_cons] at h
    cases hb : buildDevice d with
    | error e =>
      rw [hb] at h
      cases h
    | ok device =>
      rw [hb] at h
      have hrest := ih _ h
      intro d' hd'
      rcases List.mem_cons.mp hd' with rfl | hin
      · exact (buildDevice_ok_inv _ device hb).1
      · exact hrest d' hin

/-- A map returned by `GetDevices` holds the device literals of the response,
written in fetch order, and no entry of the response carried a detail. -/
theorem GetDevices_ok_inv (client : Client) (organizationID : String)
    (val : List ResponseItemOrganizationsGetOrganizationDevices)
    (hval : client.GetOrganizationDevices organizationID = .ok val)
    (devices : GoMap Serial Device) (h : GetDevices client organizationID = .ok devices) :
    (∀ d ∈ val, d.Details = none ∨ d.Details = some []) ∧
      devices = GoMap.empty.putAll (val.map (fun d => (d.Serial, deviceLiteral d))) := by
  simp only [GetDevices, hval] at h
  have hno := foldlM_devices_ok_inv val GoMap.empty devices h
  refine ⟨hno, ?_⟩
  have h' : collectDevices val = .ok devices := h
  rw [collectDevices_of_no_details val hno] at h'
  exact (Except.ok.inj h').symm

theorem lookup_map_of_not_mem {β : Type} (k : String) (f : β → String) (g : β → Device)
    (l : List β) (h : ∀ b ∈ l, f b ≠ k) :
    GoMap.lookup k (l.map (fun b => (f b, g b))) = none := by
  apply GoMap.lookup_eq_none_of_not_mem
  simp only [List.map_map, List.mem_map, Function.comp, not_exists, not_and]
  intro b hb
  exact h b hb

/-- C11: for every upstream device list, the inventory map built by `GetDevices`
has one entry per distinct serial, its keys are the serials of the list, and under
each serial it holds the device built from the last entry with that serial in fetch
order (last write wins). The map is built whenever no entry carries a detail. -/
theorem GetDevices_last_write_wins (client : Client) (organizationID : String)
    (val : List ResponseItemOrganizationsGetOrganizationDevices)
    (hval : client.GetOrganizationDevices organizationID = .ok val) :
    (∀ devices : GoMap Serial Device, GetDevices client organizationID = .ok devices →
      devices.len = (val.map (fun d => d.Serial)).dedup.length ∧
      (∀ serial : Serial,
        (devices.get serial).isSome = true ↔ serial ∈ val.map (fun d => d.Serial)) ∧
      ∀ (before after : List ResponseItemOrganizationsGetOrganizationDevices)
        (d : ResponseItemOrganizationsGetOrganizationDevices),
        val = before ++ d :: after → (∀ later ∈ after, later.Serial ≠ d.Serial) →
        devices.get d.Serial = some (deviceLiteral d)) ∧
    ((∀ d ∈ val, d.Details = none ∨ d.Details = some []) →
      ∃ devices : GoMap Serial Device, GetDevices client organizationID = .ok devices) := by
  constructor
  · intro devices hget
    obtain ⟨_, hmap⟩ := GetDevices_ok_inv client organizationID val hval devices hget
    subst hmap
    refine ⟨?_, ?_, ?_⟩
    · rw [GoMap.len_putAll_empty, List.card_toFinset, List.map_map]
      rfl
    · intro serial
      rw [GoMap.get_putAll_reverse]
      constructor
      · intro hsome
        cases hl : GoMap.lookup serial
            (val.map (fun d => (d.Serial, deviceLiteral d))).reverse with
        | none => simp [hl] at hsome
        | some device =>
          have hin := GoMap.mem_of_lookup_eq_some _ _ _ hl
          simp only [List.mem_reverse, List.mem_map, Prod.mk.injEq] at hin
          obtain ⟨d, hd, hs, _⟩ := hin
          exact List.mem_map.mpr ⟨d, hd, hs⟩
      · intro hmem
        have hkeys : serial ∈ ((val.map (fun d => (d.Serial, deviceLiteral d))).reverse).map
            Prod.fst := by
          obtain ⟨d, hd, hs⟩ := List.mem_map.mp hmem
          simp only [List.map_reverse, List.mem_reverse, List.map_map, List.mem_map]
          exact ⟨d, hd, hs⟩
        have hsome := GoMap.lookup_isSome_of_mem _ _ hkeys
        obtain ⟨device, hdev⟩ := Option.isSome_iff_exists.mp hsome
        simp [hdev]
    · intro before after d hsplit hlast
      subst hsplit
      rw [GoMap.get_putAll_reverse, List.map_append, List.map_cons, List.reverse_append,
        List.reverse_cons, List.append_assoc, GoMap.lookup_append, ← List.map_reverse,
        lookup_map_of_not_mem d.Serial (fun d => d.Serial) deviceLiteral after.reverse
          (fun b hb => hlast b (List.mem_reverse.mp hb))]
      simp [GoMap.lookup]
  · intro hno
    exact ⟨GoMap.empty.putAll (val.map (fun d => (d.Serial, deviceLiteral d))),
      by simp only [GetDevices, hval, collectDevices_of_no_details val hno]⟩

/-- C11 on a list whose two entries share the serial `S1`: the map has one
entry, holding the device of the later entry, of model `X2`. -/
theorem GetDevices_last_write_wins_witness :
    ∃ devices : GoMap Serial Device,
      GetDevices
          (inventoryClient
            [scenarioEntry "S1" "X1" none none none none,
             scenarioEntry "S1" "X2" none none none none]) "org1" = .ok devices ∧
      devices.len = 1 ∧
      devices.get "S1" = some (deviceLiteral (scenarioEntry "S1" "X2" none none none none)) := by
  have h := GetDevices_last_write_wins
    (inventoryClient
      [scenarioEntry "S1" "X1" none none none none,
       scenarioEntry "S1" "X2" none none none none]) "org1" _ rfl
  obtain ⟨devices, hget⟩ := h.2 (by decide)
  obtain ⟨hlen, _, hlast⟩ := h.1 devices hget
  refine ⟨devices, hget, ?_, ?_⟩
  · rw [hlen]; decide
  · exact hlast [scenarioEntry "S1" "X1" none none none none] []
      (scenarioEntry "S1" "X2" none none none none) rfl (fun _ hl => by cases hl)

/-- C12, at the failing input: for an upstream entry with the one detail
`(name, value)`, `GetDevices` and `getDevices` do not complete; the assignment
`device.Details[detail.Name] = detail.Value` writes to a nil map and panics. -/
theorem GetDevices_details_panic :
    GetDevices
        (inventoryClient
          [scenarioEntry "S1" "X1" none none none (some [{ Name := "name", Value := "value" }])])
        "org1" = .error .nilMapWrite ∧
      device_uplinks_loss_and_latency.getDevices
        (inventoryClient
          [scenarioEntry "S1" "X1" none none none (some [{ Name := "name", Value := "value" }])])
        "org1" = .error .nilMapWrite :=
  ⟨rfl, rfl⟩

/-- C17: for every upstream device entry, the `Location` of the `Device` built by
`GetDevices` is the two-element list of longitude then latitude: every device of
the map returned by `GetDevices` (and by `getDevices`) comes from an entry of the
response with its serial and has that entry's `(Lng, Lat)` as `Location`. The map
is built whenever no entry carries a detail. -/
theorem GetDevices_location (client : Client) (organizationID : String)
    (val : List ResponseItemOrganizationsGetOrganizationDevices)
    (hval : client.GetOrganizationDevices organizationID = .ok val) :
    (∀ devices : GoMap Serial Device, GetDevices client organizationID = .ok devices →
      device_uplinks_loss_and_latency.getDevices client organizationID = .ok devices ∧
      ∀ (serial : Serial) (device : Device), devices.get serial = some device →
        ∃ d ∈ val, d.Serial = serial ∧ device.Location = [d.Lng, d.Lat]) ∧
    (∀ d ∈ val, ∀ device : Device, buildDevice d = .ok device →
      device.Location = [d.Lng, d.Lat]) ∧
    ((∀ d ∈ val, d.Details = none ∨ d.Details = some []) →
      ∃ devices : GoMap Serial Device, GetDevices client organizationID = .ok devices) := by
  refine ⟨?_, ?_, ?_⟩
  · intro devices hget
    refine ⟨(getDevices_eq_GetDevices client organizationID).trans hget, ?_⟩
    obtain ⟨_, hmap⟩ := GetDevices_ok_inv client organizationID val hval devices hget
    subst hmap
    intro serial device hdev
    rw [GoMap.get_putAll_reverse] at hdev
    cases hl : GoMap.lookup serial
        (val.map (fun d => (d.Serial, deviceLiteral d))).reverse with
    | none => simp [hl] at hdev
    | some device' =>
      simp only [hl, Option.orElse, Option.some.injEq] at hdev
      subst hdev
      have hin := GoMap.mem_of_lookup_eq_some _ _ _ hl
      simp only [List.mem_reverse, List.mem_map, Prod.mk.injEq] at hin
      obtain ⟨d, hd, hs, hdl⟩ := hin
      exact ⟨d, hd, hs, by rw [← hdl]; rfl⟩
  · intro d _ device hb
    rw [(buildDevice_ok_inv d device hb).2]
    rfl
  · intro hno
    exact ⟨GoMap.empty.putAll (val.map (fun d => (d.Serial, deviceLiteral d))),
      by simp only [GetDevices, hval, collectDevices_of_no_details val hno]⟩

/-- C17 on an entry with longitude `-122` and latitude `37`. -/
theorem GetDevices_location_witness :
    ∃ (devices : GoMap Serial Device) (device : Device),
      GetDevices (inventoryClient [scenarioEntry "S1" "X1" none (some (-122)) (some 37) none])
        "org1" = .ok devices ∧
      devices.get "S1" = some device ∧
      device.Location = [some (-122), some 37] := by
  have h := GetDevices_location
    (inventoryClient [scenarioEntry "S1" "X1" none (some (-122)) (some 37) none]) "org1" _ rfl
  obtain ⟨devices, hget⟩ := h.2.2 (by decide)
  have hdev : devices.get "S1" = some
      (deviceLiteral (scenarioEntry "S1" "X1" none (some (-122)) (some 37) none)) := by
    have hmap := (GetDevices_ok_inv _ "org1" _ rfl devices hget).2
    subst hmap
    rfl
  obtain ⟨d, hd, _, hloc⟩ := (h.1 devices hget).2 "S1" _ hdev
  simp only [List.mem_singleton] at hd
  subst hd
  exact ⟨devices, _, hget, hdev, hloc⟩

/-- C18: for every upstream device entry, the optional numeric fields of the
`Device` built by `GetDevices` are those of the entry: every device of the map
comes from an entry of its serial and has that entry's IMEI, longitude and
latitude as they are. An absent value stays absent and is not a zero, and a present
value, a genuine 0 included, is carried unchanged. The map is built whenever no
entry carries a detail. -/
theorem GetDevices_optional_fields (client : Client) (organizationID : String)
    (val : List ResponseItemOrganizationsGetOrganizationDevices)
    (hval : client.GetOrganizationDevices organizationID = .ok val) :
    (∀ devices : GoMap Serial Device, GetDevices client organizationID = .ok devices →
      ∀ (serial : Serial) (device : Device), devices.get serial = some device →
        ∃ d ∈ val, d.Serial = serial ∧
          device.Imei = d.Imei ∧ device.Location[0]? = some d.Lng ∧
          device.Location[1]? = some d.Lat ∧
          (d.Imei = none → device.Imei ≠ some 0) ∧
          (d.Lng = none → device.Location[0]? ≠ some (some 0)) ∧
          (d.Lat = none → device.Location[1]? ≠ some (some 0)) ∧
          (d.Imei = some 0 → device.Imei = some 0) ∧
          (d.Lng = some 0 → device.Location[0]? = some (some 0)) ∧
          (d.Lat = some 0 → device.Location[1]? = some (some 0))) ∧
    ((∀ d ∈ val, d.Details = none ∨ d.Details = some []) →
      ∃ devices : GoMap Serial Device, GetDevices client organizationID = .ok devices) := by
  refine ⟨?_, ?_⟩
  · intro devices hget
    obtain ⟨_, hmap⟩ := GetDevices_ok_inv client organizationID val hval devices hget
    subst hmap
    intro serial device hdev
    rw [GoMap.get_putAll_reverse] at hdev
    cases hl : GoMap.lookup serial
        (val.map (fun d => (d.Serial, deviceLiteral d))).reverse with
    | none => simp [hl] at hdev
    | some device' =>
      simp only [hl, Option.orElse, Option.some.injEq] at hdev
      subst hdev
      have hin := GoMap.mem_of_lookup_eq_some _ _ _ hl
      simp only [List.mem_reverse, List.mem_map, Prod.mk.injEq] at hin
      obtain ⟨d, hd, hs, hdl⟩ := hin
      subst hdl
      refine ⟨d, hd, hs, rfl, rfl, rfl, ?_, ?_, ?_, ?_, ?_, ?_⟩
      · intro h0; simp [deviceLiteral, h0]
      · intro h0; simp [deviceLiteral, h0]
      · intro h0; simp [deviceLiteral, h0]
      · intro h0; simp [deviceLiteral, h0]
      · intro h0; simp [deviceLiteral, h0]
      · intro h0; simp [deviceLiteral, h0]
  · intro hno
    exact ⟨GoMap.empty.putAll (val.map (fun d => (d.Serial, deviceLiteral d))),
      by simp only [GetDevices, hval, collectDevices_of_no_details val hno]⟩

/-- C18 on an entry without IMEI and without longitude, at latitude `0`. -/
theorem GetDevices_optional_fields_witness :
    ∃ (devices : GoMap Serial Device) (device : Device),
      GetDevices (inventoryClient [scenarioEntry "S1" "X1" none none (some 0) none])
        "org1" = .ok devices ∧
      devices.get "S1" = some device ∧
      device.Imei = none ∧ device.Location[0]? = some none ∧
      device.Location[1]? = some (some 0) := by
  have h := GetDevices_optional_fields
    (inventoryClient [scenarioEntry "S1" "X1" none none (some 0) none]) "org1" _ rfl
  obtain ⟨devices, hget⟩ := h.2 (by decide)
  have hdev : devices.get "S1" = some
      (deviceLiteral (scenarioEntry "S1" "X1" none none (some 0) none)) := by
    have hmap := (GetDevices_ok_inv _ "org1" _ rfl devices hget).2
    subst hmap
    rfl
  obtain ⟨d, hd, _, himei, hlng, hlat, _⟩ := h.1 devices hget "S1" _ hdev
  simp only [List.mem_singleton] at hd
  subst hd
  exact ⟨devices, _, hget, hdev, himei, hlng, hlat⟩

/-- C20: for every organization ID, reporter and list of metric-map slices, the
package-local `reportMetricsForOrganization` of `device_uplinks_loss_and_latency`
and the shared `meraki.ReportMetricsForOrganization` emit the same event sequence
and leave the metric maps in the same state. -/
theorem reportMetricsForOrganization_eq_shared (organizationID : String)
    (metrics : List (List M)) (reporter : Reporter) :
    device_uplinks_loss_and_latency.reportMetricsForOrganization organizationID reporter
        metrics =
      ReportMetricsForOrganization organizationID reporter metrics := by
  induction metrics generalizing reporter with
  | nil => rfl
  | cons metricSlice rest ih =>
    simp only [device_uplinks_loss_and_latency.reportMetricsForOrganization,
      ReportMetricsForOrganization, ih]

namespace device_uplinks_loss_and_latency

/-- Every metric map that `reportDeviceUplinkMetrics` hands to the emission was
built in the call, by `mapstr.Union`, for a sample of an uplink of the inventory. -/
theorem mem_uplink_metrics (devices : GoMap Serial Device) (uplinks : List Uplink)
    (metric : M) (h : metric ∈ uplinks.foldl (appendUplinkMetrics devices) []) :
    ∃ uplink ∈ uplinks, ∃ device, devices.get uplink.DeviceSerial = some device ∧
      ∃ sample ∈ uplink.Metrics,
        metric = Union (uplinkDeviceMetric uplink device) (GoMap.ofList
          [ ("@timestamp", .time sample.Timestamp),
            ("uplink.loss_percent", .floatPtr sample.LossPercent),
            ("uplink.latency_ms", .floatPtr sample.LatencyMs) ]) := by
  rw [foldl_appendUplinkMetrics, List.nil_append, List.mem_flatMap] at h
  obtain ⟨uplink, hu, hm⟩ := h
  cases hd : devices.get uplink.DeviceSerial with
  | none =>
    rw [appendUplinkMetrics_of_get_none devices [] uplink hd] at hm
    cases hm
  | some device =>
    rw [appendUplinkMetrics_of_get devices uplink device hd, List.mem_map] at hm
    obtain ⟨sample, hs, heq⟩ := hm
    exact ⟨uplink, hu, device, hd, sample, hs, heq.symm⟩

/-- On values: a second run of `reportDeviceUplinkMetrics` appends the events the
first run appended. The maps that the emission leaves changed are the metric maps
built in the call by `mapstr.Union`, one per sample of a matched uplink, and each
of them only loses its `"@timestamp"`. -/
theorem reportDeviceUplinkMetrics_repeat (reporter : Reporter) (organizationID : String)
    (devices : GoMap Serial Device) (uplinks : List Uplink) :
    reportDeviceUplinkMetrics reporter organizationID devices uplinks =
        reporter ++ reportDeviceUplinkMetrics [] organizationID devices uplinks ∧
      reportDeviceUplinkMetrics
          (reportDeviceUplinkMetrics reporter organizationID devices uplinks)
          organizationID devices uplinks =
        reporter ++ reportDeviceUplinkMetrics [] organizationID devices uplinks ++
          reportDeviceUplinkMetrics [] organizationID devices uplinks ∧
      (reportMetricsForOrganization organizationID reporter
          [uplinks.foldl (appendUplinkMetrics devices) []]).2 =
        [(uplinks.foldl (appendUplinkMetrics devices) []).map
          (fun metric => metric.delete "@timestamp")] ∧
      ∀ metric ∈ uplinks.foldl (appendUplinkMetrics devices) [],
        ∃ uplink ∈ uplinks, ∃ device, devices.get uplink.DeviceSerial = some device ∧
          ∃ sample ∈ uplink.Metrics,
            metric = Union (uplinkDeviceMetric uplink device) (GoMap.ofList
              [ ("@timestamp", .time sample.Timestamp),
                ("uplink.loss_percent", .floatPtr sample.LossPercent),
                ("uplink.latency_ms", .floatPtr sample.LatencyMs) ]) := by
  refine ⟨?_, ?_, ?_, mem_uplink_metrics devices uplinks⟩
  · simp only [reportDeviceUplinkMetrics_eq, List.nil_append]
  · simp only [reportDeviceUplinkMetrics_eq, List.nil_append, List.append_assoc]
  · simp only [reportMetricsForOrganization, reportMetricSlice_snd]
    congr 1
    apply List.map_congr_left
    intro metric hm
    obtain ⟨uplink, _, device, _, sample, _, heq⟩ := mem_uplink_metrics devices uplinks metric hm
    have hts : metric.get "@timestamp" = some (.time sample.Timestamp) := by
      rw [heq, get_Union, get_sample_literal]; simp
    rw [reportMetric_of_time _ _ _ hts]

end device_uplinks_loss_and_latency

/-! ## Point-in-time scores -/

namespace device_performance_score

theorem foldl_append_singleton {α β : Type} (f : α → β) (l : List α) (init : List β) :
    l.foldl (fun acc x => acc ++ [f x]) init = init ++ l.map f := by
  induction l generalizing init with
  | nil => simp
  | cons x l ih => simp [List.foldl_cons, ih]

/-- The events of `reportPerformanceScoreMetrics`: the reporter's, then one per
device of the inventory. -/
theorem reportPerformanceScoreMetrics_eq (reporter : Reporter) (organizationID : String)
    (devices : GoMap Serial Device) (scores : GoMap Serial DevicePerformanceScore) :
    reportPerformanceScoreMetrics reporter organizationID devices scores =
      reporter ++ devices.entries.map (fun entry =>
        (reportMetric organizationID (performanceScoreMetric scores entry.1 entry.2)).1) := by
  simp only [reportPerformanceScoreMetrics, ReportMetricsForOrganization_single]
  rw [foldl_append_singleton (fun entry : Serial × Device =>
    performanceScoreMetric scores entry.1 entry.2)]
  simp [List.map_map, Function.comp]

/-- The device literal of `reportPerformanceScoreMetrics`, after the detail loop,
at a key that is no detail key. -/
theorem get_performance_base (device : Device) (k : String)
    (hk : ("device.details.".data).isPrefixOf k.data = false) :
    ((rangeMap device.Details).foldl
        (fun (metric : M) kv => metric.put ("device.details." ++ kv.1) (Value.str kv.2))
        (GoMap.ofList
          [ ("device.address", .str device.Address),
            ("device.firmware", .str device.Firmware),
            ("device.imei", .floatPtr device.Imei),
            ("device.lan_ip", .str device.LanIP),
            ("device.location", .floatPtrs device.Location),
            ("device.mac", .str device.Mac),
            ("device.model", .str device.Model),
            ("device.name", .str device.Name),
            ("device.network_id", .str device.NetworkID),
            ("device.notes", .str device.Notes),
            ("device.product_type", .str device.ProductType),
            ("device.serial", .str device.Serial),
            ("device.tags", .strs device.Tags) ])).get k =
      GoMap.lookup k
        [ ("device.address", .str device.Address),
          ("device.firmware", .str device.Firmware),
          ("device.imei", .floatPtr device.Imei),
          ("device.lan_ip", .str device.LanIP),
          ("device.location", .floatPtrs device.Location),
          ("device.mac", .str device.Mac),
          ("device.model", .str device.Model),
          ("device.name", .str device.Name),
          ("device.network_id", .str device.NetworkID),
          ("device.notes", .str device.Notes),
          ("device.product_type", .str device.ProductType),
          ("device.serial", .str device.Serial),
          ("device.tags", .strs device.Tags) ] := by
  rw [GoMap.get_foldl_put_of_ne (fun kv : String × String => "device.details." ++ kv.1)
    (fun kv => Value.str kv.2) k _ (fun b _ => details_key_ne b.1 k hk)]
  unfold GoMap.ofList
  rw [GoMap.get_putAll _ (by simp)]
  simp

/-- The lookups of the metric map of a device: the status marker or the score,
whichever the status of the read selects, over the device literal. -/
theorem get_performanceScoreMetric (scores : GoMap Serial DevicePerformanceScore)
    (serial : Serial) (device : Device) (k : String)
    (hk : ("device.details.".data).isPrefixOf k.data = false) :
    (performanceScoreMetric scores serial device).get k =
      match scores.get serial with
      | some score =>
        if score.HttpStatusCode = 204 then
          if k = "device.performance.http_status_code" then some (.int score.HttpStatusCode)
          else GoMap.lookup k
            [ ("device.address", .str device.Address),
              ("device.firmware", .str device.Firmware),
              ("device.imei", .floatPtr device.Imei),
              ("device.lan_ip", .str device.LanIP),
              ("device.location", .floatPtrs device.Location),
              ("device.mac", .str device.Mac),
              ("device.model", .str device.Model),
              ("device.name", .str device.Name),
              ("device.network_id", .str device.NetworkID),
              ("device.notes", .str device.Notes),
              ("device.product_type", .str device.ProductType),
              ("device.serial", .str device.Serial),
              ("device.tags", .strs device.Tags) ]
        else
          if k = "device.performance.score" then some (.float score.PerformanceScore)
          else GoMap.lookup k
            [ ("device.address", .str device.Address),
              ("device.firmware", .str device.Firmware),
              ("device.imei", .floatPtr device.Imei),
              ("device.lan_ip", .str device.LanIP),
              ("device.location", .floatPtrs device.Location),
              ("device.mac", .str device.Mac),
              ("device.model", .str device.Model),
              ("device.name", .str device.Name),
              ("device.network_id", .str device.NetworkID),
              ("device.notes", .str device.Notes),
              ("device.product_type", .str device.ProductType),
              ("device.serial", .str device.Serial),
              ("device.tags", .strs device.Tags) ]
      | none => GoMap.lookup k
          [ ("device.address", .str device.Address),
            ("device.firmware", .str device.Firmware),
            ("device.imei", .floatPtr device.Imei),
            ("device.lan_ip", .str device.LanIP),
            ("device.location", .floatPtrs device.Location),
            ("device.mac", .str device.Mac),
            ("device.model", .str device.Model),
            ("device.name", .str device.Name),
            ("device.network_id", .str device.NetworkID),
            ("device.notes", .str device.Notes),
            ("device.product_type", .str device.ProductType),
            ("device.serial", .str device.Serial),
            ("device.tags", .strs device.Tags) ] := by
  unfold performanceScoreMetric
  simp only
  cases scores.get serial with
  | none => exact get_performance_base device k hk
  | some score =>
    simp only
    by_cases h204 : score.HttpStatusCode = 204
    · simp only [h204, if_true]
      rw [GoMap.get_put, get_performance_base device k hk]
    · simp only [h204, if_false]
      rw [GoMap.get_put, get_performance_base device k hk]

end device_performance_score

namespace device_performance_score

theorem performanceScoreMetric_no_timestamp (scores : GoMap Serial DevicePerformanceScore)
    (serial : Serial) (device : Device) (ts : Time) :
    (performanceScoreMetric scores serial device).get "@timestamp" ≠ some (.time ts) := by
  rw [get_performanceScoreMetric scores serial device "@timestamp" (by decide)]
  cases scores.get serial with
  | none => simp [GoMap.lookup]
  | some score =>
    by_cases h204 : score.HttpStatusCode = 204 <;> simp [h204, GoMap.lookup]

/-- The event of a device: no timestamp of its own, and the fields of its metric
map over the organization. -/
theorem performance_event (organizationID : String)
    (scores : GoMap Serial DevicePerformanceScore) (serial : Serial) (device : Device) :
    (reportMetric organizationID (performanceScoreMetric scores serial device)).1.Timestamp = 0 ∧
      ∀ k : String,
        (reportMetric organizationID
            (performanceScoreMetric scores serial device)).1.ModuleFields.get k =
          ((performanceScoreMetric scores serial device).get k).orElse
            (fun _ => if k = "organization_id" then some (.str organizationID) else none) := by
  rw [reportMetric_of_no_time _ _ (performanceScoreMetric_no_timestamp scores serial device)]
  refine ⟨rfl, ?_⟩
  intro k
  simp only
  rw [get_Update, get_organization_literal]

/-- C13: for every device of the inventory and its point-in-time score sample,
`reportPerformanceScoreMetrics` emits one event for the device, with the device's
dimensions. The event carries the status-code field
`device.performance.http_status_code = 204` and omits `device.performance.score` when
the read returned HTTP 204, and carries the score field without the status-code
field for any other status. -/
theorem reportPerformanceScoreMetrics_status (reporter : Reporter) (organizationID : String)
    (devices : GoMap Serial Device) (scores : GoMap Serial DevicePerformanceScore) :
    ∃ toEvent : Serial → Device → Event,
      reportPerformanceScoreMetrics reporter organizationID devices scores =
        reporter ++ devices.entries.map (fun entry => toEvent entry.1 entry.2) ∧
      ∀ (serial : Serial) (device : Device) (score : DevicePerformanceScore),
        scores.get serial = some score →
        (toEvent serial device).ModuleFields.get "organization_id" =
          some (.str organizationID) ∧
        (toEvent serial device).ModuleFields.get "device.serial" = some (.str device.Serial) ∧
        (toEvent serial device).ModuleFields.get "device.model" = some (.str device.Model) ∧
        (score.HttpStatusCode = 204 →
          (toEvent serial device).ModuleFields.get "device.performance.http_status_code" =
            some (.int 204) ∧
          (toEvent serial device).ModuleFields.get "device.performance.score" = none) ∧
        (score.HttpStatusCode ≠ 204 →
          (toEvent serial device).ModuleFields.get "device.performance.score" =
            some (.float score.PerformanceScore) ∧
          (toEvent serial device).ModuleFields.get "device.performance.http_status_code" =
            none) := by
  refine ⟨fun serial device =>
    (reportMetric organizationID (performanceScoreMetric scores serial device)).1,
    reportPerformanceScoreMetrics_eq reporter organizationID devices scores, ?_⟩
  intro serial device score hscore
  have hev := (performance_event organizationID scores serial device).2
  have hget := fun k hk => get_performanceScoreMetric scores serial device k hk
  simp only [hscore] at hget
  refine ⟨?_, ?_, ?_, ?_, ?_⟩
  · rw [hev, hget _ (by decide)]
    by_cases h204 : score.HttpStatusCode = 204 <;> simp [h204, GoMap.lookup]
  · rw [hev, hget _ (by decide)]
    by_cases h204 : score.HttpStatusCode = 204 <;> simp [h204, GoMap.lookup]
  · rw [hev, hget _ (by decide)]
    by_cases h204 : score.HttpStatusCode = 204 <;> simp [h204, GoMap.lookup]
  · intro h204
    constructor
    · rw [hev, hget _ (by decide)]
      simp [h204]
    · rw [hev, hget _ (by decide)]
      simp [h204, GoMap.lookup]
  · intro h204
    constructor
    · rw [hev, hget _ (by decide)]
      simp [h204]
    · rw [hev, hget _ (by decide)]
      simp [h204, GoMap.lookup]

/-- C13 on the two appliances of the scenario: the read of `Q1` returned 204,
the read of `Q2` returned 200 with the score 42. -/
theorem reportPerformanceScoreMetrics_status_witness :
    ∃ q1 q2 : Event,
      reportPerformanceScoreMetrics [] "org1" scenarioAppliances
          (GoMap.ofList [("Q1", { PerformanceScore := 0, HttpStatusCode := 204 }),
                         ("Q2", { PerformanceScore := 42, HttpStatusCode := 200 })]) =
        [q1, q2] ∧
      q1.ModuleFields.get "device.performance.http_status_code" = some (.int 204) ∧
      q1.ModuleFields.get "device.performance.score" = none ∧
      q2.ModuleFields.get "device.performance.score" = some (.float 42) ∧
      q2.ModuleFields.get "device.performance.http_status_code" = none := by
  obtain ⟨toEvent, heq, hfields⟩ := reportPerformanceScoreMetrics_status [] "org1"
    scenarioAppliances
    (GoMap.ofList [("Q1", { PerformanceScore := 0, HttpStatusCode := 204 }),
                   ("Q2", { PerformanceScore := 42, HttpStatusCode := 200 })])
  have h1 := (hfields "Q1" (deviceLiteral (scenarioEntry "Q1" "MX67" none none none none))
    { PerformanceScore := 0, HttpStatusCode := 204 } (by decide)).2.2.2.1 rfl
  have h2 := (hfields "Q2" (deviceLiteral (scenarioEntry "Q2" "MX67" none none none none))
    { PerformanceScore := 42, HttpStatusCode := 200 } (by decide)).2.2.2.2 (by decide)
  exact ⟨_, _, heq, h1.1, h1.2, h2.1, h2.2⟩

end device_performance_score

theorem GoMap.lookup_of_mem_nodup {κ α : Type} [DecidableEq κ] (k : κ) (v : α)
    (l : List (κ × α)) (hn : (l.map Prod.fst).Nodup) (hm : (k, v) ∈ l) :
    GoMap.lookup k l = some v := by
  induction l with
  | nil => cases hm
  | cons e l ih =>
    obtain ⟨k', v'⟩ := e
    simp only [List.map_cons, List.nodup_cons] at hn
    rcases List.mem_cons.mp hm with heq | hin
    · cases heq
      simp [GoMap.lookup]
    · have hk : k ∈ l.map Prod.fst := List.mem_map.mpr ⟨(k, v), hin, rfl⟩
      have hne : ¬ k' = k := fun e => hn.1 (e ▸ hk)
      simp [GoMap.lookup, hne, ih hn.2 hin]

namespace device_performance_score

theorem bySerialId_of_response (invoke : String → String → Nat → Except String HttpResponse)
    (decode : String → ℚ) (base_url token serial : String) (response : HttpResponse)
    (body : String)
    (h : invoke (base_url ++ "/api/v1/devices/" ++ serial ++ "/appliance/performance") token 5 =
      .ok response) (hb : response.Body = .ok body) :
    getDevicePerformanceScoresBySerialId invoke decode base_url token serial =
      .ok (decode body, response.StatusCode) := by
  simp only [getDevicePerformanceScoresBySerialId, h, hb]

theorem bySerialId_of_error (invoke : String → String → Nat → Except String HttpResponse)
    (decode : String → ℚ) (base_url token serial err : String)
    (h : invoke (base_url ++ "/api/v1/devices/" ++ serial ++ "/appliance/performance") token 5 =
      .error err) :
    getDevicePerformanceScoresBySerialId invoke decode base_url token serial =
      .error (.fatal err) := by
  simp only [getDevicePerformanceScoresBySerialId, h]

theorem bySerialId_error_fatal (invoke : String → String → Nat → Except String HttpResponse)
    (decode : String → ℚ) (base_url token serial : String) (f : Failure)
    (h : getDevicePerformanceScoresBySerialId invoke decode base_url token serial = .error f) :
    ∃ msg, f = .fatal msg := by
  unfold getDevicePerformanceScoresBySerialId at h
  simp only at h
  split at h
  · exact ⟨_, (Except.error.inj h).symm⟩
  · split at h
    · exact ⟨_, (Except.error.inj h).symm⟩
    · cases h

/-- The loop of `getDevicePerformanceScores` when every read returns: one sample
per device, written under the device's serial. -/
theorem foldlM_scores_ok (invoke : String → String → Nat → Except String HttpResponse)
    (decode : String → ℚ) (url token : String) (l : List (Serial × Device))
    (h : ∀ e ∈ l, ∃ r, getDevicePerformanceScoresBySerialId invoke decode url token e.2.Serial =
      .ok r)
    (scores : GoMap Serial DevicePerformanceScore) :
    l.foldlM (recordScore invoke decode url token) scores =
      .ok (scores.putAll (l.map (fun e => (e.2.Serial,
        match getDevicePerformanceScoresBySerialId invoke decode url token e.2.Serial with
        | .ok r => ({ PerformanceScore := r.1, HttpStatusCode := r.2 } : DevicePerformanceScore)
        | .error _ => { PerformanceScore := 0, HttpStatusCode := 0 })))) := by
  induction l generalizing scores with
  | nil => rfl
  | cons e rest ih =>
    obtain ⟨r, hr⟩ := h e (List.mem_cons_self _ _)
    have ih' := ih (fun e' he' => h e' (List.mem_cons_of_mem _ he'))
    simp only [List.foldlM_cons, recordScore, hr, List.map_cons, GoMap.putAll,
      List.foldl_cons] at ih' ⊢
    exact ih' _

/-- The loop of `getDevicePerformanceScores` when a read fails: the process ends
in `log.Fatal`. -/
theorem foldlM_scores_fatal (invoke : String → String → Nat → Except String HttpResponse)
    (decode : String → ℚ) (url token : String) (l : List (Serial × Device))
    (h : ∃ e ∈ l, ∃ f, getDevicePerformanceScoresBySerialId invoke decode url token e.2.Serial =
      .error f)
    (scores : GoMap Serial DevicePerformanceScore) :
    ∃ msg, l.foldlM (recordScore invoke decode url token) scores = .error (.fatal msg) := by
  induction l generalizing scores with
  | nil => obtain ⟨e, he, _⟩ := h; cases he
  | cons e rest ih =>
    cases hr : getDevicePerformanceScoresBySerialId invoke decode url token e.2.Serial with
    | error f =>
      obtain ⟨msg, hmsg⟩ := bySerialId_error_fatal invoke decode url token _ f hr
      refine ⟨msg, ?_⟩
      simp only [List.foldlM_cons, recordScore, hr, hmsg]
      rfl
    | ok r =>
      have hrest : ∃ e' ∈ rest, ∃ f,
          getDevicePerformanceScoresBySerialId invoke decode url token e'.2.Serial =
            .error f := by
        obtain ⟨e', he', f, hf⟩ := h
        rcases List.mem_cons.mp he' with rfl | hin
        · rw [hr] at hf; cases hf
        · exact ⟨e', hin, f, hf⟩
      obtain ⟨msg, hmsg⟩ := ih hrest (scores.put e.2.Serial
        { PerformanceScore := r.1, HttpStatusCode := r.2 })
      refine ⟨msg, ?_⟩
      simp only [List.foldlM_cons, recordScore, hr]
      exact hmsg

end device_performance_score

namespace device_performance_score

/-- C14, as stated, fails. When the server answers the read of `Q1` with HTTP 404,
the invoker returns a terminal error, `log.Fatal` ends the process, and neither
`Q1` nor `Q2` gets a sample: no status marker is recorded and the loop does not
continue. Served with status 200, the same two devices both get their sample. -/
theorem getDevicePerformanceScores_failed_read :
    scenarioInvoke (.status 404 "not found")
        "https://api.meraki.com/api/v1/devices/Q1/appliance/performance" "key" 5 =
      .error "non-retryable status" ∧
    getDevicePerformanceScores (scenarioInvoke (.status 404 "not found")) scenarioDecode
        "https://api.meraki.com" "key" scenarioAppliances =
      .error (.fatal "non-retryable status") ∧
    (∀ scores, getDevicePerformanceScores (scenarioInvoke (.status 404 "not found"))
        scenarioDecode "https://api.meraki.com" "key" scenarioAppliances ≠ .ok scores) ∧
    ∃ scores : GoMap Serial DevicePerformanceScore,
      getDevicePerformanceScores (scenarioInvoke (.status 200 scenarioBody)) scenarioDecode
          "https://api.meraki.com" "key" scenarioAppliances = .ok scores ∧
      scores.get "Q1" = some { PerformanceScore := 42, HttpStatusCode := 200 } ∧
      scores.get "Q2" = some { PerformanceScore := 42, HttpStatusCode := 200 } :=
  ⟨rfl, rfl, fun _ h => (by cases h), _, rfl, by decide, by decide⟩

theorem bySerialId_of_unreadable (invoke : String → String → Nat → Except String HttpResponse)
    (decode : String → ℚ) (base_url token serial err : String) (response : HttpResponse)
    (h : invoke (base_url ++ "/api/v1/devices/" ++ serial ++ "/appliance/performance") token 5 =
      .ok response) (hb : response.Body = .error err) :
    getDevicePerformanceScoresBySerialId invoke decode base_url token serial =
      .error (.fatal err) := by
  simp only [getDevicePerformanceScoresBySerialId, h, hb]

/-- C14, amended: for every set of devices keyed by their serials. When the read
of one device fails with a non-retryable error, that is, the invoker returns an
error or the body of its response cannot be read, `log.Fatal` ends the process and
no sample is returned for any device. When the invoker returns a response with a
readable body for the read of every device, `getDevicePerformanceScores` records
for every device a sample that carries the HTTP status beside the decoded score,
and the loop runs over every device; the event of a device whose read returned a
status other than 204 carries the decoded score and no status marker. -/
theorem getDevicePerformanceScores_status
    (invoke : String → String → Nat → Except String HttpResponse) (decode : String → ℚ)
    (url token : String) (mx_devices : GoMap Serial Device)
    (hkeys : ∀ e ∈ mx_devices.entries, e.2.Serial = e.1) :
    ((∃ e ∈ mx_devices.entries,
        (∃ err, invoke (url ++ "/api/v1/devices/" ++ e.2.Serial ++ "/appliance/performance")
          token 5 = .error err) ∨
        (∃ response err,
          invoke (url ++ "/api/v1/devices/" ++ e.2.Serial ++ "/appliance/performance")
            token 5 = .ok response ∧ response.Body = .error err)) →
      (∃ msg, getDevicePerformanceScores invoke decode url token mx_devices =
        .error (.fatal msg)) ∧
      ∀ scores, getDevicePerformanceScores invoke decode url token mx_devices ≠ .ok scores) ∧
    ((∀ e ∈ mx_devices.entries, ∃ response body,
        invoke (url ++ "/api/v1/devices/" ++ e.2.Serial ++ "/appliance/performance") token 5 =
          .ok response ∧ response.Body = .ok body) →
      ∃ scores : GoMap Serial DevicePerformanceScore,
        getDevicePerformanceScores invoke decode url token mx_devices = .ok scores ∧
        ∀ e ∈ mx_devices.entries, ∀ (response : HttpResponse) (body : String),
          invoke (url ++ "/api/v1/devices/" ++ e.2.Serial ++ "/appliance/performance") token 5 =
            .ok response → response.Body = .ok body →
          scores.get e.1 =
            some { PerformanceScore := decode body, HttpStatusCode := response.StatusCode } ∧
          (response.StatusCode ≠ 204 →
            ∀ organizationID : String,
              (reportMetric organizationID
                  (performanceScoreMetric scores e.1 e.2)).1.ModuleFields.get
                  "device.performance.score" = some (.float (decode body)) ∧
              (reportMetric organizationID
                  (performanceScoreMetric scores e.1 e.2)).1.ModuleFields.get
                  "device.performance.http_status_code" = none)) := by
  constructor
  · rintro ⟨e, he, hfail⟩
    have hby : ∃ f, getDevicePerformanceScoresBySerialId invoke decode url token e.2.Serial =
        .error f := by
      rcases hfail with ⟨err, herr⟩ | ⟨response, err, hresp, hbody⟩
      · exact ⟨_, bySerialId_of_error invoke decode url token _ err herr⟩
      · exact ⟨_, bySerialId_of_unreadable invoke decode url token _ err response hresp hbody⟩
    obtain ⟨f, hf⟩ := hby
    obtain ⟨msg, hmsg⟩ := foldlM_scores_fatal invoke decode url token mx_devices.entries
      ⟨e, he, f, hf⟩ GoMap.empty
    refine ⟨⟨msg, hmsg⟩, fun scores hok => ?_⟩
    have hmsg' : getDevicePerformanceScores invoke decode url token mx_devices =
        .error (.fatal msg) := hmsg
    rw [hmsg'] at hok
    cases hok
  · intro hresp
    have hok : ∀ e ∈ mx_devices.entries, ∃ r,
        getDevicePerformanceScoresBySerialId invoke decode url token e.2.Serial = .ok r := by
      intro e he
      obtain ⟨response, body, hinv, hbody⟩ := hresp e he
      exact ⟨_, bySerialId_of_response invoke decode url token _ response body hinv hbody⟩
    have hrun := foldlM_scores_ok invoke decode url token mx_devices.entries hok GoMap.empty
    refine ⟨_, hrun, ?_⟩
    intro e he response body hinv hbody
    have hby := bySerialId_of_response invoke decode url token _ response body hinv hbody
    have hkeysEq : (mx_devices.entries.map (fun e : Serial × Device => (e.2.Serial,
        match getDevicePerformanceScoresBySerialId invoke decode url token e.2.Serial with
        | .ok r => ({ PerformanceScore := r.1, HttpStatusCode := r.2 } : DevicePerformanceScore)
        | .error _ => { PerformanceScore := 0, HttpStatusCode := 0 }))).map Prod.fst =
        mx_devices.entries.map Prod.fst := by
      rw [List.map_map]
      exact List.map_congr_left (fun e he => hkeys e he)
    have hnodup := mx_devices.nodup
    rw [← hkeysEq] at hnodup
    have hscore : (GoMap.empty.putAll (mx_devices.entries.map
        (fun e : Serial × Device => (e.2.Serial,
          match getDevicePerformanceScoresBySerialId invoke decode url token e.2.Serial with
          | .ok r => ({ PerformanceScore := r.1, HttpStatusCode := r.2 } : DevicePerformanceScore)
          | .error _ => { PerformanceScore := 0, HttpStatusCode := 0 })))).get e.1 =
        some { PerformanceScore := decode body, HttpStatusCode := response.StatusCode } := by
      rw [GoMap.get_putAll _ hnodup]
      have hmem : (e.1, (⟨decode body, response.StatusCode⟩ : DevicePerformanceScore)) ∈
          mx_devices.entries.map (fun e : Serial × Device => (e.2.Serial,
            match getDevicePerformanceScoresBySerialId invoke decode url token e.2.Serial with
            | .ok r =>
              ({ PerformanceScore := r.1, HttpStatusCode := r.2 } : DevicePerformanceScore)
            | .error _ => { PerformanceScore := 0, HttpStatusCode := 0 })) := by
        refine List.mem_map.mpr ⟨e, he, ?_⟩
        simp only [hby]
        rw [hkeys e he]
      rw [GoMap.lookup_of_mem_nodup _ _ _ hnodup hmem]
      rfl
    refine ⟨hscore, ?_⟩
    intro h204 organizationID
    have hev := (performance_event organizationID
      (GoMap.empty.putAll (mx_devices.entries.map
        (fun e : Serial × Device => (e.2.Serial,
          match getDevicePerformanceScoresBySerialId invoke decode url token e.2.Serial with
          | .ok r => ({ PerformanceScore := r.1, HttpStatusCode := r.2 } : DevicePerformanceScore)
          | .error _ => { PerformanceScore := 0, HttpStatusCode := 0 })))) e.1 e.2).2
    constructor
    · rw [hev, get_performanceScoreMetric _ _ _ _ (by decide), hscore]
      simp [h204]
    · rw [hev, get_performanceScoreMetric _ _ _ _ (by decide), hscore]
      simp [h204, GoMap.lookup]

/-- C14, amended, on the two appliances of the scenario. The read of `Q1`
answered with HTTP 204 and an empty body, both get a sample, that of `Q1` with the
status 204 beside a zero score; the read of `Q1` answered with HTTP 404, the
process ends and no sample is returned. -/
theorem getDevicePerformanceScores_status_witness :
    (∃ scores : GoMap Serial DevicePerformanceScore,
      getDevicePerformanceScores (scenarioInvoke (.status 204 "")) scenarioDecode
          "https://api.meraki.com" "key" scenarioAppliances = .ok scores ∧
      scores.get "Q1" = some { PerformanceScore := 0, HttpStatusCode := 204 } ∧
      scores.get "Q2" = some { PerformanceScore := 42, HttpStatusCode := 200 }) ∧
    (∃ msg, getDevicePerformanceScores (scenarioInvoke (.status 404 "not found"))
      scenarioDecode "https://api.meraki.com" "key" scenarioAppliances =
        .error (.fatal msg)) := by
  have h := (getDevicePerformanceScores_status (scenarioInvoke (.status 204 "")) scenarioDecode
    "https://api.meraki.com" "key" scenarioAppliances (by decide)).2
  have hfatal := ((getDevicePerformanceScores_status (scenarioInvoke (.status 404 "not found"))
    scenarioDecode "https://api.meraki.com" "key" scenarioAppliances (by decide)).1
    ⟨("Q1", deviceLiteral (scenarioEntry "Q1" "MX67" none none none none)), by decide,
      Or.inl ⟨"non-retryable status", rfl⟩⟩).1
  obtain ⟨scores, hget, hall⟩ := h (by
    intro e he
    have he' : e = ("Q1", deviceLiteral (scenarioEntry "Q1" "MX67" none none none none)) ∨
        e = ("Q2", deviceLiteral (scenarioEntry "Q2" "MX67" none none none none)) := by
      simpa [scenarioAppliances, GoMap.ofList, GoMap.putAll, GoMap.put, GoMap.empty] using he
    rcases he' with rfl | rfl
    · exact ⟨{ StatusCode := 204, Body := .ok "" }, "", rfl, rfl⟩
    · exact ⟨{ StatusCode := 200, Body := .ok scenarioBody }, scenarioBody, rfl, rfl⟩)
  refine ⟨⟨scores, hget, ?_, ?_⟩, hfatal⟩
  · exact (hall ("Q1", deviceLiteral (scenarioEntry "Q1" "MX67" none none none none))
      (by decide) { StatusCode := 204, Body := .ok "" } "" rfl rfl).1
  · exact (hall ("Q2", deviceLiteral (scenarioEntry "Q2" "MX67" none none none none))
      (by decide) { StatusCode := 200, Body := .ok scenarioBody } scenarioBody rfl rfl).1

end device_performance_score

/-! ## The retrying invoker -/

namespace device_performance_score

/-- C19: the invoker called with a maximum of 5 attempts, as
`getDevicePerformanceScoresBySerialId` calls it. Given a server that answers 429
three times and then 200, it returns the successful body after exactly 4 attempts,
and the caller gets the decoded score with the status 200. Given a server that
answers 429 on all 5 attempts, it makes exactly 5 attempts and returns a terminal
error, on which the caller ends in `log.Fatal`. -/
theorem HttpGetRequestWithMerakiRetry_five_attempts (server : String → Nat → ServerAnswer)
    (decode : String → ℚ) (base_url token serial body : String) :
    ((∀ k, k < 3 → ∃ b, server
          (base_url ++ "/api/v1/devices/" ++ serial ++ "/appliance/performance") k =
          .status 429 b) →
      server (base_url ++ "/api/v1/devices/" ++ serial ++ "/appliance/performance") 3 =
        .status 200 body →
      HttpGetRequestWithMerakiRetry server
          (base_url ++ "/api/v1/devices/" ++ serial ++ "/appliance/performance") token 5 =
        (.ok { StatusCode := 200, Body := .ok body }, 4) ∧
      getDevicePerformanceScoresBySerialId
          (fun url token maxAttempts =>
            (HttpGetRequestWithMerakiRetry server url token maxAttempts).1)
          decode base_url token serial = .ok (decode body, 200)) ∧
    ((∀ k, k < 5 → ∃ b, server
          (base_url ++ "/api/v1/devices/" ++ serial ++ "/appliance/performance") k =
          .status 429 b) →
      ∃ err,
        HttpGetRequestWithMerakiRetry server
            (base_url ++ "/api/v1/devices/" ++ serial ++ "/appliance/performance") token 5 =
          (.error err, 5) ∧
        getDevicePerformanceScoresBySerialId
            (fun url token maxAttempts =>
              (HttpGetRequestWithMerakiRetry server url token maxAttempts).1)
            decode base_url token serial = .error (.fatal err)) := by
  constructor
  · intro h429 h200
    obtain ⟨b0, h0⟩ := h429 0 (by omega)
    obtain ⟨b1, h1⟩ := h429 1 (by omega)
    obtain ⟨b2, h2⟩ := h429 2 (by omega)
    have hrun : HttpGetRequestWithMerakiRetry server
        (base_url ++ "/api/v1/devices/" ++ serial ++ "/appliance/performance") token 5 =
        (.ok { StatusCode := 200, Body := .ok body }, 4) := by
      simp [HttpGetRequestWithMerakiRetry, invokeAttempts, h0, h1, h2, h200]
    refine ⟨hrun, ?_⟩
    simp only [getDevicePerformanceScoresBySerialId, hrun]
  · intro h429
    obtain ⟨b0, h0⟩ := h429 0 (by omega)
    obtain ⟨b1, h1⟩ := h429 1 (by omega)
    obtain ⟨b2, h2⟩ := h429 2 (by omega)
    obtain ⟨b3, h3⟩ := h429 3 (by omega)
    obtain ⟨b4, h4⟩ := h429 4 (by omega)
    have hrun : HttpGetRequestWithMerakiRetry server
        (base_url ++ "/api/v1/devices/" ++ serial ++ "/appliance/performance") token 5 =
        (.error "attempts exhausted", 5) := by
      simp [HttpGetRequestWithMerakiRetry, invokeAttempts, h0, h1, h2, h3, h4]
    refine ⟨_, hrun, ?_⟩
    simp only [getDevicePerformanceScoresBySerialId, hrun]

/-- C19 on a server that answers 429 to the attempts 0, 1 and 2 and then 200
with the body `42`, and on a server that always answers 429. -/
theorem HttpGetRequestWithMerakiRetry_five_attempts_witness :
    HttpGetRequestWithMerakiRetry
        (fun _ k => if k < 3 then .status 429 "" else .status 200 "42")
        ("https://api.meraki.com" ++ "/api/v1/devices/" ++ "Q1" ++ "/appliance/performance")
        "key" 5 = (.ok { StatusCode := 200, Body := .ok "42" }, 4) ∧
      ∃ err,
        HttpGetRequestWithMerakiRetry (fun _ _ => .status 429 "")
          ("https://api.meraki.com" ++ "/api/v1/devices/" ++ "Q1" ++ "/appliance/performance")
          "key" 5 = (.error err, 5) := by
  have h1 := (HttpGetRequestWithMerakiRetry_five_attempts
    (fun _ k => if k < 3 then .status 429 "" else .status 200 "42") scenarioDecode
    "https://api.meraki.com" "key" "Q1" "42").1
    (fun k hk => ⟨"", by simp [hk]⟩) (by simp)
  obtain ⟨err, h2, _⟩ := (HttpGetRequestWithMerakiRetry_five_attempts
    (fun _ _ => .status 429 "") scenarioDecode
    "https://api.meraki.com" "key" "Q1" "").2 (fun _ _ => ⟨"", rfl⟩)
  exact ⟨h1.1, err, h2⟩

end device_performance_score

/-! ## Fan-out over interfaces -/

theorem GoMap.get_ofList {κ α : Type} [DecidableEq κ] (l : List (κ × α))
    (hn : (l.map Prod.fst).Nodup) (k : κ) : (GoMap.ofList l).get k = GoMap.lookup k l := by
  unfold GoMap.ofList
  rw [GoMap.get_putAll l hn]
  cases GoMap.lookup k l <;> rfl

/-- A loop whose body appends to the accumulator, or fails: the accumulator it
starts from stays in front. -/
theorem foldlM_append_steps {X : Type} (step : List M → X → Except Failure (List M))
    (hstep : ∀ acc x, step acc x =
      match step [] x with
      | .ok l => .ok (acc ++ l)
      | .error e => .error e)
    (l : List X) (acc : List M) :
    l.foldlM step acc =
      match l.foldlM step [] with
      | .ok r => .ok (acc ++ r)
      | .error e => .error e := by
  induction l generalizing acc with
  | nil =>
    show Except.ok acc = Except.ok (acc ++ [])
    rw [List.append_nil]
  | cons x l ih =>
    rw [List.foldlM_cons, List.foldlM_cons, hstep acc x]
    cases hx : step [] x with
    | error e => rfl
    | ok b =>
      show l.foldlM step (acc ++ b) = _
      have h2 : (Except.ok b >>= fun s' => l.foldlM step s') = l.foldlM step b := rfl
      rw [h2, ih (acc ++ b), ih b]
      cases l.foldlM step [] with
      | error e => rfl
      | ok r => simp [List.append_assoc]

/-- The outcome of such a loop on a list cut at one element, when the three
parts succeed. -/
theorem foldlM_append_steps_split {X : Type} (step : List M → X → Except Failure (List M))
    (hstep : ∀ acc x, step acc x =
      match step [] x with
      | .ok l => .ok (acc ++ l)
      | .error e => .error e)
    (before after : List X) (x : X) (a b c : List M)
    (ha : before.foldlM step [] = .ok a) (hb : step [] x = .ok b)
    (hc : after.foldlM step [] = .ok c) :
    (before ++ x :: after).foldlM step [] = .ok (a ++ b ++ c) := by
  rw [List.foldlM_append, ha]
  show (x :: after).foldlM step a = _
  rw [List.foldlM_cons, hstep a x, hb]
  show after.foldlM step (a ++ b) = _
  rw [foldlM_append_steps step hstep after (a ++ b), hc]

namespace device_uplinks_status_and_ha

theorem appendUplinkStatuses_append (devices : GoMap Serial Device) (metrics : List M)
    (uplink : ResponseItemApplianceUplinkStatuses) :
    appendUplinkStatuses devices metrics uplink =
      match appendUplinkStatuses devices [] uplink with
      | .ok l => .ok (metrics ++ l)
      | .error e => .error e := by
  unfold appendUplinkStatuses
  cases devices.get uplink.Serial with
  | none => simp
  | some device =>
    cases uplink.HighAvailability with
    | none => rfl
    | some highAvailability =>
      cases uplink.Uplinks with
      | none => rfl
      | some items =>
        simp only [device_performance_score.foldl_append_singleton, List.nil_append]

/-- The metric maps of a matched response item: one per interface, in order. -/
theorem appendUplinkStatuses_of_get (devices : GoMap Serial Device)
    (uplink : ResponseItemApplianceUplinkStatuses) (device : Device)
    (highAvailability : HighAvailability) (items : List ApplianceUplinkItem)
    (hd : devices.get uplink.Serial = some device)
    (hha : uplink.HighAvailability = some highAvailability)
    (hitems : uplink.Uplinks = some items) :
    appendUplinkStatuses devices [] uplink =
      .ok (items.map (fun item =>
        Union (GoMap.ofList
          [ ("device.uplink.high_availablity.enabled", .boolPtr highAvailability.Enabled),
            ("device.uplink.high_availablity.role", .str highAvailability.Role),
            ("device.uplink.last_reported_at", .str uplink.LastReportedAt),
            ("device.address", .str device.Address),
            ("device.firmware", .str device.Firmware),
            ("device.imei", .floatPtr device.Imei),
            ("device.lan_ip", .str device.LanIP),
            ("device.location", .floatPtrs device.Location),
            ("device.mac", .str device.Mac),
            ("device.model", .str device.Model),
            ("device.name", .str device.Name),
            ("device.network_id", .str device.NetworkID),
            ("device.notes", .str device.Notes),
            ("device.product_type", .str device.ProductType),
            ("device.serial", .str device.Serial),
            ("device.tags", .strs device.Tags) ])
          (GoMap.ofList
            [ ("device.uplink.interface", .str item.Interface),
              ("device.uplink.status", .str item.Status),
              ("device.uplink.ip", .str item.IP),
              ("device.uplink.gateway", .str item.Gateway),
              ("device.uplink.public_ip", .str item.PublicIP),
              ("device.uplink.primary_dns", .str item.PrimaryDNS),
              ("device.uplink.secondary_dns", .str item.SecondaryDNS),
              ("device.uplink.ip_assigned_by", .str item.IPAssignedBy) ]))) := by
  simp only [appendUplinkStatuses, hd, hha, hitems,
    device_performance_score.foldl_append_singleton, List.nil_append]

/-- The outcome of `reportApplianceUplinkStatuses` in terms of its loop. -/
theorem reportApplianceUplinkStatuses_eq (reporter : Reporter) (organizationID : String)
    (devices : GoMap Serial Device) (response : List ResponseItemApplianceUplinkStatuses) :
    reportApplianceUplinkStatuses reporter organizationID devices response =
      match response.foldlM (appendUplinkStatuses devices) [] with
      | .error e => .error e
      | .ok metrics =>
        .ok (reporter ++ metrics.map (fun metric => (reportMetric organizationID metric).1)) := by
  unfold reportApplianceUplinkStatuses
  cases response.foldlM (appendUplinkStatuses devices) [] with
  | error e => rfl
  | ok metrics => simp only [ReportMetricsForOrganization_single]

/-- The lookups of the event of one interface: the interface's fields, over the
fields of the response item and of the device, over the organization. -/
theorem get_status_event (organizationID : String) (metric item : List (String × Value))
    (hmetric : (metric.map Prod.fst).Nodup) (hitem : (item.map Prod.fst).Nodup)
    (hts : GoMap.lookup "@timestamp" item = none)
    (hts' : GoMap.lookup "@timestamp" metric = none) (k : String) :
    (reportMetric organizationID (Union (GoMap.ofList metric) (GoMap.ofList item))).1.Timestamp
        = 0 ∧
      (reportMetric organizationID
          (Union (GoMap.ofList metric) (GoMap.ofList item))).1.ModuleFields.get k =
        (GoMap.lookup k item).orElse (fun _ => (GoMap.lookup k metric).orElse
          (fun _ => if k = "organization_id" then some (.str organizationID) else none)) := by
  have hno : ∀ ts, (Union (GoMap.ofList metric) (GoMap.ofList item)).get "@timestamp" ≠
      some (.time ts) := by
    intro ts
    rw [get_Union, GoMap.get_ofList _ hitem, GoMap.get_ofList _ hmetric, hts, hts']
    simp
  rw [reportMetric_of_no_time _ _ hno]
  refine ⟨rfl, ?_⟩
  simp only
  rw [get_Update, get_Union, GoMap.get_ofList _ hitem, GoMap.get_ofList _ hmetric,
    get_organization_literal]
  cases GoMap.lookup k item <;> rfl

end device_uplinks_status_and_ha

namespace device_uplinks_status_and_ha

/-- The step of a matched response item, with the lookups of the events of its
metric maps. -/
theorem status_step (organizationID : String) (devices : GoMap Serial Device)
    (uplink : ResponseItemApplianceUplinkStatuses) (device : Device)
    (highAvailability : HighAvailability) (items : List ApplianceUplinkItem)
    (hd : devices.get uplink.Serial = some device)
    (hha : uplink.HighAvailability = some highAvailability)
    (hitems : uplink.Uplinks = some items) :
    ∃ toMetric : ApplianceUplinkItem → M,
      appendUplinkStatuses devices [] uplink = .ok (items.map toMetric) ∧
      ∀ (item : ApplianceUplinkItem) (k : String),
        (reportMetric organizationID (toMetric item)).1.ModuleFields.get k =
          (GoMap.lookup k
            ([ ("device.uplink.interface", .str item.Interface),
            ("device.uplink.status", .str item.Status),
            ("device.uplink.ip", .str item.IP),
            ("device.uplink.gateway", .str item.Gateway),
            ("device.uplink.public_ip", .str item.PublicIP),
            ("device.uplink.primary_dns", .str item.PrimaryDNS),
            ("device.uplink.secondary_dns", .str item.SecondaryDNS),
            ("device.uplink.ip_assigned_by", .str item.IPAssignedBy) ] : List (String × Value))).orElse
          (fun _ => (GoMap.lookup k
            ([ ("device.uplink.high_availablity.enabled", .boolPtr highAvailability.Enabled),
            ("device.uplink.high_availablity.role", .str highAvailability.Role),
            ("device.uplink.last_reported_at", .str uplink.LastReportedAt),
            ("device.address", .str device.Address),
            ("device.firmware", .str device.Firmware),
            ("device.imei", .floatPtr device.Imei),
            ("device.lan_ip", .str device.LanIP),
            ("device.location", .floatPtrs device.Location),
            ("device.mac", .str device.Mac),
            ("device.model", .str device.Model),
            ("device.name", .str device.Name),
            ("device.network_id", .str device.NetworkID),
            ("device.notes", .str device.Notes),
            ("device.product_type", .str device.ProductType),
            ("device.serial", .str device.Serial),
            ("device.tags", .strs device.Tags) ] : List (String × Value))).orElse
            (fun _ => if k = "organization_id" then some (.str organizationID) else none)) :=
  ⟨_, appendUplinkStatuses_of_get devices uplink device highAvailability items hd hha hitems,
    fun item k => (get_status_event organizationID
      [ ("device.uplink.high_availablity.enabled", .boolPtr highAvailability.Enabled),
            ("device.uplink.high_availablity.role", .str highAvailability.Role),
            ("device.uplink.last_reported_at", .str uplink.LastReportedAt),
            ("device.address", .str device.Address),
            ("device.firmware", .str device.Firmware),
            ("device.imei", .floatPtr device.Imei),
            ("device.lan_ip", .str device.LanIP),
            ("device.location", .floatPtrs device.Location),
            ("device.mac", .str device.Mac),
            ("device.model", .str device.Model),
            ("device.name", .str device.Name),
            ("device.network_id", .str device.NetworkID),
            ("device.notes", .str device.Notes),
            ("device.product_type", .str device.ProductType),
            ("device.serial", .str device.Serial),
            ("device.tags", .strs device.Tags) ]
      [ ("device.uplink.interface", .str item.Interface),
            ("device.uplink.status", .str item.Status),
            ("device.uplink.ip", .str item.IP),
            ("device.uplink.gateway", .str item.Gateway),
            ("device.uplink.public_ip", .str item.PublicIP),
            ("device.uplink.primary_dns", .str item.PrimaryDNS),
            ("device.uplink.secondary_dns", .str item.SecondaryDNS),
            ("device.uplink.ip_assigned_by", .str item.IPAssignedBy) ]
      (by simp) (by simp) rfl rfl k).2⟩

end device_uplinks_status_and_ha

namespace device_uplinks_cellular_gateway_status

theorem appendUplinkItems_append (metric : M) (items : List CellularGatewayUplinkItem)
    (metrics : List M) :
    appendUplinkItems metric metrics items =
      match appendUplinkItems metric [] items with
      | .ok l => .ok (metrics ++ l)
      | .error e => .error e := by
  induction items generalizing metrics with
  | nil => simp [appendUplinkItems]
  | cons item rest ih =>
    cases hs : item.SignalStat with
    | none => simp only [appendUplinkItems, hs]
    | some signalStat =>
      simp only [appendUplinkItems, hs, List.nil_append]
      rw [ih (metrics ++ _), ih [_]]
      cases appendUplinkItems metric [] rest with
      | error e => rfl
      | ok l => simp [List.append_assoc]

/-- The inner loop when every uplink carries its signal block: one metric map
per uplink, in order. -/
theorem appendUplinkItems_ok (metric : M) (items : List CellularGatewayUplinkItem)
    (h : ∀ item ∈ items, item.SignalStat ≠ none) :
    appendUplinkItems metric [] items =
      .ok (items.map (fun item =>
        Union metric (GoMap.ofList
          [ ("device.uplink.cellular.gateway.apn", Value.str item.Apn),
            ("device.uplink.cellular.gateway.connection_type", .str item.ConnectionType),
            ("device.uplink.cellular.gateway.dns1", .str item.DNS1),
            ("device.uplink.cellular.gateway.dns2", .str item.DNS2),
            ("device.uplink.cellular.gateway.gateway", .str item.Gateway),
            ("device.uplink.cellular.gateway.iccid", .str item.Iccid),
            ("device.uplink.cellular.gateway.interface", .str item.Interface),
            ("device.uplink.cellular.gateway.ip", .str item.IP),
            ("device.uplink.cellular.gateway.model", .str item.Model),
            ("device.uplink.cellular.gateway.provider", .str item.Provider),
            ("device.uplink.cellular.gateway.public_ip", .str item.PublicIP),
            ("device.uplink.cellular.gateway.signal_stat.rsrp",
              .str (item.SignalStat.getD { Rsrp := "", Rsrq := "" }).Rsrp),
            ("device.uplink.cellular.gateway.signal_stat.rsrq",
              .str (item.SignalStat.getD { Rsrp := "", Rsrq := "" }).Rsrq),
            ("device.uplink.cellular.gateway.signal_type", .str item.SignalType),
            ("device.uplink.cellular.gateway.status", .str item.Status) ]))) := by
  induction items with
  | nil => rfl
  | cons item rest ih =>
    have ih' := ih (fun i hi => h i (List.mem_cons_of_mem _ hi))
    cases hs : item.SignalStat with
    | none => exact absurd hs (h item (List.mem_cons_self _ _))
    | some signalStat =>
      simp only [appendUplinkItems, hs, List.nil_append]
      rw [appendUplinkItems_append, ih']
      simp [hs]

theorem cellular_appendUplinkStatuses_append (devices : GoMap Serial Device) (metrics : List M)
    (uplink : ResponseItemCellularGatewayUplinkStatuses) :
    appendUplinkStatuses devices metrics uplink =
      match appendUplinkStatuses devices [] uplink with
      | .ok l => .ok (metrics ++ l)
      | .error e => .error e := by
  unfold appendUplinkStatuses
  cases devices.get uplink.Serial with
  | none => simp
  | some device =>
    cases uplink.Uplinks with
    | none => rfl
    | some items => exact appendUplinkItems_append _ items metrics

/-- The outcome of `reportApplianceUplinkStatuses` in terms of its loop. -/
theorem cellular_reportApplianceUplinkStatuses_eq (reporter : Reporter) (organizationID : String)
    (devices : GoMap Serial Device)
    (response : List ResponseItemCellularGatewayUplinkStatuses) :
    reportApplianceUplinkStatuses reporter organizationID devices response =
      match response.foldlM (appendUplinkStatuses devices) [] with
      | .error e => .error e
      | .ok metrics =>
        .ok (reporter ++ metrics.map (fun metric => (reportMetric organizationID metric).1)) := by
  unfold reportApplianceUplinkStatuses
  cases response.foldlM (appendUplinkStatuses devices) [] with
  | error e => rfl
  | ok metrics => simp only [ReportMetricsForOrganization_single]

end device_uplinks_cellular_gateway_status

namespace device_uplinks_cellular_gateway_status

/-- The step of a matched response item whose uplinks carry their signal block,
with the lookups of the events of its metric maps. -/
theorem cellular_step (organizationID : String) (devices : GoMap Serial Device)
    (uplink : ResponseItemCellularGatewayUplinkStatuses) (device : Device)
    (items : List CellularGatewayUplinkItem)
    (hd : devices.get uplink.Serial = some device) (hitems : uplink.Uplinks = some items)
    (hsignal : ∀ item ∈ items, item.SignalStat ≠ none) :
    ∃ toMetric : CellularGatewayUplinkItem → M,
      appendUplinkStatuses devices [] uplink = .ok (items.map toMetric) ∧
      ∀ (item : CellularGatewayUplinkItem) (k : String),
        (reportMetric organizationID (toMetric item)).1.ModuleFields.get k =
          (GoMap.lookup k
            ([ ("device.uplink.cellular.gateway.apn", .str item.Apn),
            ("device.uplink.cellular.gateway.connection_type", .str item.ConnectionType),
            ("device.uplink.cellular.gateway.dns1", .str item.DNS1),
            ("device.uplink.cellular.gateway.dns2", .str item.DNS2),
            ("device.uplink.cellular.gateway.gateway", .str item.Gateway),
            ("device.uplink.cellular.gateway.iccid", .str item.Iccid),
            ("device.uplink.cellular.gateway.interface", .str item.Interface),
            ("device.uplink.cellular.gateway.ip", .str item.IP),
            ("device.uplink.cellular.gateway.model", .str item.Model),
            ("device.uplink.cellular.gateway.provider", .str item.Provider),
            ("device.uplink.cellular.gateway.public_ip", .str item.PublicIP),
            ("device.uplink.cellular.gateway.signal_stat.rsrp",
              .str (item.SignalStat.getD { Rsrp := "", Rsrq := "" }).Rsrp),
            ("device.uplink.cellular.gateway.signal_stat.rsrq",
              .str (item.SignalStat.getD { Rsrp := "", Rsrq := "" }).Rsrq),
            ("device.uplink.cellular.gateway.signal_type", .str item.SignalType),
            ("device.uplink.cellular.gateway.status", .str item.Status) ] : List (String × Value))).orElse
          (fun _ => (GoMap.lookup k
            ([ ("device.uplink.cellular.gateway.networkd_id", .str uplink.NetworkID),
            ("device.uplink.cellular.gateway.last_reported_at", .str uplink.LastReportedAt),
            ("device.address", .str device.Address),
            ("device.firmware", .str device.Firmware),
            ("device.imei", .floatPtr device.Imei),
            ("device.lan_ip", .str device.LanIP),
            ("device.location", .floatPtrs device.Location),
            ("device.mac", .str device.Mac),
            ("device.model", .str device.Model),
            ("device.name", .str device.Name),
            ("device.network_id", .str device.NetworkID),
            ("device.notes", .str device.Notes),
            ("device.product_type", .str device.ProductType),
            ("device.serial", .str device.Serial),
            ("device.tags", .strs device.Tags) ] : List (String × Value))).orElse
            (fun _ => if k = "organization_id" then some (.str organizationID) else none)) := by
  refine ⟨_, ?_, fun item k => (device_uplinks_status_and_ha.get_status_event organizationID
      [ ("device.uplink.cellular.gateway.networkd_id", .str uplink.NetworkID),
            ("device.uplink.cellular.gateway.last_reported_at", .str uplink.LastReportedAt),
            ("device.address", .str device.Address),
            ("device.firmware", .str device.Firmware),
            ("device.imei", .floatPtr device.Imei),
            ("device.lan_ip", .str device.LanIP),
            ("device.location", .floatPtrs device.Location),
            ("device.mac", .str device.Mac),
            ("device.model", .str device.Model),
            ("device.name", .str device.Name),
            ("device.network_id", .str device.NetworkID),
            ("device.notes", .str device.Notes),
            ("device.product_type", .str device.ProductType),
            ("device.serial", .str device.Serial),
            ("device.tags", .strs device.Tags) ]
      [ ("device.uplink.cellular.gateway.apn", .str item.Apn),
            ("device.uplink.cellular.gateway.connection_type", .str item.ConnectionType),
            ("device.uplink.cellular.gateway.dns1", .str item.DNS1),
            ("device.uplink.cellular.gateway.dns2", .str item.DNS2),
            ("device.uplink.cellular.gateway.gateway", .str item.Gateway),
            ("device.uplink.cellular.gateway.iccid", .str item.Iccid),
            ("device.uplink.cellular.gateway.interface", .str item.Interface),
            ("device.uplink.cellular.gateway.ip", .str item.IP),
            ("device.uplink.cellular.gateway.model", .str item.Model),
            ("device.uplink.cellular.gateway.provider", .str item.Provider),
            ("device.uplink.cellular.gateway.public_ip", .str item.PublicIP),
            ("device.uplink.cellular.gateway.signal_stat.rsrp",
              .str (item.SignalStat.getD { Rsrp := "", Rsrq := "" }).Rsrp),
            ("device.uplink.cellular.gateway.signal_stat.rsrq",
              .str (item.SignalStat.getD { Rsrp := "", Rsrq := "" }).Rsrq),
            ("device.uplink.cellular.gateway.signal_type", .str item.SignalType),
            ("device.uplink.cellular.gateway.status", .str item.Status) ]
      (by simp) (by simp) rfl rfl k).2⟩
  simp only [appendUplinkStatuses, hd, hitems]
  exact appendUplinkItems_ok _ items hsignal

end device_uplinks_cellular_gateway_status

/-- Fan-out of an entry that carries its blocks, in a response whose other entries
do: for every uplink-status entry whose serial matches an inventory device and that
lists `n` interfaces, `reportApplianceUplinkStatuses` emits exactly `n` events for
it, one per interface in order, between the events of the entries before and after
it. Each of them carries the fields of the entry and the device's dimensions, the
same in all `n` events, together with that interface's own fields; an entry with
zero interfaces emits no event. First the appliance metricset (the entry carrying
its high-availability block), then the cellular gateway metricset (each interface
carrying its signal block). -/
theorem reportApplianceUplinkStatuses_fanout :
    (∀ (reporter : Reporter) (organizationID : String) (devices : GoMap Serial Device)
      (before after : List ResponseItemApplianceUplinkStatuses)
      (uplink : ResponseItemApplianceUplinkStatuses) (device : Device)
      (highAvailability : HighAvailability) (items : List ApplianceUplinkItem)
      (evBefore evAfter : Reporter),
      devices.get uplink.Serial = some device →
      uplink.HighAvailability = some highAvailability →
      uplink.Uplinks = some items →
      device_uplinks_status_and_ha.reportApplianceUplinkStatuses reporter organizationID devices before =
        .ok evBefore →
      device_uplinks_status_and_ha.reportApplianceUplinkStatuses [] organizationID devices after = .ok evAfter →
      ∃ toEvent : ApplianceUplinkItem → Event,
        device_uplinks_status_and_ha.reportApplianceUplinkStatuses reporter organizationID devices
            (before ++ uplink :: after) = .ok (evBefore ++ items.map toEvent ++ evAfter) ∧
        (items.map toEvent).length = items.length ∧
        (∀ item : ApplianceUplinkItem,
          (toEvent item).ModuleFields.get "device.uplink.interface" =
            some (.str item.Interface) ∧
          (toEvent item).ModuleFields.get "device.uplink.status" =
            some (.str item.Status) ∧
          (toEvent item).ModuleFields.get "device.uplink.ip" =
            some (.str item.IP) ∧
          (toEvent item).ModuleFields.get "device.uplink.gateway" =
            some (.str item.Gateway) ∧
          (toEvent item).ModuleFields.get "device.uplink.public_ip" =
            some (.str item.PublicIP) ∧
          (toEvent item).ModuleFields.get "device.uplink.primary_dns" =
            some (.str item.PrimaryDNS) ∧
          (toEvent item).ModuleFields.get "device.uplink.secondary_dns" =
            some (.str item.SecondaryDNS) ∧
          (toEvent item).ModuleFields.get "device.uplink.ip_assigned_by" =
            some (.str item.IPAssignedBy) ∧
          (toEvent item).ModuleFields.get "organization_id" =
            some (.str organizationID) ∧
          (toEvent item).ModuleFields.get "device.uplink.high_availablity.enabled" =
            some (.boolPtr highAvailability.Enabled) ∧
          (toEvent item).ModuleFields.get "device.uplink.high_availablity.role" =
            some (.str highAvailability.Role) ∧
          (toEvent item).ModuleFields.get "device.uplink.last_reported_at" =
            some (.str uplink.LastReportedAt) ∧
          (toEvent item).ModuleFields.get "device.address" =
            some (.str device.Address) ∧
          (toEvent item).ModuleFields.get "device.firmware" =
            some (.str device.Firmware) ∧
          (toEvent item).ModuleFields.get "device.imei" =
            some (.floatPtr device.Imei) ∧
          (toEvent item).ModuleFields.get "device.lan_ip" =
            some (.str device.LanIP) ∧
          (toEvent item).ModuleFields.get "device.location" =
            some (.floatPtrs device.Location) ∧
          (toEvent item).ModuleFields.get "device.mac" =
            some (.str device.Mac) ∧
          (toEvent item).ModuleFields.get "device.model" =
            some (.str device.Model) ∧
          (toEvent item).ModuleFields.get "device.name" =
            some (.str device.Name) ∧
          (toEvent item).ModuleFields.get "device.network_id" =
            some (.str device.NetworkID) ∧
          (toEvent item).ModuleFields.get "device.notes" =
            some (.str device.Notes) ∧
          (toEvent item).ModuleFields.get "device.product_type" =
            some (.str device.ProductType) ∧
          (toEvent item).ModuleFields.get "device.serial" =
            some (.str device.Serial) ∧
          (toEvent item).ModuleFields.get "device.tags" =
            some (.strs device.Tags)) ∧
        ∀ (item other : ApplianceUplinkItem) (k : String),
          k ∉ ["device.uplink.interface",
               "device.uplink.status",
               "device.uplink.ip",
               "device.uplink.gateway",
               "device.uplink.public_ip",
               "device.uplink.primary_dns",
               "device.uplink.secondary_dns",
               "device.uplink.ip_assigned_by"] →
          (toEvent item).ModuleFields.get k = (toEvent other).ModuleFields.get k) ∧
    (∀ (reporter : Reporter) (organizationID : String) (devices : GoMap Serial Device)
      (before after : List device_uplinks_cellular_gateway_status.ResponseItemCellularGatewayUplinkStatuses)
      (uplink : device_uplinks_cellular_gateway_status.ResponseItemCellularGatewayUplinkStatuses) (device : Device)
      (items : List device_uplinks_cellular_gateway_status.CellularGatewayUplinkItem) (evBefore evAfter : Reporter),
      devices.get uplink.Serial = some device →
      uplink.Uplinks = some items →
      (∀ item ∈ items, item.SignalStat ≠ none) →
      device_uplinks_cellular_gateway_status.reportApplianceUplinkStatuses reporter organizationID devices before =
        .ok evBefore →
      device_uplinks_cellular_gateway_status.reportApplianceUplinkStatuses [] organizationID devices after = .ok evAfter →
      ∃ toEvent : device_uplinks_cellular_gateway_status.CellularGatewayUplinkItem → Event,
        device_uplinks_cellular_gateway_status.reportApplianceUplinkStatuses reporter organizationID devices
            (before ++ uplink :: after) = .ok (evBefore ++ items.map toEvent ++ evAfter) ∧
        (items.map toEvent).length = items.length ∧
        (∀ (item : device_uplinks_cellular_gateway_status.CellularGatewayUplinkItem) (signalStat : device_uplinks_cellular_gateway_status.SignalStat),
          item.SignalStat = some signalStat →
          (toEvent item).ModuleFields.get "device.uplink.cellular.gateway.apn" =
            some (.str item.Apn) ∧
          (toEvent item).ModuleFields.get "device.uplink.cellular.gateway.connection_type" =
            some (.str item.ConnectionType) ∧
          (toEvent item).ModuleFields.get "device.uplink.cellular.gateway.dns1" =
            some (.str item.DNS1) ∧
          (toEvent item).ModuleFields.get "device.uplink.cellular.gateway.dns2" =
            some (.str item.DNS2) ∧
          (toEvent item).ModuleFields.get "device.uplink.cellular.gateway.gateway" =
            some (.str item.Gateway) ∧
          (toEvent item).ModuleFields.get "device.uplink.cellular.gateway.iccid" =
            some (.str item.Iccid) ∧
          (toEvent item).ModuleFields.get "device.uplink.cellular.gateway.interface" =
            some (.str item.Interface) ∧
          (toEvent item).ModuleFields.get "device.uplink.cellular.gateway.ip" =
            some (.str item.IP) ∧
          (toEvent item).ModuleFields.get "device.uplink.cellular.gateway.model" =
            some (.str item.Model) ∧
          (toEvent item).ModuleFields.get "device.uplink.cellular.gateway.provider" =
            some (.str item.Provider) ∧
          (toEvent item).ModuleFields.get "device.uplink.cellular.gateway.public_ip" =
            some (.str item.PublicIP) ∧
          (toEvent item).ModuleFields.get "device.uplink.cellular.gateway.signal_stat.rsrp" =
            some (.str signalStat.Rsrp) ∧
          (toEvent item).ModuleFields.get "device.uplink.cellular.gateway.signal_stat.rsrq" =
            some (.str signalStat.Rsrq) ∧
          (toEvent item).ModuleFields.get "device.uplink.cellular.gateway.signal_type" =
            some (.str item.SignalType) ∧
          (toEvent item).ModuleFields.get "device.uplink.cellular.gateway.status" =
            some (.str item.Status) ∧
          (toEvent item).ModuleFields.get "organization_id" =
            some (.str organizationID) ∧
          (toEvent item).ModuleFields.get "device.uplink.cellular.gateway.networkd_id" =
            some (.str uplink.NetworkID) ∧
          (toEvent item).ModuleFields.get "device.uplink.cellular.gateway.last_reported_at" =
            some (.str uplink.LastReportedAt) ∧
          (toEvent item).ModuleFields.get "device.address" =
            some (.str device.Address) ∧
          (toEvent item).ModuleFields.get "device.firmware" =
            some (.str device.Firmware) ∧
          (toEvent item).ModuleFields.get "device.imei" =
            some (.floatPtr device.Imei) ∧
          (toEvent item).ModuleFields.get "device.lan_ip" =
            some (.str device.LanIP) ∧
          (toEvent item).ModuleFields.get "device.location" =
            some (.floatPtrs device.Location) ∧
          (toEvent item).ModuleFields.get "device.mac" =
            some (.str device.Mac) ∧
          (toEvent item).ModuleFields.get "device.model" =
            some (.str device.Model) ∧
          (toEvent item).ModuleFields.get "device.name" =
            some (.str device.Name) ∧
          (toEvent item).ModuleFields.get "device.network_id" =
            some (.str device.NetworkID) ∧
          (toEvent item).ModuleFields.get "device.notes" =
            some (.str device.Notes) ∧
          (toEvent item).ModuleFields.get "device.product_type" =
            some (.str device.ProductType) ∧
          (toEvent item).ModuleFields.get "device.serial" =
            some (.str device.Serial) ∧
          (toEvent item).ModuleFields.get "device.tags" =
            some (.strs device.Tags)) ∧
        ∀ (item other : device_uplinks_cellular_gateway_status.CellularGatewayUplinkItem) (k : String),
          k ∉ ["device.uplink.cellular.gateway.apn",
               "device.uplink.cellular.gateway.connection_type",
               "device.uplink.cellular.gateway.dns1",
               "device.uplink.cellular.gateway.dns2",
               "device.uplink.cellular.gateway.gateway",
               "device.uplink.cellular.gateway.iccid",
               "device.uplink.cellular.gateway.interface",
               "device.uplink.cellular.gateway.ip",
               "device.uplink.cellular.gateway.model",
               "device.uplink.cellular.gateway.provider",
               "device.uplink.cellular.gateway.public_ip",
               "device.uplink.cellular.gateway.signal_stat.rsrp",
               "device.uplink.cellular.gateway.signal_stat.rsrq",
               "device.uplink.cellular.gateway.signal_type",
               "device.uplink.cellular.gateway.status"] →
          (toEvent item).ModuleFields.get k = (toEvent other).ModuleFields.get k) := by
  constructor
  · intro reporter organizationID devices before after uplink device highAvailability items
      evBefore evAfter hd hha hitems hbefore hafter
    obtain ⟨toMetric, hstep, hev⟩ := device_uplinks_status_and_ha.status_step organizationID devices uplink device
      highAvailability items hd hha hitems
    rw [device_uplinks_status_and_ha.reportApplianceUplinkStatuses_eq] at hbefore hafter
    cases ha : before.foldlM (device_uplinks_status_and_ha.appendUplinkStatuses devices) [] with
    | error e => rw [ha] at hbefore; cases hbefore
    | ok a =>
      cases hc : after.foldlM (device_uplinks_status_and_ha.appendUplinkStatuses devices) [] with
      | error e => rw [hc] at hafter; cases hafter
      | ok c =>
        rw [ha] at hbefore
        rw [hc] at hafter
        have hb := Except.ok.inj hbefore
        have hf := Except.ok.inj hafter
        have hall := foldlM_append_steps_split (device_uplinks_status_and_ha.appendUplinkStatuses devices)
          (device_uplinks_status_and_ha.appendUplinkStatuses_append devices) before after uplink a _ c ha hstep hc
        refine ⟨fun item => (reportMetric organizationID (toMetric item)).1, ?_, by simp,
          ?_, ?_⟩
        · rw [device_uplinks_status_and_ha.reportApplianceUplinkStatuses_eq, hall]
          simp only [← hb, ← hf, List.map_append, List.map_map, List.append_assoc,
            List.nil_append, Function.comp]
          rfl
        · intro item
          simp only [hev item]
          simp [GoMap.lookup]
        · intro item other k hk
          simp only [List.mem_cons, List.not_mem_nil, or_false, not_or] at hk
          obtain ⟨h1, h2, h3, h4, h5, h6, h7, h8⟩ := hk
          have hne : ∀ s : String, k ≠ s → ¬ s = k := fun s h e => h e.symm
          simp only [hev item, hev other]
          simp [GoMap.lookup, hne _ h1, hne _ h2, hne _ h3, hne _ h4, hne _ h5, hne _ h6, hne _ h7, hne _ h8]
  · intro reporter organizationID devices before after uplink device items evBefore evAfter
      hd hitems hsignal hbefore hafter
    obtain ⟨toMetric, hstep, hev⟩ := device_uplinks_cellular_gateway_status.cellular_step organizationID devices uplink device
      items hd hitems hsignal
    rw [device_uplinks_cellular_gateway_status.cellular_reportApplianceUplinkStatuses_eq] at hbefore hafter
    cases ha : before.foldlM (device_uplinks_cellular_gateway_status.appendUplinkStatuses devices) [] with
    | error e => rw [ha] at hbefore; cases hbefore
    | ok a =>
      cases hc : after.foldlM (device_uplinks_cellular_gateway_status.appendUplinkStatuses devices) [] with
      | error e => rw [hc] at hafter; cases hafter
      | ok c =>
        rw [ha] at hbefore
        rw [hc] at hafter
        have hb := Except.ok.inj hbefore
        have hf := Except.ok.inj hafter
        have hall := foldlM_append_steps_split (device_uplinks_cellular_gateway_status.appendUplinkStatuses devices)
          (device_uplinks_cellular_gateway_status.cellular_appendUplinkStatuses_append devices) before after uplink a _ c ha hstep hc
        refine ⟨fun item => (reportMetric organizationID (toMetric item)).1, ?_, by simp,
          ?_, ?_⟩
        · rw [device_uplinks_cellular_gateway_status.cellular_reportApplianceUplinkStatuses_eq, hall]
          simp only [← hb, ← hf, List.map_append, List.map_map, List.append_assoc,
            List.nil_append, Function.comp]
          rfl
        · intro item signalStat hs
          simp only [hev item]
          simp [GoMap.lookup, hs]
        · intro item other k hk
          simp only [List.mem_cons, List.not_mem_nil, or_false, not_or] at hk
          obtain ⟨h1, h2, h3, h4, h5, h6, h7, h8, h9, h10, h11, h12, h13, h14, h15⟩ := hk
          have hne : ∀ s : String, k ≠ s → ¬ s = k := fun s h e => h e.symm
          simp only [hev item, hev other]
          simp [GoMap.lookup, hne _ h1, hne _ h2, hne _ h3, hne _ h4, hne _ h5, hne _ h6, hne _ h7, hne _ h8, hne _ h9, hne _ h10, hne _ h11, hne _ h12, hne _ h13, hne _ h14, hne _ h15]

/-- The fan-out on the scenario inventory: an appliance entry for `S1` with the two
interfaces `wan1` and `wan2` yields two events, in that order, with the same device
serial; a cellular gateway entry for `S1` with no interface yields none. -/
theorem reportApplianceUplinkStatuses_fanout_witness :
    (∃ wan1 wan2 : Event,
      device_uplinks_status_and_ha.reportApplianceUplinkStatuses [] "org1"
          (GoMap.ofList [("S1", device_uplinks_loss_and_latency.scenarioDevice)])
          [{ HighAvailability := some { Enabled := some false, Role := "primary" },
             LastReportedAt := "2024-01-01T00:00:00Z", Model := "X1", NetworkID := "N1",
             Serial := "S1",
             Uplinks := some
               [{ Gateway := "", Interface := "wan1", IP := "", IPAssignedBy := "",
                  PrimaryDNS := "", PublicIP := "", SecondaryDNS := "", Status := "active" },
                { Gateway := "", Interface := "wan2", IP := "", IPAssignedBy := "",
                  PrimaryDNS := "", PublicIP := "", SecondaryDNS := "", Status := "ready" }] }] =
        .ok [wan1, wan2] ∧
      wan1.ModuleFields.get "device.uplink.interface" = some (.str "wan1") ∧
      wan2.ModuleFields.get "device.uplink.interface" = some (.str "wan2") ∧
      wan1.ModuleFields.get "device.serial" = wan2.ModuleFields.get "device.serial") ∧
    device_uplinks_cellular_gateway_status.reportApplianceUplinkStatuses [] "org1"
        (GoMap.ofList [("S1", device_uplinks_loss_and_latency.scenarioDevice)])
        [{ LastReportedAt := "2024-01-01T00:00:00Z", Model := "X1", NetworkID := "N1",
           Serial := "S1", Uplinks := some [] }] = .ok [] := by
  constructor
  · obtain ⟨toEvent, heq, _, hfields, hsame⟩ := reportApplianceUplinkStatuses_fanout.1 []
      "org1" (GoMap.ofList [("S1", device_uplinks_loss_and_latency.scenarioDevice)]) [] []
      { HighAvailability := some { Enabled := some false, Role := "primary" },
        LastReportedAt := "2024-01-01T00:00:00Z", Model := "X1", NetworkID := "N1",
        Serial := "S1",
        Uplinks := some
          [{ Gateway := "", Interface := "wan1", IP := "", IPAssignedBy := "",
             PrimaryDNS := "", PublicIP := "", SecondaryDNS := "", Status := "active" },
           { Gateway := "", Interface := "wan2", IP := "", IPAssignedBy := "",
             PrimaryDNS := "", PublicIP := "", SecondaryDNS := "", Status := "ready" }] }
      device_uplinks_loss_and_latency.scenarioDevice
      { Enabled := some false, Role := "primary" } _ [] [] (by decide) rfl rfl rfl rfl
    exact ⟨_, _, heq, (hfields _).1, (hfields _).1, hsame _ _ "device.serial" (by decide)⟩
  · obtain ⟨toEvent, heq, _⟩ := reportApplianceUplinkStatuses_fanout.2 []
      "org1" (GoMap.ofList [("S1", device_uplinks_loss_and_latency.scenarioDevice)]) [] []
      { LastReportedAt := "2024-01-01T00:00:00Z", Model := "X1", NetworkID := "N1",
        Serial := "S1", Uplinks := some [] }
      device_uplinks_loss_and_latency.scenarioDevice [] [] [] (by decide) rfl
      (fun _ h => by cases h) rfl rfl
    exact heq

/-- C16 does not hold of the code on an entry without its optional block. The
status entry of the inventory device `S1` lists the two interfaces `wan1` and
`wan2` and carries no high-availability block: the claim has two events for it, the
code dereferences the nil block, panics and emits nothing, and the two events of a
well-formed entry that comes before it are lost with it. A cellular gateway entry
of `S1` whose one interface carries no signal block fails the same way. -/
theorem reportApplianceUplinkStatuses_nil_block :
    (GoMap.ofList [("S1", device_uplinks_loss_and_latency.scenarioDevice)]).get "S1" =
        some device_uplinks_loss_and_latency.scenarioDevice ∧
      device_uplinks_status_and_ha.reportApplianceUplinkStatuses [] "org1"
          (GoMap.ofList [("S1", device_uplinks_loss_and_latency.scenarioDevice)])
          [{ HighAvailability := none,
             LastReportedAt := "2024-01-01T00:00:00Z", Model := "X1", NetworkID := "N1",
             Serial := "S1",
             Uplinks := some
               [{ Gateway := "", Interface := "wan1", IP := "", IPAssignedBy := "",
                  PrimaryDNS := "", PublicIP := "", SecondaryDNS := "", Status := "active" },
                { Gateway := "", Interface := "wan2", IP := "", IPAssignedBy := "",
                  PrimaryDNS := "", PublicIP := "", SecondaryDNS := "", Status := "ready" }] }] =
        .error .nilDereference ∧
      (∃ wan1 wan2 : Event,
        device_uplinks_status_and_ha.reportApplianceUplinkStatuses [] "org1"
            (GoMap.ofList [("S1", device_uplinks_loss_and_latency.scenarioDevice)])
            [{ HighAvailability := some { Enabled := some false, Role := "primary" },
               LastReportedAt := "2024-01-01T00:00:00Z", Model := "X1", NetworkID := "N1",
               Serial := "S1",
               Uplinks := some
                 [{ Gateway := "", Interface := "wan1", IP := "", IPAssignedBy := "",
                    PrimaryDNS := "", PublicIP := "", SecondaryDNS := "", Status := "active" },
                  { Gateway := "", Interface := "wan2", IP := "", IPAssignedBy := "",
                    PrimaryDNS := "", PublicIP := "", SecondaryDNS := "", Status := "ready" }] }]
          = .ok [wan1, wan2]) ∧
      device_uplinks_status_and_ha.reportApplianceUplinkStatuses [] "org1"
          (GoMap.ofList [("S1", device_uplinks_loss_and_latency.scenarioDevice)])
          [{ HighAvailability := some { Enabled := some false, Role := "primary" },
             LastReportedAt := "2024-01-01T00:00:00Z", Model := "X1", NetworkID := "N1",
             Serial := "S1",
             Uplinks := some
               [{ Gateway := "", Interface := "wan1", IP := "", IPAssignedBy := "",
                  PrimaryDNS := "", PublicIP := "", SecondaryDNS := "", Status := "active" },
                { Gateway := "", Interface := "wan2", IP := "", IPAssignedBy := "",
                  PrimaryDNS := "", PublicIP := "", SecondaryDNS := "", Status := "ready" }] },
           { HighAvailability := none,
             LastReportedAt := "2024-01-01T00:00:00Z", Model := "X1", NetworkID := "N1",
             Serial := "S1",
             Uplinks := some
               [{ Gateway := "", Interface := "wan1", IP := "", IPAssignedBy := "",
                  PrimaryDNS := "", PublicIP := "", SecondaryDNS := "", Status := "active" },
                { Gateway := "", Interface := "wan2", IP := "", IPAssignedBy := "",
                  PrimaryDNS := "", PublicIP := "", SecondaryDNS := "", Status := "ready" }] }] =
        .error .nilDereference ∧
      device_uplinks_cellular_gateway_status.reportApplianceUplinkStatuses [] "org1"
          (GoMap.ofList [("S1", device_uplinks_loss_and_latency.scenarioDevice)])
          [{ LastReportedAt := "2024-01-01T00:00:00Z", Model := "X1", NetworkID := "N1",
             Serial := "S1",
             Uplinks := some
               [{ Apn := "", ConnectionType := "", DNS1 := "", DNS2 := "", Gateway := "",
                  Iccid := "", Interface := "cellular", IP := "", Model := "", Provider := "",
                  PublicIP := "", SignalStat := none, SignalType := "", Status := "active" }] }] =
        .error .nilDereference :=
  ⟨by decide, rfl, ⟨_, _, rfl⟩, rfl, rfl⟩

/-! ## Samples without a device -/

namespace device_uplinks_loss_and_latency

/-- The events of `reportDeviceUplinkMetrics`, uplink by uplink: one per data
point of an uplink whose device is in the inventory, none for another uplink. -/
theorem reportDeviceUplinkMetrics_flatMap (reporter : Reporter) (organizationID : String)
    (devices : GoMap Serial Device) (uplinks : List Uplink) :
    reportDeviceUplinkMetrics reporter organizationID devices uplinks =
      reporter ++ uplinks.flatMap (fun uplink =>
        match devices.get uplink.DeviceSerial with
        | some device =>
          uplink.Metrics.map (fun sample => (reportMetric organizationID
            (Union (uplinkDeviceMetric uplink device) (GoMap.ofList
              [ ("@timestamp", .time sample.Timestamp),
          ("uplink.loss_percent", .floatPtr sample.LossPercent),
          ("uplink.latency_ms", .floatPtr sample.LatencyMs) ]))).1)
        | none => []) := by
  rw [reportDeviceUplinkMetrics_eq]
  congr 1
  induction uplinks with
  | nil => rfl
  | cons u rest ih =>
    rw [List.flatMap_cons, List.flatMap_cons, ih]
    congr 1
    cases hu : devices.get u.DeviceSerial with
    | none => simp [appendUplinkMetrics_of_get_none devices [] u hu]
    | some d => simp [appendUplinkMetrics_of_get devices u d hu, List.map_map]

/-- The event of one data point of an uplink and its device: the time and the
fields that tell which sample and which device it is. -/
theorem uplink_event_fields (organizationID : String) (uplink : Uplink) (device : Device)
    (sample : UplinkMetric) :
    (reportMetric organizationID (Union (uplinkDeviceMetric uplink device) (GoMap.ofList
        [ ("@timestamp", .time sample.Timestamp),
          ("uplink.loss_percent", .floatPtr sample.LossPercent),
          ("uplink.latency_ms", .floatPtr sample.LatencyMs) ]))).1.Timestamp = sample.Timestamp ∧
      (reportMetric organizationID (Union (uplinkDeviceMetric uplink device) (GoMap.ofList
        [ ("@timestamp", .time sample.Timestamp),
          ("uplink.loss_percent", .floatPtr sample.LossPercent),
          ("uplink.latency_ms", .floatPtr sample.LatencyMs) ]))).1.ModuleFields.get "organization_id" = some (.str organizationID) ∧
      (reportMetric organizationID (Union (uplinkDeviceMetric uplink device) (GoMap.ofList
        [ ("@timestamp", .time sample.Timestamp),
          ("uplink.loss_percent", .floatPtr sample.LossPercent),
          ("uplink.latency_ms", .floatPtr sample.LatencyMs) ]))).1.ModuleFields.get "uplink.loss_percent" =
          some (.floatPtr sample.LossPercent) ∧
      (reportMetric organizationID (Union (uplinkDeviceMetric uplink device) (GoMap.ofList
        [ ("@timestamp", .time sample.Timestamp),
          ("uplink.loss_percent", .floatPtr sample.LossPercent),
          ("uplink.latency_ms", .floatPtr sample.LatencyMs) ]))).1.ModuleFields.get "uplink.latency_ms" =
          some (.floatPtr sample.LatencyMs) ∧
      (reportMetric organizationID (Union (uplinkDeviceMetric uplink device) (GoMap.ofList
        [ ("@timestamp", .time sample.Timestamp),
          ("uplink.loss_percent", .floatPtr sample.LossPercent),
          ("uplink.latency_ms", .floatPtr sample.LatencyMs) ]))).1.ModuleFields.get "uplink.ip" = some (.str uplink.IP) ∧
      (reportMetric organizationID (Union (uplinkDeviceMetric uplink device) (GoMap.ofList
        [ ("@timestamp", .time sample.Timestamp),
          ("uplink.loss_percent", .floatPtr sample.LossPercent),
          ("uplink.latency_ms", .floatPtr sample.LatencyMs) ]))).1.ModuleFields.get "upliink.interface" = some (.str uplink.Interface) ∧
      (reportMetric organizationID (Union (uplinkDeviceMetric uplink device) (GoMap.ofList
        [ ("@timestamp", .time sample.Timestamp),
          ("uplink.loss_percent", .floatPtr sample.LossPercent),
          ("uplink.latency_ms", .floatPtr sample.LatencyMs) ]))).1.ModuleFields.get "device.model" = some (.str device.Model) ∧
      (reportMetric organizationID (Union (uplinkDeviceMetric uplink device) (GoMap.ofList
        [ ("@timestamp", .time sample.Timestamp),
          ("uplink.loss_percent", .floatPtr sample.LossPercent),
          ("uplink.latency_ms", .floatPtr sample.LatencyMs) ]))).1.ModuleFields.get "device.serial" = some (.str device.Serial) := by
  have hts : (Union (uplinkDeviceMetric uplink device) (GoMap.ofList
      [ ("@timestamp", .time sample.Timestamp),
          ("uplink.loss_percent", .floatPtr sample.LossPercent),
          ("uplink.latency_ms", .floatPtr sample.LatencyMs) ])).get "@timestamp" = some (.time sample.Timestamp) := by
    rw [get_Union, get_sample_literal]; simp
  rw [reportMetric_of_time _ _ _ hts]
  have hfield : ∀ k : String, k ≠ "@timestamp" → k ≠ "uplink.loss_percent" →
      k ≠ "uplink.latency_ms" →
      (M.Update (GoMap.ofList [("organization_id", Value.str organizationID)])
        ((Union (uplinkDeviceMetric uplink device) (GoMap.ofList
          [ ("@timestamp", .time sample.Timestamp),
          ("uplink.loss_percent", .floatPtr sample.LossPercent),
          ("uplink.latency_ms", .floatPtr sample.LatencyMs) ])).delete "@timestamp")).get k =
        ((uplinkDeviceMetric uplink device).get k).orElse
          (fun _ => if k = "organization_id" then some (.str organizationID) else none) := by
    intro k h1 h2 h3
    rw [get_Update, GoMap.get_delete_ne _ h1, get_Union, get_sample_literal,
      get_organization_literal]
    simp [h1, h2, h3]
  refine ⟨rfl, ?_, ?_, ?_, ?_, ?_, ?_, ?_⟩
  · rw [hfield _ (by decide) (by decide) (by decide), get_uplinkDeviceMetric _ _ _ (by decide)]
    simp [GoMap.lookup]
  · rw [get_Update, GoMap.get_delete_ne _ (by decide), get_Union, get_sample_literal]; simp
  · rw [get_Update, GoMap.get_delete_ne _ (by decide), get_Union, get_sample_literal]; simp
  all_goals
    rw [hfield _ (by decide) (by decide) (by decide), get_uplinkDeviceMetric _ _ _ (by decide)]
    simp [GoMap.lookup]

end device_uplinks_loss_and_latency

/-- A loop whose body appends to the accumulator, or fails: it succeeds exactly
when every step does, and then returns what the steps append, in order. -/
theorem foldlM_append_steps_ok {X : Type} (step : List M → X → Except Failure (List M))
    (hstep : ∀ acc x, step acc x =
      match step [] x with
      | .ok l => .ok (acc ++ l)
      | .error e => .error e)
    (l : List X) :
    (∀ r, l.foldlM step [] = .ok r →
      (∀ x ∈ l, ∃ b, step [] x = .ok b) ∧
        r = l.flatMap (fun x => match step [] x with | .ok b => b | .error _ => [])) ∧
      ((∀ x ∈ l, ∃ b, step [] x = .ok b) →
        l.foldlM step [] =
          .ok (l.flatMap (fun x => match step [] x with | .ok b => b | .error _ => []))) := by
  induction l with
  | nil =>
    refine ⟨fun r h => ⟨fun _ hx => (by cases hx), ?_⟩, fun _ => rfl⟩
    have h' : (Except.ok [] : Except Failure (List M)) = .ok r := h
    exact (Except.ok.inj h').symm
  | cons x l ih =>
    have hcons : (x :: l).foldlM step [] =
        match step [] x with
        | .ok b =>
          (match l.foldlM step [] with
            | .ok r => .ok (b ++ r)
            | .error e => .error e)
        | .error e => .error e := by
      rw [List.foldlM_cons]
      cases hx : step [] x with
      | error e => rfl
      | ok b =>
        show l.foldlM step b = _
        rw [foldlM_append_steps step hstep l b]
    constructor
    · intro r h
      rw [hcons] at h
      cases hx : step [] x with
      | error e => rw [hx] at h; cases h
      | ok b =>
        rw [hx] at h
        simp only [] at h
        cases hl : l.foldlM step [] with
        | error e => rw [hl] at h; cases h
        | ok r' =>
          rw [hl] at h
          obtain ⟨hall, hr'⟩ := ih.1 r' hl
          refine ⟨?_, ?_⟩
          · intro y hy
            rcases List.mem_cons.mp hy with rfl | hy'
            · exact ⟨b, hx⟩
            · exact hall y hy'
          · rw [List.flatMap_cons, hx, ← hr']
            exact (Except.ok.inj h).symm
    · intro hall
      obtain ⟨b, hx⟩ := hall x (List.mem_cons_self _ _)
      rw [hcons, hx, ih.2 (fun y hy => hall y (List.mem_cons_of_mem _ hy)), List.flatMap_cons, hx]

namespace device_uplinks_status_and_ha

/-- The metric maps one response item appends: one per interface of an item
whose device is in the inventory and which carries its high-availability block and
its uplinks; none for an item without a device. -/
theorem appendUplinkStatuses_cases (devices : GoMap Serial Device)
    (uplink : ResponseItemApplianceUplinkStatuses) :
    ((∃ b, appendUplinkStatuses devices [] uplink = .ok b) ↔
      ∀ device, devices.get uplink.Serial = some device →
        uplink.HighAvailability ≠ none ∧ uplink.Uplinks ≠ none) ∧
      (match appendUplinkStatuses devices [] uplink with
        | .ok b => b
        | .error _ => []) =
      (match devices.get uplink.Serial, uplink.HighAvailability, uplink.Uplinks with
        | some device, some highAvailability, some items =>
          items.map (fun item =>
            Union (GoMap.ofList
              [ ("device.uplink.high_availablity.enabled", .boolPtr highAvailability.Enabled),
                ("device.uplink.high_availablity.role", .str highAvailability.Role),
                ("device.uplink.last_reported_at", .str uplink.LastReportedAt),
                ("device.address", .str device.Address),
                ("device.firmware", .str device.Firmware),
                ("device.imei", .floatPtr device.Imei),
                ("device.lan_ip", .str device.LanIP),
                ("device.location", .floatPtrs device.Location),
                ("device.mac", .str device.Mac),
                ("device.model", .str device.Model),
                ("device.name", .str device.Name),
                ("device.network_id", .str device.NetworkID),
                ("device.notes", .str device.Notes),
                ("device.product_type", .str device.ProductType),
                ("device.serial", .str device.Serial),
                ("device.tags", .strs device.Tags) ])
              (GoMap.ofList
                [ ("device.uplink.interface", .str item.Interface),
                  ("device.uplink.status", .str item.Status),
                  ("device.uplink.ip", .str item.IP),
                  ("device.uplink.gateway", .str item.Gateway),
                  ("device.uplink.public_ip", .str item.PublicIP),
                  ("device.uplink.primary_dns", .str item.PrimaryDNS),
                  ("device.uplink.secondary_dns", .str item.SecondaryDNS),
                  ("device.uplink.ip_assigned_by", .str item.IPAssignedBy) ]))
        | _, _, _ => []) := by
  cases hd : devices.get uplink.Serial with
  | none =>
    have h : appendUplinkStatuses devices [] uplink = .ok [] := by
      simp only [appendUplinkStatuses, hd]
    rw [h]
    exact ⟨⟨fun _ _ hn => (by cases hn), fun _ => ⟨[], rfl⟩⟩, rfl⟩
  | some device =>
    cases hha : uplink.HighAvailability with
    | none =>
      have h : appendUplinkStatuses devices [] uplink = .error .nilDereference := by
        simp only [appendUplinkStatuses, hd, hha]
      rw [h]
      refine ⟨⟨fun hb => ?_, fun hw => ?_⟩, rfl⟩
      · obtain ⟨b, hb⟩ := hb
        cases hb
      · exact absurd rfl (hw device rfl).1
    | some highAvailability =>
      cases hitems : uplink.Uplinks with
      | none =>
        have h : appendUplinkStatuses devices [] uplink = .error .nilDereference := by
          simp only [appendUplinkStatuses, hd, hha, hitems]
        rw [h]
        refine ⟨⟨fun hb => ?_, fun hw => ?_⟩, rfl⟩
        · obtain ⟨b, hb⟩ := hb
          cases hb
        · exact absurd rfl (hw device rfl).2
      | some items =>
        rw [appendUplinkStatuses_of_get devices uplink device highAvailability items hd hha
          hitems]
        exact ⟨⟨fun _ d hd' => ⟨fun hn => (by cases hn), fun hn => (by cases hn)⟩,
          fun _ => ⟨_, rfl⟩⟩, rfl⟩

end device_uplinks_status_and_ha

namespace device_uplinks_loss_and_latency

/-- C4: for every inventory and sample list, an uplink whose device serial is not
in the inventory contributes no event and raises no error. The events emitted by
`reportDeviceUplinkMetrics` are exactly those of the uplinks whose serial is in the
inventory, in sample order: one event per data point, with the time and the values
of the data point and the model and serial of the device. The same holds for
`reportApplianceUplinkStatuses`, with one event per interface of a matched item,
whenever it returns; it returns exactly when every matched item carries its
high-availability block and its uplinks. Both functions have the same outcome on
the sample list and on its restriction to the inventory, and a sample that is not
in the inventory, alone, leaves the reporter as it was. -/
theorem unmatched_samples_dropped (reporter : Reporter) (organizationID : String)
    (devices : GoMap Serial Device) (uplinks : List Uplink)
    (response : List ResponseItemApplianceUplinkStatuses) :
    ∃ (toEvent : Uplink → Device → UplinkMetric → Event)
      (toStatusEvent : ResponseItemApplianceUplinkStatuses → Device → HighAvailability →
        ApplianceUplinkItem → Event),
      reportDeviceUplinkMetrics reporter organizationID devices uplinks =
        reporter ++ uplinks.flatMap (fun uplink =>
          match devices.get uplink.DeviceSerial with
          | some device => uplink.Metrics.map (toEvent uplink device)
          | none => []) ∧
      (∀ (uplink : Uplink) (device : Device) (sample : UplinkMetric),
        (toEvent uplink device sample).Timestamp = sample.Timestamp ∧
        (toEvent uplink device sample).ModuleFields.get "organization_id" =
          some (.str organizationID) ∧
        (toEvent uplink device sample).ModuleFields.get "uplink.loss_percent" =
          some (.floatPtr sample.LossPercent) ∧
        (toEvent uplink device sample).ModuleFields.get "uplink.latency_ms" =
          some (.floatPtr sample.LatencyMs) ∧
        (toEvent uplink device sample).ModuleFields.get "uplink.ip" = some (.str uplink.IP) ∧
        (toEvent uplink device sample).ModuleFields.get "upliink.interface" =
          some (.str uplink.Interface) ∧
        (toEvent uplink device sample).ModuleFields.get "device.model" =
          some (.str device.Model) ∧
        (toEvent uplink device sample).ModuleFields.get "device.serial" =
          some (.str device.Serial)) ∧
      reportDeviceUplinkMetrics reporter organizationID devices uplinks =
        reportDeviceUplinkMetrics reporter organizationID devices
          (uplinks.filter (fun uplink => (devices.get uplink.DeviceSerial).isSome)) ∧
      (∀ uplink : Uplink, devices.get uplink.DeviceSerial = none →
        reportDeviceUplinkMetrics reporter organizationID devices [uplink] = reporter) ∧
      (∀ events : Reporter,
        device_uplinks_status_and_ha.reportApplianceUplinkStatuses reporter organizationID
          devices response = .ok events →
        events = reporter ++ response.flatMap (fun uplink =>
          match devices.get uplink.Serial, uplink.HighAvailability, uplink.Uplinks with
          | some device, some highAvailability, some items =>
            items.map (toStatusEvent uplink device highAvailability)
          | _, _, _ => [])) ∧
      ((∃ events : Reporter,
        device_uplinks_status_and_ha.reportApplianceUplinkStatuses reporter organizationID
          devices response = .ok events) ↔
        ∀ uplink ∈ response, ∀ device, devices.get uplink.Serial = some device →
          uplink.HighAvailability ≠ none ∧ uplink.Uplinks ≠ none) ∧
      (∀ (uplink : ResponseItemApplianceUplinkStatuses) (device : Device)
          (highAvailability : HighAvailability) (item : ApplianceUplinkItem),
        (toStatusEvent uplink device highAvailability item).Timestamp = 0 ∧
        (toStatusEvent uplink device highAvailability item).ModuleFields.get
          "organization_id" = some (.str organizationID) ∧
        (toStatusEvent uplink device highAvailability item).ModuleFields.get
          "device.uplink.interface" = some (.str item.Interface) ∧
        (toStatusEvent uplink device highAvailability item).ModuleFields.get
          "device.uplink.status" = some (.str item.Status) ∧
        (toStatusEvent uplink device highAvailability item).ModuleFields.get
          "device.uplink.high_availablity.role" = some (.str highAvailability.Role) ∧
        (toStatusEvent uplink device highAvailability item).ModuleFields.get
          "device.uplink.last_reported_at" = some (.str uplink.LastReportedAt) ∧
        (toStatusEvent uplink device highAvailability item).ModuleFields.get
          "device.model" = some (.str device.Model) ∧
        (toStatusEvent uplink device highAvailability item).ModuleFields.get
          "device.serial" = some (.str device.Serial)) ∧
      device_uplinks_status_and_ha.reportApplianceUplinkStatuses reporter organizationID devices
          response =
        device_uplinks_status_and_ha.reportApplianceUplinkStatuses reporter organizationID devices
          (response.filter (fun uplink => (devices.get uplink.Serial).isSome)) ∧
      (∀ uplink : ResponseItemApplianceUplinkStatuses, devices.get uplink.Serial = none →
        device_uplinks_status_and_ha.reportApplianceUplinkStatuses reporter organizationID
          devices [uplink] = .ok reporter) := by
  have hsteps := foldlM_append_steps_ok (device_uplinks_status_and_ha.appendUplinkStatuses devices)
    (device_uplinks_status_and_ha.appendUplinkStatuses_append devices) response
  have hflat : response.flatMap (fun uplink =>
        match device_uplinks_status_and_ha.appendUplinkStatuses devices [] uplink with
        | .ok b => b
        | .error _ => []) =
      response.flatMap (fun uplink =>
        match devices.get uplink.Serial, uplink.HighAvailability, uplink.Uplinks with
        | some device, some highAvailability, some items =>
          items.map (fun item =>
            Union (GoMap.ofList
              [ ("device.uplink.high_availablity.enabled", .boolPtr highAvailability.Enabled),
                ("device.uplink.high_availablity.role", .str highAvailability.Role),
                ("device.uplink.last_reported_at", .str uplink.LastReportedAt),
                ("device.address", .str device.Address),
                ("device.firmware", .str device.Firmware),
                ("device.imei", .floatPtr device.Imei),
                ("device.lan_ip", .str device.LanIP),
                ("device.location", .floatPtrs device.Location),
                ("device.mac", .str device.Mac),
                ("device.model", .str device.Model),
                ("device.name", .str device.Name),
                ("device.network_id", .str device.NetworkID),
                ("device.notes", .str device.Notes),
                ("device.product_type", .str device.ProductType),
                ("device.serial", .str device.Serial),
                ("device.tags", .strs device.Tags) ])
              (GoMap.ofList
                [ ("device.uplink.interface", .str item.Interface),
                  ("device.uplink.status", .str item.Status),
                  ("device.uplink.ip", .str item.IP),
                  ("device.uplink.gateway", .str item.Gateway),
                  ("device.uplink.public_ip", .str item.PublicIP),
                  ("device.uplink.primary_dns", .str item.PrimaryDNS),
                  ("device.uplink.secondary_dns", .str item.SecondaryDNS),
                  ("device.uplink.ip_assigned_by", .str item.IPAssignedBy) ]))
        | _, _, _ => []) := by
    congr 1
    funext uplink
    exact (device_uplinks_status_and_ha.appendUplinkStatuses_cases devices uplink).2
  have hwf : (∀ x ∈ response, ∃ b,
        device_uplinks_status_and_ha.appendUplinkStatuses devices [] x = .ok b) ↔
      ∀ uplink ∈ response, ∀ device, devices.get uplink.Serial = some device →
        uplink.HighAvailability ≠ none ∧ uplink.Uplinks ≠ none :=
    ⟨fun h u hu => (device_uplinks_status_and_ha.appendUplinkStatuses_cases devices u).1.mp
        (h u hu),
      fun h u hu => (device_uplinks_status_and_ha.appendUplinkStatuses_cases devices u).1.mpr
        (h u hu)⟩
  refine ⟨fun uplink device sample => (reportMetric organizationID
      (Union (uplinkDeviceMetric uplink device) (GoMap.ofList
        [ ("@timestamp", .time sample.Timestamp),
          ("uplink.loss_percent", .floatPtr sample.LossPercent),
          ("uplink.latency_ms", .floatPtr sample.LatencyMs) ]))).1,
    fun uplink device highAvailability item => (reportMetric organizationID
      (Union (GoMap.ofList
          [ ("device.uplink.high_availablity.enabled", .boolPtr highAvailability.Enabled),
            ("device.uplink.high_availablity.role", .str highAvailability.Role),
            ("device.uplink.last_reported_at", .str uplink.LastReportedAt),
            ("device.address", .str device.Address),
            ("device.firmware", .str device.Firmware),
            ("device.imei", .floatPtr device.Imei),
            ("device.lan_ip", .str device.LanIP),
            ("device.location", .floatPtrs device.Location),
            ("device.mac", .str device.Mac),
            ("device.model", .str device.Model),
            ("device.name", .str device.Name),
            ("device.network_id", .str device.NetworkID),
            ("device.notes", .str device.Notes),
            ("device.product_type", .str device.ProductType),
            ("device.serial", .str device.Serial),
            ("device.tags", .strs device.Tags) ])
        (GoMap.ofList
          [ ("device.uplink.interface", .str item.Interface),
            ("device.uplink.status", .str item.Status),
            ("device.uplink.ip", .str item.IP),
            ("device.uplink.gateway", .str item.Gateway),
            ("device.uplink.public_ip", .str item.PublicIP),
            ("device.uplink.primary_dns", .str item.PrimaryDNS),
            ("device.uplink.secondary_dns", .str item.SecondaryDNS),
            ("device.uplink.ip_assigned_by", .str item.IPAssignedBy) ]))).1,
    reportDeviceUplinkMetrics_flatMap reporter organizationID devices uplinks,
    fun uplink device sample => uplink_event_fields organizationID uplink device sample,
    ?_, ?_, ?_, ?_, ?_, ?_, ?_⟩
  · rw [reportDeviceUplinkMetrics_eq, reportDeviceUplinkMetrics_eq]
    congr 1
    apply flatMap_filter_of_nil
    intro u hu
    have hnone : devices.get u.DeviceSerial = none := by
      cases hg : devices.get u.DeviceSerial with
      | none => rfl
      | some d => simp [hg] at hu
    simp [appendUplinkMetrics_of_get_none devices [] u hnone]
  · intro u hu
    simp [reportDeviceUplinkMetrics_eq, appendUplinkMetrics_of_get_none devices [] u hu]
  · intro events hev
    rw [device_uplinks_status_and_ha.reportApplianceUplinkStatuses_eq] at hev
    cases hl : response.foldlM (device_uplinks_status_and_ha.appendUplinkStatuses devices) []
      with
    | error e => rw [hl] at hev; cases hev
    | ok metrics =>
      rw [hl] at hev
      have hm := (hsteps.1 metrics hl).2
      rw [hflat] at hm
      rw [← Except.ok.inj hev, hm, List.map_flatMap]
      congr 2
      funext uplink
      cases devices.get uplink.Serial with
      | none => rfl
      | some device =>
        cases uplink.HighAvailability with
        | none => rfl
        | some highAvailability =>
          cases uplink.Uplinks with
          | none => rfl
          | some items => simp only [List.map_map]; rfl
  · rw [← hwf]
    constructor
    · rintro ⟨events, hev⟩
      rw [device_uplinks_status_and_ha.reportApplianceUplinkStatuses_eq] at hev
      cases hl : response.foldlM (device_uplinks_status_and_ha.appendUplinkStatuses devices) []
        with
      | error e => rw [hl] at hev; cases hev
      | ok metrics => exact (hsteps.1 metrics hl).1
    · intro hall
      rw [device_uplinks_status_and_ha.reportApplianceUplinkStatuses_eq, hsteps.2 hall]
      exact ⟨_, rfl⟩
  · intro uplink device highAvailability item
    have hget := fun k => device_uplinks_status_and_ha.get_status_event organizationID
      [ ("device.uplink.high_availablity.enabled", .boolPtr highAvailability.Enabled),
        ("device.uplink.high_availablity.role", .str highAvailability.Role),
        ("device.uplink.last_reported_at", .str uplink.LastReportedAt),
        ("device.address", .str device.Address),
        ("device.firmware", .str device.Firmware),
        ("device.imei", .floatPtr device.Imei),
        ("device.lan_ip", .str device.LanIP),
        ("device.location", .floatPtrs device.Location),
        ("device.mac", .str device.Mac),
        ("device.model", .str device.Model),
        ("device.name", .str device.Name),
        ("device.network_id", .str device.NetworkID),
        ("device.notes", .str device.Notes),
        ("device.product_type", .str device.ProductType),
        ("device.serial", .str device.Serial),
        ("device.tags", .strs device.Tags) ]
      [ ("device.uplink.interface", .str item.Interface),
        ("device.uplink.status", .str item.Status),
        ("device.uplink.ip", .str item.IP),
        ("device.uplink.gateway", .str item.Gateway),
        ("device.uplink.public_ip", .str item.PublicIP),
        ("device.uplink.primary_dns", .str item.PrimaryDNS),
        ("device.uplink.secondary_dns", .str item.SecondaryDNS),
        ("device.uplink.ip_assigned_by", .str item.IPAssignedBy) ]
      (by simp) (by simp) rfl rfl k
    refine ⟨(hget "").1, ?_, ?_, ?_, ?_, ?_, ?_, ?_⟩
    all_goals
      rw [(hget _).2]
      simp [GoMap.lookup]
  · unfold device_uplinks_status_and_ha.reportApplianceUplinkStatuses
    rw [foldlM_appendUplinkStatuses_filter]
  · intro u hu
    simp [device_uplinks_status_and_ha.reportApplianceUplinkStatuses,
      device_uplinks_status_and_ha.appendUplinkStatuses, hu, ReportMetricsForOrganization,
      reportMetricSlice]

end device_uplinks_loss_and_latency

namespace device_uplinks_loss_and_latency

/-- C4 on the scenario inventory, with samples of the unknown serial `S9` before
and after the sample of `S1`: the one event is that of `S1`, for the uplink samples
and for the appliance statuses alike, and nothing fails although the statuses of
`S9` carry neither a high-availability block nor uplinks. -/
theorem unmatched_samples_dropped_witness :
    ∃ event statusEvent : Event,
      reportDeviceUplinkMetrics [] "org1" (GoMap.ofList [("S1", scenarioDevice)])
        [ { DeviceSerial := "S9", IP := "", Interface := "wan1",
            Metrics := [{ Timestamp := 1, LossPercent := some 1, LatencyMs := none }] },
          scenarioUplink 1700000000,
          { DeviceSerial := "S9", IP := "", Interface := "wan2",
            Metrics := [{ Timestamp := 2, LossPercent := none, LatencyMs := some 3 }] } ] =
        [event] ∧
      event.Timestamp = 1700000000 ∧
      event.ModuleFields.get "device.serial" = some (.str "S1") ∧
      event.ModuleFields.get "uplink.latency_ms" = some (.floatPtr (some 10)) ∧
      device_uplinks_status_and_ha.reportApplianceUplinkStatuses [] "org1"
        (GoMap.ofList [("S1", scenarioDevice)])
        [ { HighAvailability := none, LastReportedAt := "", Model := "", NetworkID := "",
            Serial := "S9", Uplinks := none },
          { HighAvailability := some { Enabled := some false, Role := "primary" },
            LastReportedAt := "2024-01-01T00:00:00Z", Model := "X1", NetworkID := "",
            Serial := "S1",
            Uplinks := some [{ Gateway := "", Interface := "wan1", IP := "", IPAssignedBy := "",
                               PrimaryDNS := "", PublicIP := "", SecondaryDNS := "",
                               Status := "active" }] },
          { HighAvailability := none, LastReportedAt := "", Model := "", NetworkID := "",
            Serial := "S9", Uplinks := none } ] = .ok [statusEvent] ∧
      statusEvent.ModuleFields.get "device.serial" = some (.str "S1") ∧
      statusEvent.ModuleFields.get "device.uplink.interface" = some (.str "wan1") := by
  have h9 : (GoMap.ofList [("S1", scenarioDevice)]).get "S9" = none := by decide
  have h1 : (GoMap.ofList [("S1", scenarioDevice)]).get "S1" = some scenarioDevice := by decide
  obtain ⟨toEvent, toStatusEvent, hevents, hfields, _, _, hstatus, hreturns, hstatusFields, _, _⟩ :=
    unmatched_samples_dropped [] "org1" (GoMap.ofList [("S1", scenarioDevice)])
      [ { DeviceSerial := "S9", IP := "", Interface := "wan1",
          Metrics := [{ Timestamp := 1, LossPercent := some 1, LatencyMs := none }] },
        scenarioUplink 1700000000,
        { DeviceSerial := "S9", IP := "", Interface := "wan2",
          Metrics := [{ Timestamp := 2, LossPercent := none, LatencyMs := some 3 }] } ]
      [ { HighAvailability := none, LastReportedAt := "", Model := "", NetworkID := "",
          Serial := "S9", Uplinks := none },
        { HighAvailability := some { Enabled := some false, Role := "primary" },
          LastReportedAt := "2024-01-01T00:00:00Z", Model := "X1", NetworkID := "",
          Serial := "S1",
          Uplinks := some [{ Gateway := "", Interface := "wan1", IP := "", IPAssignedBy := "",
                             PrimaryDNS := "", PublicIP := "", SecondaryDNS := "",
                             Status := "active" }] },
        { HighAvailability := none, LastReportedAt := "", Model := "", NetworkID := "",
          Serial := "S9", Uplinks := none } ]
  have hf := hfields (scenarioUplink 1700000000) scenarioDevice
    (⟨1700000000, some (5 / 2), some 10⟩ : UplinkMetric)
  have hsf := hstatusFields
    (⟨some ⟨some false, "primary"⟩, "2024-01-01T00:00:00Z", "X1", "", "S1",
      some [⟨"", "wan1", "", "", "", "", "", "active"⟩]⟩ : ResponseItemApplianceUplinkStatuses)
    scenarioDevice (⟨some false, "primary"⟩ : HighAvailability)
    (⟨"", "wan1", "", "", "", "", "", "active"⟩ : ApplianceUplinkItem)
  obtain ⟨events, hok⟩ := hreturns.mpr (by
    intro uplink hu device hd
    simp only [List.mem_cons, List.mem_singleton, List.not_mem_nil, or_false] at hu
    rcases hu with rfl | rfl | rfl
    · rw [h9] at hd; cases hd
    · exact ⟨fun hn => (by cases hn), fun hn => (by cases hn)⟩
    · rw [h9] at hd; cases hd)
  have hev := hstatus events hok
  refine ⟨toEvent (scenarioUplink 1700000000) scenarioDevice
      (⟨1700000000, some (5 / 2), some 10⟩ : UplinkMetric),
    toStatusEvent
      (⟨some ⟨some false, "primary"⟩, "2024-01-01T00:00:00Z", "X1", "", "S1",
        some [⟨"", "wan1", "", "", "", "", "", "active"⟩]⟩ : ResponseItemApplianceUplinkStatuses)
      scenarioDevice (⟨some false, "primary"⟩ : HighAvailability)
      (⟨"", "wan1", "", "", "", "", "", "active"⟩ : ApplianceUplinkItem),
    ?_, hf.1, ?_, hf.2.2.2.1, ?_, ?_, hsf.2.2.1⟩
  · rw [hevents]
    simp only [List.flatMap_cons, List.flatMap_nil, h9, scenarioUplink, h1, List.nil_append,
      List.append_nil, List.map_cons, List.map_nil]
  · simpa [scenarioDevice] using hf.2.2.2.2.2.2.2
  · rw [hok, hev]
    simp only [List.flatMap_cons, List.flatMap_nil, h9, h1, List.nil_append,
      List.append_nil, List.map_cons, List.map_nil]
  · simpa [scenarioDevice] using hsf.2.2.2.2.2.2.2

end device_uplinks_loss_and_latency

end Meraki

namespace Meraki

/-! ## Pruning the inventory -/

theorem strings.indexFrom_ne_zero (substr : List Char) (l : List Char) (i : Nat) (hi : 0 < i) :
    strings.indexFrom substr l i ≠ 0 := by
  induction l generalizing i with
  | nil =>
    unfold strings.indexFrom
    split
    · exact_mod_cast Nat.pos_iff_ne_zero.mp hi
    · decide
  | cons c rest ih =>
    unfold strings.indexFrom
    split
    · exact_mod_cast Nat.pos_iff_ne_zero.mp hi
    · exact ih (i + c.utf8Size) (by omega)

/-- Go `strings.Index(s, substr) == 0` says that `s` starts with `substr`. -/
theorem strings.Index_eq_zero_iff (s substr : String) :
    strings.Index s substr = 0 ↔ substr.data.isPrefixOf s.data = true := by
  unfold strings.Index
  cases hs : s.data with
  | nil =>
    unfold strings.indexFrom
    by_cases hp : substr.data.isPrefixOf [] = true
    · simp [hp]
    · simp [hp]
  | cons c rest =>
    unfold strings.indexFrom
    by_cases hp : substr.data.isPrefixOf (c :: rest) = true
    · simp [hp]
    · simp only [hp, if_false, Bool.false_eq_true, iff_false]
      exact strings.indexFrom_ne_zero substr.data rest (0 + c.utf8Size)
        (by have := Char.utf8Size_pos c; omega)

theorem strings.isPrefixOf_iff_append (s substr : String) :
    substr.data.isPrefixOf s.data = true ↔ ∃ rest : String, s = substr ++ rest := by
  rw [ List.isPrefixOf_iff_prefix]
  constructor
  · rintro ⟨t, ht⟩
    refine ⟨⟨t⟩, String.ext ?_⟩
    rw [String.data_append, ht]
  · rintro ⟨rest, rfl⟩
    rw [String.data_append]
    exact List.prefix_append _ _

theorem GoMap.ext_entries {κ α : Type} [DecidableEq κ] (a b : GoMap κ α)
    (h : a.entries = b.entries) : a = b := by
  cases a
  cases b
  simp only [GoMap.mk.injEq]
  exact h

theorem GoMap.put_entries_of_not_mem {κ α : Type} [DecidableEq κ] (m : GoMap κ α) (k : κ)
    (v : α) (h : k ∉ m.entries.map Prod.fst) : (m.put k v).entries = m.entries ++ [(k, v)] := by
  have hfilter : m.entries.filter (fun e => !decide (e.1 = k)) = m.entries := by
    apply List.filter_eq_self.mpr
    intro e he
    have hne : ¬ e.1 = k := fun heq => h (heq ▸ List.mem_map.mpr ⟨e, he, rfl⟩)
    simp [hne]
  simp only [GoMap.put, hfilter]

/-- A loop that writes the selected entries of a key-unique list into a map
that has none of its keys: the selected entries are appended in order. -/
theorem GoMap.foldl_put_if {κ α : Type} [DecidableEq κ] (p : κ × α → Bool)
    (l : List (κ × α)) (hl : (l.map Prod.fst).Nodup) (m : GoMap κ α)
    (hm : ∀ k ∈ l.map Prod.fst, k ∉ m.entries.map Prod.fst) :
    (l.foldl (fun (acc : GoMap κ α) kv => if p kv = true then acc.put kv.1 kv.2 else acc)
      m).entries = m.entries ++ l.filter p := by
  induction l generalizing m with
  | nil => simp
  | cons e rest ih =>
    simp only [List.map_cons, List.nodup_cons] at hl
    have he : e.1 ∉ m.entries.map Prod.fst := hm e.1 (by simp)
    rw [List.foldl_cons]
    by_cases hp : p e = true
    · simp only [hp, if_true]
      rw [ih hl.2 (m.put e.1 e.2)]
      · rw [GoMap.put_entries_of_not_mem m e.1 e.2 he, List.filter_cons_of_pos hp]
        simp
      · intro k hk
        rw [GoMap.put_entries_of_not_mem m e.1 e.2 he]
        simp only [List.map_append, List.map_cons, List.map_nil, List.mem_append,
          List.mem_singleton, not_or]
        refine ⟨hm k (by simp only [List.map_cons, List.mem_cons]; exact Or.inr hk), ?_⟩
        intro hke
        exact hl.1 (hke ▸ hk)
    · simp only [hp, Bool.false_eq_true, if_false]
      rw [ih hl.2 m (fun k hk => hm k (by
        simp only [List.map_cons, List.mem_cons]; exact Or.inr hk))]
      have hp' : ¬ p e = true := hp
      rw [List.filter_cons_of_neg hp']

theorem GoMap.lookup_filter_values {κ α : Type} [DecidableEq κ] (p : κ × α → Bool) (k : κ)
    (l : List (κ × α)) (hl : (l.map Prod.fst).Nodup) :
    GoMap.lookup k (l.filter p) =
      match GoMap.lookup k l with
      | some v => if p (k, v) = true then some v else none
      | none => none := by
  induction l with
  | nil => rfl
  | cons e rest ih =>
    obtain ⟨k', v'⟩ := e
    simp only [List.map_cons, List.nodup_cons] at hl
    by_cases hk : k' = k
    · subst hk
      have hnone : GoMap.lookup k' rest = none := GoMap.lookup_eq_none_of_not_mem _ _ hl.1
      have hnone' : GoMap.lookup k' (rest.filter p) = none := by
        rw [ih hl.2, hnone]
      by_cases hp : p (k', v') = true
      · simp [List.filter_cons, hp, GoMap.lookup]
      · simp [List.filter_cons, hp, GoMap.lookup, hnone']
    · by_cases hp : p (k', v') = true
      · simp [List.filter_cons, hp, GoMap.lookup, hk, ih hl.2]
      · simp [List.filter_cons, hp, GoMap.lookup, hk, ih hl.2]

namespace device_performance_score

/-- The entries of the pruned map: those of the inventory whose model has `MX` at
index 0, in the order of the iteration. -/
theorem pruneDevicesForMxOnly_entries (devices : GoMap Serial Device) :
    (pruneDevicesForMxOnly devices).entries =
      devices.entries.filter (fun kv => decide (strings.Index kv.2.Model "MX" = 0)) := by
  have hfun : (fun (mx_devices : GoMap Serial Device) (kv : Serial × Device) =>
        if strings.Index kv.2.Model "MX" = 0 then mx_devices.put kv.1 kv.2 else mx_devices) =
      (fun (acc : GoMap Serial Device) kv =>
        if (fun kv : Serial × Device => decide (strings.Index kv.2.Model "MX" = 0)) kv = true
        then acc.put kv.1 kv.2 else acc) := by
    funext acc kv
    simp only [decide_eq_true_eq]
  unfold pruneDevicesForMxOnly
  rw [hfun, GoMap.foldl_put_if _ devices.entries devices.nodup GoMap.empty
    (fun k _ hk => by cases hk)]
  rfl

/-- C22: for every inventory map, `pruneDevicesForMxOnly` returns exactly the
entries whose model starts with `MX`, under the same keys and with the same
devices: a serial of the inventory is a key of the result if and only if its
device's model starts with `MX`, and then it holds that device. The result is a
fresh map built from the entries of the input, which is only read. Pruning is
idempotent: pruning the result again returns the same map. -/
theorem pruneDevicesForMxOnly_spec (devices : GoMap Serial Device) :
    (∀ serial : Serial,
      (pruneDevicesForMxOnly devices).get serial =
        match devices.get serial with
        | some device => if "MX".data.isPrefixOf device.Model.data = true then some device else none
        | none => none) ∧
    (pruneDevicesForMxOnly devices).entries =
      devices.entries.filter (fun kv => "MX".data.isPrefixOf kv.2.Model.data) ∧
    (∀ model : String,
      strings.Index model "MX" = 0 ↔ "MX".data.isPrefixOf model.data = true) ∧
    (∀ model : String,
      "MX".data.isPrefixOf model.data = true ↔ ∃ rest : String, model = "MX" ++ rest) ∧
    pruneDevicesForMxOnly (pruneDevicesForMxOnly devices) = pruneDevicesForMxOnly devices := by
  have hp : (fun kv : Serial × Device => decide (strings.Index kv.2.Model "MX" = 0)) =
      (fun kv : Serial × Device => "MX".data.isPrefixOf kv.2.Model.data) := by
    funext kv
    cases h : "MX".data.isPrefixOf kv.2.Model.data with
    | true => exact decide_eq_true ((strings.Index_eq_zero_iff _ _).mpr h)
    | false =>
      apply decide_eq_false
      intro h0
      rw [(strings.Index_eq_zero_iff _ _).mp h0] at h
      cases h
  have hentries : (pruneDevicesForMxOnly devices).entries =
      devices.entries.filter (fun kv => "MX".data.isPrefixOf kv.2.Model.data) := by
    rw [pruneDevicesForMxOnly_entries, hp]
  refine ⟨?_, hentries, fun model => strings.Index_eq_zero_iff model "MX",
    fun model => strings.isPrefixOf_iff_append model "MX", ?_⟩
  · intro serial
    show GoMap.lookup serial (pruneDevicesForMxOnly devices).entries = _
    rw [hentries, GoMap.lookup_filter_values _ serial devices.entries devices.nodup]
    unfold GoMap.get
    cases GoMap.lookup serial devices.entries <;> rfl
  · apply GoMap.ext_entries
    rw [pruneDevicesForMxOnly_entries (pruneDevicesForMxOnly devices), hp, hentries,
      List.filter_filter]
    simp

end device_performance_score

namespace device_performance_score

/-- C22 on an inventory with the appliance `Q1` (model `MX67`) and the switch
`Q3` (model `MS120`): only `Q1` is kept, and pruning again changes nothing. -/
theorem pruneDevicesForMxOnly_spec_witness :
    (pruneDevicesForMxOnly scenarioMixed).get "Q1" =
        some (deviceLiteral (scenarioEntry "Q1" "MX67" none none none none)) ∧
      (pruneDevicesForMxOnly scenarioMixed).get "Q3" = none ∧
      (pruneDevicesForMxOnly scenarioMixed).len = 1 ∧
      pruneDevicesForMxOnly (pruneDevicesForMxOnly scenarioMixed) =
        pruneDevicesForMxOnly scenarioMixed := by
  have h := pruneDevicesForMxOnly_spec scenarioMixed
  refine ⟨?_, ?_, ?_, h.2.2.2.2⟩
  · rw [h.1 "Q1"]; decide
  · rw [h.1 "Q3"]; decide
  · show (pruneDevicesForMxOnly scenarioMixed).entries.length = 1
    rw [h.2.1]; decide

end device_performance_score

/-! ## The correlation on maps held in memory -/

namespace device_uplinks_loss_and_latency

theorem Memory.fieldsAt_store_self (memory : Memory) (a : Nat) (m : M) :
    (memory.store a m).fieldsAt a = m := by
  simp [Memory.store, Memory.fieldsAt]

theorem Memory.cells_store_ne (memory : Memory) (a b : Nat) (m : M) (h : b ≠ a) :
    (memory.store a m).cells b = memory.cells b := by
  simp [Memory.store, h]

theorem Memory.fieldsAt_congr (memory memory' : Memory) (a : Nat)
    (h : memory'.cells a = memory.cells a) : memory'.fieldsAt a = memory.fieldsAt a := by
  simp only [Memory.fieldsAt, h]

theorem Memory.detailsAt_congr (memory memory' : Memory) (a : Option Nat)
    (h : ∀ b, a = some b → memory'.cells b = memory.cells b) :
    memory'.detailsAt a = memory.detailsAt a := by
  cases a with
  | none => rfl
  | some b => simp only [Memory.detailsAt, h b rfl]

theorem Memory.cells_alloc_of_lt (memory : Memory) (object : MapObject) (a : Nat)
    (h : a < memory.next) : (memory.alloc object).1.cells a = memory.cells a := by
  have hne : a ≠ memory.next := by omega
  simp [Memory.alloc, hne]

theorem Memory.fieldsAt_alloc_self (memory : Memory) (m : M) :
    (memory.alloc (.fields m)).1.fieldsAt memory.next = m := by
  simp [Memory.alloc, Memory.fieldsAt]

/-- The inventory that a memory holds depends on the detail maps only. -/
theorem loadDevices_congr (memory memory' : Memory) (devices : GoMap Serial DeviceRef)
    (hvalid : ∀ serial device a, devices.get serial = some device → device.Details = some a →
      a < memory.next)
    (h : ∀ a < memory.next, memory'.cells a = memory.cells a) :
    loadDevices memory' devices = loadDevices memory devices := by
  apply GoMap.ext_entries
  simp only [loadDevices]
  apply List.map_congr_left
  intro e he
  have hget : devices.get e.1 = some e.2 :=
    GoMap.lookup_of_mem_nodup e.1 e.2 devices.entries devices.nodup he
  have hd : memory'.detailsAt e.2.Details = memory.detailsAt e.2.Details :=
    Memory.detailsAt_congr memory memory' _ (fun b hb => h b (hvalid e.1 e.2 b hget hb))
  simp only [DeviceRef.load, hd]

/-- A lookup in the inventory that a memory holds. -/
theorem get_loadDevices (memory : Memory) (devices : GoMap Serial DeviceRef) (serial : Serial) :
    (loadDevices memory devices).get serial =
      (devices.get serial).map (fun device => device.load memory) := by
  simp only [loadDevices, GoMap.get]
  induction devices.entries with
  | nil => rfl
  | cons e rest ih =>
    obtain ⟨k, v⟩ := e
    by_cases hk : k = serial
    · simp [GoMap.lookup, hk]
    · simp [GoMap.lookup, hk, ih]

/-- The loop that writes the details into `metric`: it writes to the map behind
`metric` only, and leaves there what the loop on values leaves. -/
theorem store_details_fold (a : Nat) (l : List (String × String)) (memory : Memory) :
    (l.foldl (storeDetail a) memory).next = memory.next ∧
    (∀ b, b ≠ a → (l.foldl (storeDetail a) memory).cells b = memory.cells b) ∧
    (l.foldl (storeDetail a) memory).fieldsAt a =
      l.foldl (fun (metric : M) kv => metric.put ("device.details." ++ kv.1) (.str kv.2))
        (memory.fieldsAt a) := by
  induction l generalizing memory with
  | nil => exact ⟨rfl, fun _ _ => rfl, rfl⟩
  | cons kv rest ih =>
    obtain ⟨h1, h2, h3⟩ := ih (storeDetail a memory kv)
    simp only [List.foldl_cons]
    refine ⟨h1, ?_, ?_⟩
    · intro b hb
      rw [h2 b hb]
      exact Memory.cells_store_ne _ _ _ _ hb
    · rw [h3]
      simp only [storeDetail, Memory.fieldsAt_store_self]

/-- One data point: a new literal map at the next address, and the new map of
the union right after it. -/
theorem appendUnion_eq (metric : Nat) (memory : Memory) (metrics : List Nat)
    (sample : UplinkMetric) (hmetric : metric < memory.next) :
    ∃ result : Memory,
      appendUnion metric (memory, metrics) sample = (result, metrics ++ [memory.next + 1]) ∧
      result.next = memory.next + 2 ∧
      (∀ b < memory.next, result.cells b = memory.cells b) ∧
      result.fieldsAt (memory.next + 1) =
        Union (memory.fieldsAt metric) (GoMap.ofList
          [ ("@timestamp", .time sample.Timestamp),
            ("uplink.loss_percent", .floatPtr sample.LossPercent),
            ("uplink.latency_ms", .floatPtr sample.LatencyMs) ]) := by
  refine ⟨_, rfl, rfl, ?_, ?_⟩
  · intro b hb
    have h1 : b ≠ memory.next := by omega
    have h2 : b ≠ memory.next + 1 := by omega
    simp [UnionInMemory, Memory.alloc, h1, h2]
  · have h1 : metric ≠ memory.next := by omega
    simp [UnionInMemory, Memory.alloc, Memory.fieldsAt, h1]

/-- The loop over the data points of an uplink: every map it makes is new, no map
that exists is written to, and the maps appended to `metrics` hold what the loop
on values appends. -/
theorem union_fold (metric : Nat) (samples : List UplinkMetric) (memory : Memory)
    (metrics : List Nat) (hmetric : metric < memory.next) :
    ∃ (result : Memory) (new : List Nat),
      samples.foldl (appendUnion metric) (memory, metrics) = (result, metrics ++ new) ∧
      memory.next ≤ result.next ∧
      (∀ b < memory.next, result.cells b = memory.cells b) ∧
      (∀ a ∈ new, memory.next ≤ a ∧ a < result.next) ∧
      new.Nodup ∧
      new.map result.fieldsAt = samples.map (fun uplinkMetric =>
        Union (memory.fieldsAt metric) (GoMap.ofList
          [ ("@timestamp", .time uplinkMetric.Timestamp),
            ("uplink.loss_percent", .floatPtr uplinkMetric.LossPercent),
            ("uplink.latency_ms", .floatPtr uplinkMetric.LatencyMs) ])) := by
  induction samples generalizing memory metrics with
  | nil => exact ⟨memory, [], by simp, le_refl _, fun _ _ => rfl, fun _ h => (by cases h),
      List.nodup_nil, rfl⟩
  | cons sample rest ih =>
    obtain ⟨memory2, hstep, hn2, hc2, hu⟩ := appendUnion_eq metric memory metrics sample hmetric
    obtain ⟨result, new, hrun, hnext, hframe, hrange, hnodup, hmap⟩ :=
      ih memory2 (metrics ++ [memory.next + 1]) (by omega)
    refine ⟨result, (memory.next + 1) :: new, ?_, by omega, ?_, ?_, ?_, ?_⟩
    · rw [List.foldl_cons, hstep, hrun, List.append_assoc, List.singleton_append]
    · intro b hb
      rw [hframe b (by omega), hc2 b hb]
    · intro a ha
      rcases List.mem_cons.mp ha with rfl | ha'
      · omega
      · have := hrange a ha'
        omega
    · refine List.nodup_cons.mpr ⟨fun hin => ?_, hnodup⟩
      have := hrange _ hin
      omega
    · have hmetric2 : memory2.fieldsAt metric = memory.fieldsAt metric :=
        Memory.fieldsAt_congr memory memory2 metric (hc2 metric hmetric)
      rw [List.map_cons, List.map_cons, hmap, hmetric2,
        Memory.fieldsAt_congr memory2 result _ (hframe _ (by omega)), hu]

end device_uplinks_loss_and_latency

namespace device_uplinks_loss_and_latency

/-- The body of the loop of `reportDeviceUplinkMetrics`, on references: every map
it makes is new, no map that exists is written to, and the maps appended to
`metrics` hold what the body on values appends for the inventory that the memory
holds. -/
theorem appendUplinkMetricsInMemory_spec (devices : GoMap Serial DeviceRef) (memory : Memory)
    (metrics : List Nat) (uplink : Uplink)
    (hvalid : ∀ serial device a, devices.get serial = some device → device.Details = some a →
      a < memory.next) :
    ∃ (result : Memory) (new : List Nat),
      appendUplinkMetricsInMemory devices (memory, metrics) uplink = (result, metrics ++ new) ∧
      memory.next ≤ result.next ∧
      (∀ b < memory.next, result.cells b = memory.cells b) ∧
      (∀ a ∈ new, memory.next ≤ a ∧ a < result.next) ∧
      new.Nodup ∧
      new.map result.fieldsAt = appendUplinkMetrics (loadDevices memory devices) [] uplink := by
  cases hd : devices.get uplink.DeviceSerial with
  | none =>
    have hnone : (loadDevices memory devices).get uplink.DeviceSerial = none := by
      rw [get_loadDevices, hd]; rfl
    refine ⟨memory, [], ?_, le_refl _, fun _ _ => rfl, fun _ h => (by cases h),
      List.nodup_nil, ?_⟩
    · simp only [appendUplinkMetricsInMemory, hd, List.append_nil]
    · rw [appendUplinkMetrics_of_get_none _ _ _ hnone]; rfl
  | some device =>
    have hsome : (loadDevices memory devices).get uplink.DeviceSerial =
        some (device.load memory) := by
      rw [get_loadDevices, hd]; rfl
    -- the new metric map
    generalize hm1 : (memory.alloc (.fields (GoMap.ofList
      [ ("uplink.ip", Value.str uplink.IP),
        ("upliink.interface", .str uplink.Interface),
        ("device.address", .str device.Address),
        ("device.firmware", .str device.Firmware),
        ("device.imei", .floatPtr device.Imei),
        ("device.lan_ip", .str device.LanIP),
        ("device.location", .floatPtrs device.Location),
        ("device.mac", .str device.Mac),
        ("device.model", .str device.Model),
        ("device.name", .str device.Name),
        ("device.network_id", .str device.NetworkID),
        ("device.notes", .str device.Notes),
        ("device.product_type", .str device.ProductType),
        ("device.serial", .str device.Serial),
        ("device.tags", .strs device.Tags) ]))).1 = memory1
    have hn1 : memory1.next = memory.next + 1 := by rw [← hm1]; rfl
    have hc1 : ∀ b < memory.next, memory1.cells b = memory.cells b := by
      intro b hb; rw [← hm1]; exact Memory.cells_alloc_of_lt _ _ _ hb
    have hf1 : memory1.fieldsAt memory.next = GoMap.ofList
      [ ("uplink.ip", Value.str uplink.IP),
        ("upliink.interface", .str uplink.Interface),
        ("device.address", .str device.Address),
        ("device.firmware", .str device.Firmware),
        ("device.imei", .floatPtr device.Imei),
        ("device.lan_ip", .str device.LanIP),
        ("device.location", .floatPtrs device.Location),
        ("device.mac", .str device.Mac),
        ("device.model", .str device.Model),
        ("device.name", .str device.Name),
        ("device.network_id", .str device.NetworkID),
        ("device.notes", .str device.Notes),
        ("device.product_type", .str device.ProductType),
        ("device.serial", .str device.Serial),
        ("device.tags", .strs device.Tags) ] := by
      rw [← hm1]; exact Memory.fieldsAt_alloc_self _ _
    have hdet : memory1.detailsAt device.Details = memory.detailsAt device.Details :=
      Memory.detailsAt_congr memory memory1 _
        (fun b hb => hc1 b (hvalid _ device b hd hb))
    have hrun : appendUplinkMetricsInMemory devices (memory, metrics) uplink =
        uplink.Metrics.foldl (appendUnion memory.next)
          ((rangeMap (memory.detailsAt device.Details)).foldl (storeDetail memory.next) memory1,
            metrics) := by
      simp only [appendUplinkMetricsInMemory, hd]
      rw [← hdet, ← hm1]
      rfl
    obtain ⟨h2n, h2c, h2f⟩ := store_details_fold memory.next
      (rangeMap (memory.detailsAt device.Details)) memory1
    generalize hm2 : (rangeMap (memory.detailsAt device.Details)).foldl
      (storeDetail memory.next) memory1 = memory2 at hrun h2n h2c h2f
    have hmetric : memory2.fieldsAt memory.next = uplinkDeviceMetric uplink (device.load memory) := by
      rw [h2f, hf1]
      rfl
    obtain ⟨result, new, hfold, hnext, hframe, hrange, hnodup, hmap⟩ :=
      union_fold memory.next uplink.Metrics memory2 metrics (by omega)
    refine ⟨result, new, ?_, by omega, ?_, ?_, hnodup, ?_⟩
    · rw [hrun, hfold]
    · intro b hb
      rw [hframe b (by omega), h2c b (by omega), hc1 b hb]
    · intro a ha
      have := hrange a ha
      omega
    · rw [hmap, hmetric, appendUplinkMetrics_of_get _ _ _ hsome]

/-- The loop of `reportDeviceUplinkMetrics` over the uplinks, on references. -/
theorem foldl_appendUplinkMetricsInMemory_spec (devices : GoMap Serial DeviceRef)
    (uplinks : List Uplink) (memory : Memory) (metrics : List Nat)
    (hvalid : ∀ serial device a, devices.get serial = some device → device.Details = some a →
      a < memory.next) :
    ∃ (result : Memory) (new : List Nat),
      uplinks.foldl (appendUplinkMetricsInMemory devices) (memory, metrics) =
        (result, metrics ++ new) ∧
      memory.next ≤ result.next ∧
      (∀ b < memory.next, result.cells b = memory.cells b) ∧
      (∀ a ∈ new, memory.next ≤ a ∧ a < result.next) ∧
      new.Nodup ∧
      new.map result.fieldsAt =
        uplinks.flatMap (appendUplinkMetrics (loadDevices memory devices) []) := by
  induction uplinks generalizing memory metrics with
  | nil => exact ⟨memory, [], by simp, le_refl _, fun _ _ => rfl, fun _ h => (by cases h),
      List.nodup_nil, rfl⟩
  | cons uplink rest ih =>
    obtain ⟨memory1, new1, hstep, hn1, hc1, hr1, hnd1, hmap1⟩ :=
      appendUplinkMetricsInMemory_spec devices memory metrics uplink hvalid
    have hvalid1 : ∀ serial device a, devices.get serial = some device →
        device.Details = some a → a < memory1.next :=
      fun serial device a hg hd => lt_of_lt_of_le (hvalid serial device a hg hd) hn1
    obtain ⟨result, new2, hrun, hn2, hc2, hr2, hnd2, hmap2⟩ :=
      ih memory1 (metrics ++ new1) hvalid1
    have hload : loadDevices memory1 devices = loadDevices memory devices :=
      loadDevices_congr memory memory1 devices hvalid hc1
    refine ⟨result, new1 ++ new2, ?_, by omega, ?_, ?_, ?_, ?_⟩
    · rw [List.foldl_cons, hstep, hrun, List.append_assoc]
    · intro b hb
      rw [hc2 b (by omega), hc1 b hb]
    · intro a ha
      rcases List.mem_append.mp ha with h | h
      · have := hr1 a h
        omega
      · have := hr2 a h
        omega
    · refine List.nodup_append.mpr ⟨hnd1, hnd2, ?_⟩
      intro a h1 h2
      have := hr1 a h1
      have := hr2 a h2
      omega
    · rw [List.map_append, hmap2, hload, List.flatMap_cons, ← hmap1]
      congr 1
      apply List.map_congr_left
      intro a ha
      exact Memory.fieldsAt_congr memory1 result a (hc2 a (hr1 a ha).2)

/-- One iteration of the emission, on references: the map of the event is new,
the only map written to besides it is the metric map, and the event holds what
the iteration on values gives it. -/
theorem reportMetricInMemory_spec (organizationID : String) (memory : Memory)
    (reporter : List EventRef) (metric : Nat) (hmetric : metric < memory.next) :
    ∃ result : Memory,
      reportMetricInMemory organizationID (memory, reporter) metric =
        (result, reporter ++
          [{ Timestamp := (reportMetric organizationID (memory.fieldsAt metric)).1.Timestamp,
             ModuleFields := memory.next }]) ∧
      result.next = memory.next + 1 ∧
      (∀ b < memory.next, b ≠ metric → result.cells b = memory.cells b) ∧
      result.fieldsAt memory.next =
        (reportMetric organizationID (memory.fieldsAt metric)).1.ModuleFields := by
  have hne : metric ≠ memory.next := by omega
  have hm : (memory.alloc (.fields (GoMap.ofList
      [("organization_id", Value.str organizationID)]))).1.fieldsAt metric =
      memory.fieldsAt metric :=
    Memory.fieldsAt_congr _ _ _ (Memory.cells_alloc_of_lt _ _ _ hmetric)
  by_cases hts : ∃ ts, (memory.fieldsAt metric).get "@timestamp" = some (.time ts)
  · obtain ⟨ts, hts⟩ := hts
    rw [reportMetric_of_time _ _ _ hts]
    have hrun : reportMetricInMemory organizationID (memory, reporter) metric =
        ((((memory.alloc (.fields (GoMap.ofList
            [("organization_id", Value.str organizationID)]))).1.store metric
            ((memory.fieldsAt metric).delete "@timestamp")).store memory.next
          (M.Update
            ((((memory.alloc (.fields (GoMap.ofList
              [("organization_id", Value.str organizationID)]))).1.store metric
              ((memory.fieldsAt metric).delete "@timestamp"))).fieldsAt memory.next)
            ((((memory.alloc (.fields (GoMap.ofList
              [("organization_id", Value.str organizationID)]))).1.store metric
              ((memory.fieldsAt metric).delete "@timestamp"))).fieldsAt metric))),
          reporter ++ [{ Timestamp := ts, ModuleFields := memory.next }]) := by
      simp only [reportMetricInMemory, hm, hts]
      rfl
    refine ⟨_, hrun, rfl, ?_, ?_⟩
    · intro b hb hbm
      have hb' : b ≠ memory.next := by omega
      simp [Memory.store, Memory.alloc, hb', hbm]
    · simp [Memory.store, Memory.alloc, Memory.fieldsAt, hne, hne.symm]
  · have hno : ∀ ts, (memory.fieldsAt metric).get "@timestamp" ≠ some (.time ts) :=
      fun ts h => hts ⟨ts, h⟩
    rw [reportMetric_of_no_time _ _ hno]
    have hrun : reportMetricInMemory organizationID (memory, reporter) metric =
        (((memory.alloc (.fields (GoMap.ofList
            [("organization_id", Value.str organizationID)]))).1.store memory.next
          (M.Update ((memory.alloc (.fields (GoMap.ofList
            [("organization_id", Value.str organizationID)]))).1.fieldsAt memory.next)
            ((memory.alloc (.fields (GoMap.ofList
            [("organization_id", Value.str organizationID)]))).1.fieldsAt metric))),
          reporter ++ [{ Timestamp := 0, ModuleFields := memory.next }]) := by
      simp only [reportMetricInMemory, hm]
      rfl
    refine ⟨_, hrun, rfl, ?_, ?_⟩
    · intro b hb hbm
      have hb' : b ≠ memory.next := by omega
      simp [Memory.store, Memory.alloc, hb']
    · simp [Memory.store, Memory.alloc, Memory.fieldsAt, hne]

/-- The emission over the metric maps, on references: the maps of the events are
new, no map that exists is written to besides the metric maps, and the events hold
what the emission on values gives them. -/
theorem foldl_reportMetricInMemory_spec (organizationID : String) (metrics : List Nat)
    (memory : Memory) (reporter : List EventRef)
    (hrange : ∀ a ∈ metrics, a < memory.next) (hnodup : metrics.Nodup) :
    ∃ (result : Memory) (events : List EventRef),
      metrics.foldl (reportMetricInMemory organizationID) (memory, reporter) =
        (result, reporter ++ events) ∧
      memory.next ≤ result.next ∧
      (∀ b < memory.next, b ∉ metrics → result.cells b = memory.cells b) ∧
      (∀ event ∈ events, memory.next ≤ event.ModuleFields ∧ event.ModuleFields < result.next) ∧
      readEvents result events =
        metrics.map (fun a => (reportMetric organizationID (memory.fieldsAt a)).1) := by
  induction metrics generalizing memory reporter with
  | nil => exact ⟨memory, [], by simp, le_refl _, fun _ _ _ => rfl, fun _ h => (by cases h), rfl⟩
  | cons a rest ih =>
    have ha : a < memory.next := hrange a (List.mem_cons_self _ _)
    obtain ⟨hnotin, hnodup'⟩ := List.nodup_cons.mp hnodup
    obtain ⟨memory1, hstep, hn1, hc1, hf1⟩ :=
      reportMetricInMemory_spec organizationID memory reporter a ha
    have hrange' : ∀ b ∈ rest, b < memory1.next := by
      intro b hb
      have := hrange b (List.mem_cons_of_mem _ hb)
      omega
    obtain ⟨result, events, hrun, hn2, hc2, hr2, hread⟩ := ih memory1
      (reporter ++
        [{ Timestamp := (reportMetric organizationID (memory.fieldsAt a)).1.Timestamp,
           ModuleFields := memory.next }]) hrange' hnodup'
    have hfresh : memory.next ∉ rest := by
      intro hin
      have := hrange _ (List.mem_cons_of_mem _ hin)
      omega
    refine ⟨result,
      { Timestamp := (reportMetric organizationID (memory.fieldsAt a)).1.Timestamp,
        ModuleFields := memory.next } :: events, ?_, by omega, ?_, ?_, ?_⟩
    · rw [List.foldl_cons, hstep, hrun, List.append_assoc, List.singleton_append]
    · intro b hb hbn
      have hba : b ≠ a := fun h => hbn (h ▸ List.mem_cons_self _ _)
      have hbr : b ∉ rest := fun h => hbn (List.mem_cons_of_mem _ h)
      rw [hc2 b (by omega) hbr, hc1 b hb hba]
    · intro event he
      rcases List.mem_cons.mp he with rfl | he'
      · simp only
        omega
      · have := hr2 event he'
        omega
    · have hhead : result.fieldsAt memory.next =
          (reportMetric organizationID (memory.fieldsAt a)).1.ModuleFields := by
        rw [Memory.fieldsAt_congr memory1 result _ (hc2 _ (by omega) hfresh), hf1]
      have htail : rest.map (fun b => (reportMetric organizationID (memory1.fieldsAt b)).1) =
          rest.map (fun b => (reportMetric organizationID (memory.fieldsAt b)).1) := by
        apply List.map_congr_left
        intro b hb
        have hba : b ≠ a := fun h => hnotin (h ▸ hb)
        rw [Memory.fieldsAt_congr memory memory1 b
          (hc1 b (hrange b (List.mem_cons_of_mem _ hb)) hba)]
      have hcons : readEvents result
          ({ Timestamp := (reportMetric organizationID (memory.fieldsAt a)).1.Timestamp,
             ModuleFields := memory.next } :: events) =
          { Timestamp := (reportMetric organizationID (memory.fieldsAt a)).1.Timestamp,
            ModuleFields := result.fieldsAt memory.next } :: readEvents result events := rfl
      rw [hcons, hread, htail, hhead, List.map_cons]

/-- Go `reportDeviceUplinkMetrics` on references: the events it hands to the
reporter hold what the function on values emits for the inventory that the memory
holds; their maps are new, and no map that exists before the call is written to. -/
theorem reportDeviceUplinkMetricsInMemory_spec (memory : Memory) (reporter : List EventRef)
    (organizationID : String) (devices : GoMap Serial DeviceRef) (uplinks : List Uplink)
    (hvalid : ∀ serial device a, devices.get serial = some device → device.Details = some a →
      a < memory.next) :
    ∃ (result : Memory) (events : List EventRef),
      reportDeviceUplinkMetricsInMemory memory reporter organizationID devices uplinks =
        (result, reporter ++ events) ∧
      memory.next ≤ result.next ∧
      (∀ b < memory.next, result.cells b = memory.cells b) ∧
      (∀ event ∈ events, memory.next ≤ event.ModuleFields ∧ event.ModuleFields < result.next) ∧
      readEvents result events =
        reportDeviceUplinkMetrics [] organizationID (loadDevices memory devices) uplinks := by
  obtain ⟨memory1, metrics, hfold, hn1, hc1, hr1, hnd1, hmap1⟩ :=
    foldl_appendUplinkMetricsInMemory_spec devices uplinks memory [] hvalid
  rw [List.nil_append] at hfold
  obtain ⟨result, events, hrun, hn2, hc2, hr2, hread⟩ :=
    foldl_reportMetricInMemory_spec organizationID metrics memory1 reporter
      (fun a ha => (hr1 a ha).2) hnd1
  refine ⟨result, events, ?_, by omega, ?_, ?_, ?_⟩
  · simp only [reportDeviceUplinkMetricsInMemory, hfold, reportMetricsForOrganizationInMemory,
      List.foldl_cons, List.foldl_nil, hrun]
  · intro b hb
    have hnot : b ∉ metrics := by
      intro hin
      have := hr1 b hin
      omega
    rw [hc2 b (by omega) hnot, hc1 b hb]
  · intro event he
    have := hr2 event he
    omega
  · rw [hread, reportDeviceUplinkMetrics_eq, List.nil_append, ← List.map_flatMap, ← hmap1,
      List.map_map]
    rfl

end device_uplinks_loss_and_latency

namespace device_uplinks_loss_and_latency

/-- C15: running `reportDeviceUplinkMetrics` twice on the same inventory and the
same sample list yields identical event sequences, and leaves the inventory and
the samples unchanged. With the maps held in memory and every `Details` of the
inventory a reference to a map of that memory: the events of the first run hold
what the function on values emits for the inventory; the events of the second run,
started in the memory that the first run leaves, hold the same, and the events of
the first run still do after it; every map that exists before the first run, the
detail maps of the inventory among them, is the same after the first run and after
the second, so the inventory that the memory holds is the same. The maps written
to are the metric maps and the event maps, all made during the call. The samples
hold no map; they are read only. -/
theorem reportDeviceUplinkMetrics_twice (memory : Memory) (organizationID : String)
    (devices : GoMap Serial DeviceRef) (uplinks : List Uplink)
    (hvalid : ∀ serial device a, devices.get serial = some device → device.Details = some a →
      a < memory.next) :
    readEvents (reportDeviceUplinkMetricsInMemory memory [] organizationID devices uplinks).1
        (reportDeviceUplinkMetricsInMemory memory [] organizationID devices uplinks).2 =
      reportDeviceUplinkMetrics [] organizationID (loadDevices memory devices) uplinks ∧
    readEvents
        (reportDeviceUplinkMetricsInMemory
          (reportDeviceUplinkMetricsInMemory memory [] organizationID devices uplinks).1 []
          organizationID devices uplinks).1
        (reportDeviceUplinkMetricsInMemory
          (reportDeviceUplinkMetricsInMemory memory [] organizationID devices uplinks).1 []
          organizationID devices uplinks).2 =
      readEvents (reportDeviceUplinkMetricsInMemory memory [] organizationID devices uplinks).1
        (reportDeviceUplinkMetricsInMemory memory [] organizationID devices uplinks).2 ∧
    readEvents
        (reportDeviceUplinkMetricsInMemory
          (reportDeviceUplinkMetricsInMemory memory [] organizationID devices uplinks).1 []
          organizationID devices uplinks).1
        (reportDeviceUplinkMetricsInMemory memory [] organizationID devices uplinks).2 =
      readEvents (reportDeviceUplinkMetricsInMemory memory [] organizationID devices uplinks).1
        (reportDeviceUplinkMetricsInMemory memory [] organizationID devices uplinks).2 ∧
    (∀ a < memory.next,
      (reportDeviceUplinkMetricsInMemory memory [] organizationID devices uplinks).1.cells a =
          memory.cells a ∧
        (reportDeviceUplinkMetricsInMemory
          (reportDeviceUplinkMetricsInMemory memory [] organizationID devices uplinks).1 []
          organizationID devices uplinks).1.cells a = memory.cells a) ∧
    loadDevices (reportDeviceUplinkMetricsInMemory memory [] organizationID devices uplinks).1
        devices = loadDevices memory devices ∧
    loadDevices
        (reportDeviceUplinkMetricsInMemory
          (reportDeviceUplinkMetricsInMemory memory [] organizationID devices uplinks).1 []
          organizationID devices uplinks).1 devices = loadDevices memory devices := by
  obtain ⟨memory1, events1, hrun1, hn1, hc1, hr1, hread1⟩ :=
    reportDeviceUplinkMetricsInMemory_spec memory [] organizationID devices uplinks hvalid
  rw [List.nil_append] at hrun1
  have hvalid1 : ∀ serial device a, devices.get serial = some device →
      device.Details = some a → a < memory1.next :=
    fun serial device a hg hd => lt_of_lt_of_le (hvalid serial device a hg hd) hn1
  obtain ⟨memory2, events2, hrun2, hn2, hc2, hr2, hread2⟩ :=
    reportDeviceUplinkMetricsInMemory_spec memory1 [] organizationID devices uplinks hvalid1
  rw [List.nil_append] at hrun2
  have hload1 : loadDevices memory1 devices = loadDevices memory devices :=
    loadDevices_congr memory memory1 devices hvalid hc1
  have hc12 : ∀ a < memory.next, memory2.cells a = memory.cells a := by
    intro a ha
    rw [hc2 a (by omega), hc1 a ha]
  have hload2 : loadDevices memory2 devices = loadDevices memory devices :=
    loadDevices_congr memory memory2 devices hvalid hc12
  rw [hrun1]
  simp only []
  rw [hrun2]
  simp only []
  refine ⟨hread1, ?_, ?_, fun a ha => ⟨hc1 a ha, hc12 a ha⟩, hload1, hload2⟩
  · rw [hread2, hread1, hload1]
  · simp only [readEvents]
    apply List.map_congr_left
    intro event he
    rw [Memory.fieldsAt_congr memory1 memory2 _ (hc2 _ (hr1 event he).2)]

/-- C15 on the scenario: the memory holds the details of the device `S1` at
address 0, and the sample list is the one sample of `S1`. Both runs emit the same
single event, with the detail `rack` of the device, and the details at address 0
are what they were. -/
theorem reportDeviceUplinkMetrics_twice_witness :
    (∀ serial device a, (GoMap.ofList [("S1", scenarioDeviceRef)]).get serial = some device →
      device.Details = some a → a < scenarioMemory.next) ∧
    (readEvents
        (reportDeviceUplinkMetricsInMemory scenarioMemory [] "org1"
          (GoMap.ofList [("S1", scenarioDeviceRef)]) [scenarioUplink 1700000000]).1
        (reportDeviceUplinkMetricsInMemory scenarioMemory [] "org1"
          (GoMap.ofList [("S1", scenarioDeviceRef)]) [scenarioUplink 1700000000]).2).length
      = 1 ∧
    readEvents
        (reportDeviceUplinkMetricsInMemory
          (reportDeviceUplinkMetricsInMemory scenarioMemory [] "org1"
            (GoMap.ofList [("S1", scenarioDeviceRef)]) [scenarioUplink 1700000000]).1 []
          "org1" (GoMap.ofList [("S1", scenarioDeviceRef)]) [scenarioUplink 1700000000]).1
        (reportDeviceUplinkMetricsInMemory
          (reportDeviceUplinkMetricsInMemory scenarioMemory [] "org1"
            (GoMap.ofList [("S1", scenarioDeviceRef)]) [scenarioUplink 1700000000]).1 []
          "org1" (GoMap.ofList [("S1", scenarioDeviceRef)]) [scenarioUplink 1700000000]).2 =
      readEvents
        (reportDeviceUplinkMetricsInMemory scenarioMemory [] "org1"
          (GoMap.ofList [("S1", scenarioDeviceRef)]) [scenarioUplink 1700000000]).1
        (reportDeviceUplinkMetricsInMemory scenarioMemory [] "org1"
          (GoMap.ofList [("S1", scenarioDeviceRef)]) [scenarioUplink 1700000000]).2 ∧
    (reportDeviceUplinkMetricsInMemory
        (reportDeviceUplinkMetricsInMemory scenarioMemory [] "org1"
          (GoMap.ofList [("S1", scenarioDeviceRef)]) [scenarioUplink 1700000000]).1 []
        "org1" (GoMap.ofList [("S1", scenarioDeviceRef)]) [scenarioUplink 1700000000]).1.cells 0
      = some (.details (GoMap.ofList [("rack", "7")])) := by
  have hvalid : ∀ serial device a,
      (GoMap.ofList [("S1", scenarioDeviceRef)]).get serial = some device →
      device.Details = some a → a < scenarioMemory.next := by
    intro serial device a hget hd
    have hdev : device = scenarioDeviceRef := by
      by_cases hs : serial = "S1"
      · subst hs
        have h1 : (GoMap.ofList [("S1", scenarioDeviceRef)]).get "S1" =
            some scenarioDeviceRef := by decide
        rw [h1] at hget
        exact (Option.some.inj hget).symm
      · have hnone : (GoMap.ofList [("S1", scenarioDeviceRef)]).get serial = none := by
          simp [GoMap.ofList, GoMap.putAll, GoMap.get_put, hs]
        rw [hnone] at hget
        cases hget
    subst hdev
    have ha : a = 0 := (Option.some.inj hd).symm
    subst ha
    decide
  have h := reportDeviceUplinkMetrics_twice scenarioMemory "org1"
    (GoMap.ofList [("S1", scenarioDeviceRef)]) [scenarioUplink 1700000000] hvalid
  refine ⟨hvalid, ?_, h.2.1, ?_⟩
  · rw [h.1, reportDeviceUplinkMetrics_flatMap]
    have hget : (loadDevices scenarioMemory (GoMap.ofList [("S1", scenarioDeviceRef)])).get
        (scenarioUplink 1700000000).DeviceSerial = some (scenarioDeviceRef.load scenarioMemory) := by
      rw [get_loadDevices]
      rfl
    simp only [List.flatMap_cons, List.flatMap_nil, hget, List.nil_append, List.append_nil,
      List.length_map]
    rfl
  · exact ((h.2.2.2.1 0 (by decide)).2).trans rfl

end device_uplinks_loss_and_latency

end Meraki

namespace Panos

open Meraki

namespace temperature

/-! ## Thermal events -/

/-- The metric fields the variable `event` holds after the inner loop: those of
the last entry, or the ones it held before when there is no entry. -/
theorem assignEntries_fields (entries : List Entry) (event : Event) :
    (assignEntries event entries).MetricSetFields =
      match entries.getLast? with
      | some entry => some (entryFields entry)
      | none => event.MetricSetFields := by
  induction entries generalizing event with
  | nil => rfl
  | cons entry rest ih =>
    have ih' := ih (⟨some (entryFields entry), none, 0⟩ : Event)
    simp only [assignEntries, List.foldl_cons] at ih' ⊢
    rw [ih', List.getLast?_cons]
    cases rest.getLast? <;> rfl

theorem foldl_slotStep (HostIp : String) (currentTime : Time) (slots : List Slot)
    (events : List Event) (event : Event) :
    (slots.foldl (slotStep HostIp currentTime) (events, event)).1 =
        events ++ (slots.foldl (slotStep HostIp currentTime) ([], event)).1 ∧
      (slots.foldl (slotStep HostIp currentTime) (events, event)).2 =
        (slots.foldl (slotStep HostIp currentTime) ([], event)).2 := by
  induction slots generalizing events event with
  | nil => simp
  | cons slot rest ih =>
    simp only [List.foldl_cons, slotStep, List.nil_append]
    constructor
    · rw [(ih _ _).1, (ih [_] _).1, List.append_assoc]
    · rw [(ih _ _).2, (ih [_] _).2]

theorem length_foldl_slotStep (HostIp : String) (currentTime : Time) (slots : List Slot)
    (event : Event) :
    (slots.foldl (slotStep HostIp currentTime) ([], event)).1.length = slots.length := by
  induction slots generalizing event with
  | nil => rfl
  | cons slot rest ih =>
    simp only [List.foldl_cons, slotStep, List.nil_append]
    rw [(foldl_slotStep HostIp currentTime rest _ _).1, List.length_append, ih]
    simp [Nat.add_comm]

/-- The metric fields the variable `event` holds after some slots: those of the
last entry of these slots, or the ones it held before when they have no entry. -/
theorem fields_foldl_slotStep (HostIp : String) (currentTime : Time) (slots : List Slot)
    (event : Event) :
    (slots.foldl (slotStep HostIp currentTime) ([], event)).2.MetricSetFields =
      match (slots.flatMap (fun slot => slot.Entries)).getLast? with
      | some entry => some (entryFields entry)
      | none => event.MetricSetFields := by
  induction slots generalizing event with
  | nil => rfl
  | cons slot rest ih =>
    simp only [List.foldl_cons, slotStep, List.nil_append]
    rw [(foldl_slotStep HostIp currentTime rest _ _).2, ih, List.flatMap_cons,
      List.getLast?_append]
    cases (rest.flatMap (fun slot => slot.Entries)).getLast? with
    | some entry => rfl
    | none =>
      simp only [Option.or]
      exact assignEntries_fields slot.Entries event

theorem stamped_foldl_slotStep (HostIp : String) (currentTime : Time) (slots : List Slot)
    (event : Event) :
    ∀ e ∈ (slots.foldl (slotStep HostIp currentTime) ([], event)).1,
      e.Timestamp = currentTime ∧
      e.RootFields = some (GoMap.ofList [("observer.ip", .str HostIp)]) := by
  induction slots generalizing event with
  | nil => intro e he; cases he
  | cons slot rest ih =>
    intro e he
    simp only [List.foldl_cons, slotStep, List.nil_append] at he
    rw [(foldl_slotStep HostIp currentTime rest _ _).1] at he
    rcases List.mem_append.mp he with h | h
    · simp only [List.mem_singleton] at h
      subst h
      exact ⟨rfl, rfl⟩
    · exact ih _ e h

end temperature

end Panos

namespace Panos

open Meraki

namespace temperature

/-- C21: for every thermal response, `getEvents` returns exactly one event per
slot, not one per entry, and all events carry the one timestamp taken before the
loop, with `observer.ip`. The event of a slot with at least one entry carries
exactly the fields of that slot's last entry. The event of a slot with no entries
repeats the metric fields of the most recent earlier slot that has entries, and
carries none when no earlier slot has entries. -/
theorem getEvents_one_event_per_slot (HostIp : String) (currentTime : Time)
    (response : Response) :
    (getEvents HostIp currentTime response).length = response.Slots.length ∧
    (∀ event ∈ getEvents HostIp currentTime response,
      event.Timestamp = currentTime ∧
      event.RootFields = some (GoMap.ofList [("observer.ip", .str HostIp)])) ∧
    ∀ (before after : List Slot) (slot : Slot), response.Slots = before ++ slot :: after →
      ∃ event : Event,
        (getEvents HostIp currentTime response)[before.length]? = some event ∧
        (∀ entry : Entry, slot.Entries.getLast? = some entry →
          event.MetricSetFields = some (entryFields entry)) ∧
        (slot.Entries = [] → (∀ s ∈ before, s.Entries = []) →
          event.MetricSetFields = none) ∧
        (slot.Entries = [] →
          ∀ (earlier empties : List Slot) (s : Slot) (entry : Entry),
            before = earlier ++ s :: empties → (∀ e ∈ empties, e.Entries = []) →
            s.Entries.getLast? = some entry →
            event.MetricSetFields = some (entryFields entry)) := by
  refine ⟨length_foldl_slotStep HostIp currentTime response.Slots _,
    stamped_foldl_slotStep HostIp currentTime response.Slots _, ?_⟩
  intro before after slot hsplit
  have hrun : getEvents HostIp currentTime response =
      (before.foldl (slotStep HostIp currentTime)
          ([], ⟨none, none, 0⟩)).1 ++
        (slotStep HostIp currentTime
          (before.foldl (slotStep HostIp currentTime) ([], ⟨none, none, 0⟩)) slot).2 ::
        (after.foldl (slotStep HostIp currentTime)
          ([], (slotStep HostIp currentTime
            (before.foldl (slotStep HostIp currentTime) ([], ⟨none, none, 0⟩)) slot).2)).1 := by
    unfold getEvents
    rw [hsplit, List.foldl_append, List.foldl_cons, (foldl_slotStep _ _ after _ _).1]
    simp [slotStep]
  have hfields : (slotStep HostIp currentTime
      (before.foldl (slotStep HostIp currentTime) ([], ⟨none, none, 0⟩)) slot).2.MetricSetFields =
      match slot.Entries.getLast? with
      | some entry => some (entryFields entry)
      | none =>
        match (before.flatMap (fun slot => slot.Entries)).getLast? with
        | some entry => some (entryFields entry)
        | none => none := by
    show (assignEntries _ slot.Entries).MetricSetFields = _
    rw [assignEntries_fields, fields_foldl_slotStep]
  refine ⟨(slotStep HostIp currentTime
      (before.foldl (slotStep HostIp currentTime) ([], ⟨none, none, 0⟩)) slot).2, ?_, ?_, ?_, ?_⟩
  · rw [hrun, List.getElem?_append_right (by
      rw [length_foldl_slotStep]), length_foldl_slotStep]
    simp
  · intro entry hlast
    rw [hfields, hlast]
  · intro hempty hall
    have hflat : before.flatMap (fun slot => slot.Entries) = [] := by
      rw [List.flatMap_eq_nil_iff]
      exact hall
    rw [hfields, hempty, hflat]
    rfl
  · intro hempty earlier empties s entry hbefore hempties hlast
    have hflat : (empties.flatMap (fun slot => slot.Entries)) = [] := by
      rw [List.flatMap_eq_nil_iff]
      exact hempties
    rw [hfields, hempty, hbefore, List.flatMap_append, List.flatMap_cons, hflat,
      List.append_nil, List.getLast?_append, hlast]
    rfl

/-- C21 on a response with three slots: an empty one, one with the two entries
of 30 and 35 degrees, and an empty one. The three events carry no metric fields,
the fields of the entry of 35 degrees, and these fields again. -/
theorem getEvents_one_event_per_slot_witness :
    getEvents "192.0.2.1" 1700000000
        { Slots := [{ Entries := [] },
                    { Entries := [scenarioThermal 1 30, scenarioThermal 1 35] },
                    { Entries := [] }] } =
      [ { MetricSetFields := none,
          RootFields := some (GoMap.ofList [("observer.ip", .str "192.0.2.1")]),
          Timestamp := 1700000000 },
        { MetricSetFields := some (entryFields (scenarioThermal 1 35)),
          RootFields := some (GoMap.ofList [("observer.ip", .str "192.0.2.1")]),
          Timestamp := 1700000000 },
        { MetricSetFields := some (entryFields (scenarioThermal 1 35)),
          RootFields := some (GoMap.ofList [("observer.ip", .str "192.0.2.1")]),
          Timestamp := 1700000000 } ] ∧
      (getEvents "192.0.2.1" 1700000000
        { Slots := [{ Entries := [] },
                    { Entries := [scenarioThermal 1 30, scenarioThermal 1 35] },
                    { Entries := [] }] }).length = 3 :=
  ⟨by decide,
    (getEvents_one_event_per_slot "192.0.2.1" 1700000000
      { Slots := [{ Entries := [] },
                  { Entries := [scenarioThermal 1 30, scenarioThermal 1 35] },
                  { Entries := [] }] }).1⟩

end temperature

end Panos
